import Mathlib

/-!
# EmulationStation: texture cache and game-list session

A shallow embedding of `src/resources/TextureResource.cpp` and
`src/components/GuiGameList.cpp`, followed by theorems about them.

Conventions of the embedding:
* C++ objects that are shared through pointers live in a store (a list) and a
  pointer is the index of its cell; a null pointer is `none`.
* `std::shared_ptr` / `std::weak_ptr` are modelled by a strong count kept in the
  cell of the object: a weak pointer is expired exactly when the count is `0`.
* Calls into collaborators whose code lives elsewhere (OpenGL, the image
  decoder, the resource manager, the theme, the list component, the window) are
  either taken from an environment record or recorded in the state.
* Members of type `int` are unbounded integers (signed overflow is undefined in
  the source); `size_t` arithmetic wraps modulo `2 ^ 64`.
* `float` arithmetic is taken over exact rationals.
-/

namespace Tex

/-! ## TextureResource.cpp -/

/-- Bytes of a resource file (`ResourceData`): the pointer and the length. -/
abbrev ResourceData := List Nat

/-- Result of `ImageIO::loadFromMemoryRGBA32`: the RGBA pixel buffer and the two
out-parameters `width` and `height`. An empty buffer means the decode failed. -/
structure Decoded where
  imageRGBA : List Nat
  width : Nat
  height : Nat
deriving DecidableEq, Repr

/-- Collaborators of the texture code: the resource manager's file access, the
image decoder and the renderer's screen size. -/
structure Env where
  getFileData : String → ResourceData
  loadFromMemoryRGBA32 : ResourceData → Decoded
  getScreenWidth : Int
  getScreenHeight : Int

/-- What the texture code drives outside itself: the OpenGL texture names
(`glGenTextures` hands out `glGenerated + 1`, never `0`), the live texture
objects with the dimensions uploaded to them, the number of decoder calls and
the error log. -/
structure Device where
  glGenerated : Nat
  glTextures : List (Nat × Int × Int)
  decodes : Nat
  log : List String
deriving DecidableEq, Repr

/-- The members of a `TextureResource`. -/
structure TextureResource where
  mTextureID : Nat
  mPath : String
  mTextureSize : Int × Int
deriving DecidableEq, Repr

/-- Source: `glDeleteTextures(1, &id)`. -/
def glDeleteTextures (d : Device) (id : Nat) : Device :=
  { d with glTextures := d.glTextures.filter (fun e => e.1 != id) }

/-- Source: `glGenTextures(1, &id)` followed by `glBindTexture` and the upload
(`glTexImage2D` or `glCopyTexImage2D`) of a `w` x `h` image: returns the new
texture name. -/
def glGenAndUpload (d : Device) (w h : Int) : Device × Nat :=
  ({ d with glGenerated := d.glGenerated + 1,
            glTextures := (d.glGenerated + 1, w, h) :: d.glTextures },
   d.glGenerated + 1)

/-- Source: `TextureResource::deinit`. -/
def deinit (d : Device) (t : TextureResource) : Device × TextureResource :=
  if t.mTextureID != 0 then
    (glDeleteTextures d t.mTextureID, { t with mTextureID := 0 })
  else
    (d, t)

/-- The common body of `initFromResource` and `initFromMemory`, which differ in
the text of the logged error only. -/
def initFromData (env : Env) (msg : String) (d : Device) (t : TextureResource)
    (data : ResourceData) : Device × TextureResource :=
  let (d1, t1) := deinit d t
  let img := env.loadFromMemoryRGBA32 data
  let d2 := { d1 with decodes := d1.decodes + 1 }
  if img.imageRGBA.length == 0 then
    ({ d2 with log := d2.log ++ [msg] }, t1)
  else
    let (d3, id) := glGenAndUpload d2 img.width img.height
    (d3, { t1 with mTextureID := id, mTextureSize := (img.width, img.height) })

/-- Source: `TextureResource::initFromResource`. -/
def initFromResource (env : Env) (d : Device) (t : TextureResource)
    (data : ResourceData) : Device × TextureResource :=
  initFromData env "Could not initialize texture (invalid resource data)!" d t data

/-- Source: `TextureResource::initFromMemory`. -/
def initFromMemory (env : Env) (d : Device) (t : TextureResource)
    (data : ResourceData) : Device × TextureResource :=
  initFromData env "Could not initialize texture from memory (invalid data)!" d t data

/-- Source: `TextureResource::initFromScreen`: both components of the size are assigned
from `height`, as in the source. -/
def initFromScreen (env : Env) (d : Device) (t : TextureResource) :
    Device × TextureResource :=
  let (d1, t1) := deinit d t
  let width := env.getScreenWidth
  let height := env.getScreenHeight
  let (d2, id) := glGenAndUpload d1 width height
  (d2, { t1 with mTextureID := id, mTextureSize := (height, height) })

/-- Source: `TextureResource::reload`. -/
def reload (env : Env) (d : Device) (t : TextureResource) : Device × TextureResource :=
  if !t.mPath.isEmpty then initFromResource env d t (env.getFileData t.mPath) else (d, t)

/-- Source: `TextureResource::unload`. -/
def unload (d : Device) (t : TextureResource) : Device × TextureResource :=
  deinit d t

/-- The constructor `TextureResource::TextureResource(path)`. -/
def construct (env : Env) (d : Device) (path : String) : Device × TextureResource :=
  reload env d { mTextureID := 0, mPath := path, mTextureSize := (0, 0) }

/-- Source: `TextureResource::getSize`. -/
def getSize (t : TextureResource) : Int × Int := t.mTextureSize

/-- Source: `TextureResource::bind`: binds the texture, or logs an error when there is
none. -/
def bind (d : Device) (t : TextureResource) : Device :=
  if t.mTextureID != 0 then d
  else { d with log := d.log ++ ["Tried to bind uninitialized texture!"] }

/-- A heap cell: the object and the number of `shared_ptr`s that own it. -/
structure Cell where
  obj : TextureResource
  strong : Nat
deriving DecidableEq, Repr

/-- The process-wide state: the device, the heap of `TextureResource` objects
(addresses are never reused), the static `sTextureMap` of weak pointers and the
resource manager's list of weakly held reloadables. -/
structure World where
  dev : Device
  heap : List Cell
  sTextureMap : List (String × Nat)
  reloadables : List Nat
deriving DecidableEq, Repr

/-- The state at process start. -/
def World.empty : World :=
  { dev := { glGenerated := 0, glTextures := [], decodes := 0, log := [] },
    heap := [], sTextureMap := [], reloadables := [] }

/-- Whether the object at `a` is owned by some `shared_ptr`. -/
def live (w : World) (a : Nat) : Bool :=
  match w.heap[a]? with
  | some c => decide (0 < c.strong)
  | none => false

/-- Source: `weak_ptr::expired` for a weak pointer to the object at `a`. -/
def expired (w : World) (a : Nat) : Bool := !live w a

/-- Source: `weak_ptr::lock` on a live object, or the copy of a `shared_ptr`: one more
owner. -/
def lock (w : World) (a : Nat) : World :=
  match w.heap[a]? with
  | some c => { w with heap := w.heap.set a { c with strong := c.strong + 1 } }
  | none => w

/-- Source: `sTextureMap[path] = weak_ptr(tex)`: insert or overwrite the entry of the
key. -/
def mapAssign (m : List (String × Nat)) (path : String) (a : Nat) : List (String × Nat) :=
  (path, a) :: m.filter (fun e => e.1 != path)

/-- Source: `new TextureResource(path)` wrapped in a `shared_ptr`: the object is built
at the next free address with one owner. -/
def allocate (env : Env) (w : World) (path : String) : World × Nat :=
  let (d, t) := construct env w.dev path
  ({ w with dev := d, heap := w.heap ++ [{ obj := t, strong := 1 }] }, w.heap.length)

/-- Modelled from the spec: `ResourceManager::addReloadable` is defined with the
resource manager. The entry takes part in reload notifications, and only its
callers keep it alive: the manager records a weak pointer. -/
def addReloadable (w : World) (a : Nat) : World :=
  { w with reloadables := w.reloadables ++ [a] }

/-- Source: `TextureResource::get`. -/
def get (env : Env) (w : World) (path : String) : World × Nat :=
  if path.isEmpty then
    let (w1, tex) := allocate env w ""
    (addReloadable w1 tex, tex)
  else
    match w.sTextureMap.lookup path with
    | some found =>
      if !expired w found then
        (lock w found, found)
      else
        let (w1, tex) := allocate env w path
        (addReloadable { w1 with sTextureMap := mapAssign w1.sTextureMap path tex } tex, tex)
    | none =>
      let (w1, tex) := allocate env w path
      (addReloadable { w1 with sTextureMap := mapAssign w1.sTextureMap path tex } tex, tex)

/-- Run a member function on the object at `a` if some `shared_ptr` owns it. -/
def onObject (w : World) (a : Nat)
    (f : Device → TextureResource → Device × TextureResource) : World :=
  match w.heap[a]? with
  | some c =>
    if 0 < c.strong then
      let (d, t) := f w.dev c.obj
      { w with dev := d, heap := w.heap.set a { c with obj := t } }
    else w
  | none => w

/-- Destruction of one `shared_ptr` to the object at `a`; the destructor
`~TextureResource` (that is `deinit`) runs when the last owner goes. -/
def release (w : World) (a : Nat) : World :=
  match w.heap[a]? with
  | some c =>
    if c.strong = 1 then
      let (d, t) := deinit w.dev c.obj
      { w with dev := d, heap := w.heap.set a { obj := t, strong := 0 } }
    else if 1 < c.strong then
      { w with heap := w.heap.set a { c with strong := c.strong - 1 } }
    else w
  | none => w

/-- What a client of the cache can do. -/
inductive Op where
  | get (path : String)
  | copy (handle : Nat)
  | release (handle : Nat)
  | reload (handle : Nat)
  | unload (handle : Nat)
  | initFromScreen (handle : Nat)
  | initFromMemory (handle : Nat) (data : ResourceData)
deriving DecidableEq, Repr

/-- One client operation; a handle that owns nothing cannot be used. -/
def step (env : Env) (w : World) : Op → World
  | .get path => (get env w path).1
  | .copy a => if live w a then lock w a else w
  | .release a => release w a
  | .reload a => onObject w a (reload env)
  | .unload a => onObject w a unload
  | .initFromScreen a => onObject w a (initFromScreen env)
  | .initFromMemory a data => onObject w a (fun d t => initFromMemory env d t data)

/-- The world after a sequence of client operations. -/
def run (env : Env) (w : World) (ops : List Op) : World :=
  ops.foldl (step env) w

/-- The path of the object at `a`. -/
def pathAt (w : World) (a : Nat) : Option String :=
  (w.heap[a]?).map (fun c => c.obj.mPath)


/-! ### Invariant and sample data -/

/-- Every owned object with a non-empty path is the one registered under its
path. -/
def Registered (w : World) : Prop :=
  ∀ a c, w.heap[a]? = some c → 0 < c.strong → c.obj.mPath ≠ "" →
    w.sTextureMap.lookup c.obj.mPath = some a

/-- A decoder that accepts every non-empty file as a 2 x 3 image, on a screen of
640 x 480. -/
def envDemo : Env :=
  { getFileData := fun path => if path = "missing.png" then [] else [137, 80, 78, 71],
    loadFromMemoryRGBA32 := fun data =>
      if data = [] then { imageRGBA := [], width := 0, height := 0 }
      else { imageRGBA := List.replicate 24 255, width := 2, height := 3 },
    getScreenWidth := 640,
    getScreenHeight := 480 }

/-- Two paths requested, the second handle dropped again. -/
def opsDemo : List Op := [.get "a.png", .get "b.png", .release 1]

end Tex

namespace Gui

/-! ## GuiGameList.cpp -/

/-- Modelled from the spec: `FileData`, `FolderData` and `GameData` are declared
with the library. A node is either a folder (an ordered sequence of child
pointers, read by `getFileCount` and `getFile`) or a game (a leaf whose metadata
holds the ordered `image` list), and optionally carries the time it was last
selected at. The field `selected` is what `isSelected()` returns: `none` is
`not_a_date_time`, `some n` is `n` seconds after `min_date_time`. -/
structure FileData where
  isFolder : Bool
  name : String
  baseName : String
  files : List Nat
  images : List String
  selected : Option Nat
deriving DecidableEq, Repr, Inhabited

/-- Modelled from the spec: `SystemData` is declared with the library. What the
code reads of a system: its name, its root folder, the directory the emulator
dumps screenshots into and the screenshot directory of the system. -/
structure SystemData where
  name : String
  rootFolder : Nat
  emulatorScreenshotDumpDir : String
  screenshotDir : String
deriving DecidableEq, Repr, Inhabited

/-- An entry of the file system: its path (as `generic_string()` prints it) and
its last write time, in seconds on the scale of the clock. -/
structure FsEntry where
  path : String
  mtime : Nat
deriving DecidableEq, Repr

/-- Modelled from the spec: `Input` is declared with the input manager. An input
event carries the raw key and a value that is 0 on release. -/
structure Input where
  id : Nat
  value : Int
deriving DecidableEq, Repr

/-- Modelled from the spec: `InputConfig` is declared with the input manager. It
maps events to the logical actions: `isMappedTo(name, input)`. -/
structure InputConfig where
  isMappedTo : String → Input → Bool

/-- The key code `SDLK_F3` (SDL 1.2 numbering). -/
def SDLK_F3 : Nat := 284

/-- The key code `SDLK_F5` (SDL 1.2 numbering). -/
def SDLK_F5 : Nat := 286

/-- The member-function pointer `mEffectFunc`. -/
inductive EffectFunc where
  | null
  | updateGameLaunchEffect
  | updateGameReturnEffect
deriving DecidableEq, Repr

/-- Calls into collaborators that leave no other mark on the state, in the order
they are made. -/
inductive Call where
  | logError (msg : String)
  | playSound (name : String)
  | stopScrolling
  | pushGuiMetaDataEd (game : Nat)
  | pushGuiScraperStart
  | pushGuiMenu
  | pushGuiFastSelect (name : String)
  | doTransition (dir : Int)
  | transitionImageSetImage (path : String)
  | launchGame (game : Nat)
  | folderSort (folder : Nat) (sortState : Nat)
deriving DecidableEq, Repr

/-- The geometry of the child components that the launch effect reads: the
centre of the single screenshot image when that component exists, size and
position of the screenshot stack when that one exists, position and size of the
list; and whether the description container is attached. -/
structure View where
  mScreenshot : Option (ℚ × ℚ)
  mScreenshots : Option ((ℚ × ℚ) × (ℚ × ℚ))
  listPosition : ℚ × ℚ
  listSize : ℚ × ℚ
  descContainerAttached : Bool

/-- The text list `mList`: its rows (pointers to `FileData`) and `mSelection`. -/
structure TextList where
  rows : List Nat
  selection : Nat
deriving DecidableEq, Repr

/-- Collaborators of the game list: the renderer, the theme, the list component,
the library and the emulator. -/
structure Env where
  /-- Source: `Renderer::getScreenWidth()`. -/
  getScreenWidth : Int
  /-- Source: `Renderer::getScreenHeight()`. -/
  getScreenHeight : Int
  /-- Source: `mTheme->getSound("menuSelect")->getLengthMS()`, cast to `int`, for the
  theme of the given system. -/
  menuSelectLengthMS : Int → Int
  /-- Source: `TextListComponent::input`: the selection it leaves. -/
  listInput : TextList → InputConfig → Input → Nat
  /-- Source: `FolderData::sort` on the given folder with the given sort state: the new
  library. -/
  folderSort : List FileData → Nat → Nat → List FileData
  /-- Source: `TextListComponent::update`, reached through `GuiComponent::update`: the
  selection it leaves after the given time. -/
  listUpdate : TextList → Int → Nat
  /-- Source: `SystemData::launchGame`: what running the emulator does to the files. -/
  launchGame : List FsEntry → Nat → List FsEntry
  /-- What `mTransitionAnimation.update` and `mImageAnimation.update` do to the
  geometry of the child components in the given time. -/
  animationUpdate : View → Int → View
  /-- The size of the list component when it is created. -/
  initialListSize : ℚ × ℚ
  /-- The layout `updateTheme` gives the child components (system, detailed). -/
  themeLayout : Int → Bool → View → View
  /-- The layout the detailed branch of `updateDetailData` gives for a game. -/
  detailLayout : FileData → View → View
  /-- The value of a local `Eigen::Vector2f` that was never assigned. -/
  unassigned : ℚ × ℚ

/-- The state: the library and the process-wide data the session works on
(`files` is the store of `FileData` nodes, `systems` is
`SystemData::sSystemVector`, `fs` the file system, `settingsSortIndex` the
setting `GameListSortIndex`), the members of `GuiGameList`, and what it has set
on the window. A pointer to a `FileData` is its index in `files`; `mSystem` is
the index in `systems`. -/
structure State where
  files : List FileData
  systems : List SystemData
  fs : List FsEntry
  settingsSortIndex : Int
  mSystemId : Int
  mSystem : Option Nat
  mFolder : Option Nat
  mFolderStack : List Nat
  mList : TextList
  sortStateIndex : Nat
  mLockInput : Bool
  mEffectFunc : EffectFunc
  mEffectTime : Int
  mGameLaunchEffectLength : Int
  view : View
  centerPoint : Option (ℚ × ℚ)
  zoomFactor : Option ℚ
  fadePercent : Option ℚ
  calls : List Call

/-- The width of `size_t`. -/
def SIZE_BITS : Nat := 64

/-- Arithmetic in `size_t`. -/
def wrapSize (n : Int) : Nat := (n % (2 ^ SIZE_BITS : Int)).toNat

/-- The cast `(int)` of a `size_t`. -/
def toInt32 (n : Nat) : Int :=
  if n % 2 ^ 32 < 2 ^ 31 then (n % 2 ^ 32 : Nat) else (n % 2 ^ 32 : Nat) - 2 ^ 32

/-- The static vector `sortStates` as the constructor fills it: comparison
function, ascending flag, label. -/
def sortStates : List (String × Bool × String) :=
  [("compareFileName", true, "file name, ascending"),
   ("compareFileName", false, "file name, descending"),
   ("compareRating", true, "rating, ascending"),
   ("compareRating", false, "rating, descending"),
   ("compareTimesPlayed", true, "played least often"),
   ("compareTimesPlayed", false, "played most often"),
   ("compareLastPlayed", true, "played least recently"),
   ("compareLastPlayed", false, "played most recently")]

/-- Dereference of a non-null `FileData` pointer. -/
def State.file (s : State) (p : Nat) : FileData := s.files.getD p default

/-- Record a call. -/
def State.call (s : State) (c : Call) : State := { s with calls := s.calls ++ [c] }

/-- Modelled from the spec: `getSelectedObject` is defined with the list
component. The session has a current selection; the call gives the object of
the selected row, and null when there is none (`updateDetailData` and
`importFreshScreenshots` test for it). -/
def getSelectedObject (s : State) : Option Nat := s.mList.rows[s.mList.selection]?

/-- Modelled from the spec: `FileData::setSelected(bool)` is defined with
`FileData`, not in `GuiGameList.cpp`. A node optionally carries the time it was
last selected at; `setSelected(true)` stamps it with the current time and
`setSelected(false)` clears the stamp. -/
def setSelected (s : State) (p : Nat) (stamp : Option Nat) : State :=
  { s with files := s.files.set p { s.file p with selected := stamp } }

/-- The loop of `isDetailed` over the files of the current folder. -/
def anyGameWithImage (s : State) : List Nat → Bool
  | [] => false
  | p :: rest =>
    if !(s.file p).isFolder then
      if (s.file p).images.length != 0 then true else anyGameWithImage s rest
    else anyGameWithImage s rest

/-- Source: `GuiGameList::isDetailed`. -/
def isDetailed (s : State) : Bool :=
  match s.mFolder with
  | none => false
  | some folder => anyGameWithImage s (s.file folder).files

/-- The loop of `updateList` that finds the row to select: the index of the file
with the most recent selection stamp, starting from row 0 and `min_date_time`. -/
def selectIdLoop (s : State) : List Nat → Nat → Nat → Nat → Nat
  | [], _, selectId, _ => selectId
  | p :: rest, i, selectId, selectIdSelectionTime =>
    match (s.file p).selected with
    | some t =>
      if t > selectIdSelectionTime then selectIdLoop s rest (i + 1) i t
      else selectIdLoop s rest (i + 1) selectId selectIdSelectionTime
    | none => selectIdLoop s rest (i + 1) selectId selectIdSelectionTime

/-- Source: `GuiGameList::updateList`; fails on a null `mFolder`. -/
def updateList (s : State) : Option State :=
  match s.mFolder with
  | none => none
  | some folder =>
    some { s with mList := { rows := (s.file folder).files,
                             selection := selectIdLoop s (s.file folder).files 0 0 0 } }

/-- Source: `GuiGameList::hideDetailData`. -/
def hideDetailData (s : State) : State :=
  { s with view := { s.view with descContainerAttached := false } }

/-- Source: `GuiGameList::updateDetailData`: hides the detail pane unless the view is
detailed and a game is selected; the layout of the detailed branch comes from
the environment. -/
def updateDetailData (env : Env) (s : State) : State :=
  match getSelectedObject s with
  | none => hideDetailData s
  | some sel =>
    if !isDetailed s || (s.file sel).isFolder then hideDetailData s
    else { s with view := { env.detailLayout (s.file sel) s.view with
                            descContainerAttached := true } }

/-- Source: `GuiGameList::updateTheme`: the theme is read for the current system and
lays out the child components. -/
def updateTheme (env : Env) (s : State) : State :=
  { s with view := env.themeLayout s.mSystemId (isDetailed s) s.view }

/-- The two statements of `setSystemId` under "make sure the id is within
range": one wrap at each end. -/
def wrapSystemId (size : Nat) (id : Int) : Int :=
  let id1 := if id ≥ (size : Int) then id - size else id
  if id1 < 0 then id1 + size else id1

/-- The function `GuiGameList::setSystemId`. The `at` throws when the id is
still out of range after the wrap. -/
def setSystemId (env : Env) (s : State) (id : Int) : Option State :=
  if s.systems.length = 0 then
    some (s.call (.logError "Error - no systems found!"))
  else if wrapSystemId s.systems.length id < 0 then none
  else do
    let sys ← s.systems[(wrapSystemId s.systems.length id).toNat]?
    let s1 := { s with mSystemId := wrapSystemId s.systems.length id,
                       mSystem := some (wrapSystemId s.systems.length id).toNat,
                       mFolderStack := [], mFolder := some sys.rootFolder }
    let s2 ← updateList (updateTheme env s1)
    pure (updateDetailData env s2)

/-- Source: `GuiGameList::sort`. -/
def sort (env : Env) (s : State) (sortState : Nat) : Option State := do
  let folder ← s.mFolder
  let s1 := { s with files := env.folderSort s.files folder sortState }
  let s2 ← updateList (s1.call (.folderSort folder sortState))
  pure (updateDetailData env s2)

/-- Source: `GuiGameList::setSortIndex`. -/
def setSortIndex (env : Env) (s : State) (index : Nat) : Option State := do
  let index1 := if index ≥ sortStates.length then 0 else index
  let s1 ←
    if index1 ≠ s.sortStateIndex then sort env { s with sortStateIndex := index1 } index1
    else pure s
  pure { s1 with settingsSortIndex := toInt32 s1.sortStateIndex }

/-- Source: `GuiGameList::setNextSortIndex`. -/
def setNextSortIndex (env : Env) (s : State) : Option State := do
  let s1 ←
    if wrapSize ((s.sortStateIndex : Int) - 1) ≥ sortStates.length then setSortIndex env s 0
    else pure s
  setSortIndex env s1 (wrapSize ((s1.sortStateIndex : Int) + 1))

/-- Source: `GuiGameList::setPreviousSortIndex`. -/
def setPreviousSortIndex (env : Env) (s : State) : Option State := do
  let s1 ←
    if toInt32 s.sortStateIndex - 1 < 0 then
      setSortIndex env s (wrapSize ((sortStates.length : Int) - 1))
    else pure s
  setSortIndex env s1 (wrapSize ((s1.sortStateIndex : Int) - 1))

/-- The loop of `reselectSystem`: the system whose root folder has the most
recent selection stamp, starting from system 0 and `min_date_time`. -/
def reselectLoop (s : State) : List SystemData → Nat → Int → Nat → Int
  | [], _, lastSelectedSystemId, _ => lastSelectedSystemId
  | sd :: rest, systemId, lastSelectedSystemId, lastSelectionTime =>
    match (s.file sd.rootFolder).selected with
    | some t =>
      if lastSelectionTime < t then reselectLoop s rest (systemId + 1) systemId t
      else reselectLoop s rest (systemId + 1) lastSelectedSystemId lastSelectionTime
    | none => reselectLoop s rest (systemId + 1) lastSelectedSystemId lastSelectionTime

/-- Source: `GuiGameList::reselectSystem`. -/
def reselectSystem (env : Env) (s : State) : Option State :=
  setSystemId env s (reselectLoop s s.systems 0 0 0)

/-! ### Screenshot import -/

/-- The characters after the last occurrence of `c`. -/
def afterLast (c : Char) (cs : List Char) : List Char :=
  (cs.reverse.takeWhile (fun x => x != c)).reverse

/-- Source: `boost::filesystem::path::filename`. -/
def filename (p : String) : String := String.mk (afterLast '/' p.toList)

/-- Source: `boost::filesystem::path::extension`: from the last dot of the file name,
empty when there is none or for the names `.` and `..`. -/
def extension (p : String) : String :=
  if filename p = "." ∨ filename p = ".." then ""
  else if (filename p).toList.contains '.' then
    String.mk ('.' :: afterLast '.' (filename p).toList)
  else ""

/-- Source: `boost::filesystem::path::operator/=`: a separator is put between the two
unless the left side is empty or ends in one, or the right side starts with
one; an empty right side changes nothing. -/
def pathAppend (p q : String) : String :=
  if q.isEmpty then p
  else if q.front != '/' && !p.isEmpty && p.back != '/' then p ++ "/" ++ q
  else p ++ q

/-- Source: `boost::filesystem::exists`. -/
def fsExists (fs : List FsEntry) (p : String) : Bool := fs.any (fun e => e.path == p)

/-- The entries a `directory_iterator` over `dir` visits: those whose path is
`dir / name` for their own file name. -/
def inDirectory (dir : String) (e : FsEntry) : Bool :=
  !(filename e.path).isEmpty && e.path == pathAppend dir (filename e.path)

/-- Source: `boost::filesystem::rename` of `src` to `dst`. -/
def fsRename (fs : List FsEntry) (src dst : String) : List FsEntry :=
  fs.map (fun e => if e.path == src then { e with path := dst } else e)

/-- The order `std::sort` puts `std::string`s in. -/
def stringLe (a b : String) : Prop := a.toList ≤ b.toList

instance : DecidableRel stringLe := fun a b => inferInstanceAs (Decidable (a.toList ≤ b.toList))

/-- The function `newFilesInDirSince`. -/
def newFilesInDirSince (fs : List FsEntry) (path : String) (since : Nat) : List String :=
  let result :=
    if !path.isEmpty then
      (fs.filter (fun e => inDirectory path e && decide (e.mtime ≥ since))).map (fun e => e.path)
    else []
  result.insertionSort stringLe

/-- The destination name built in the loop of `moveAndRenameFiles`. -/
def dstPath (destDir basename : String) (no : Nat) (srcPath : String) : String :=
  pathAppend destDir basename ++ "-" ++ toString no ++ extension srcPath

/-- The `do ... while (exists(dstPath))` loop of `moveAndRenameFiles`: the first
free destination from `no` on and the value of `no` after the loop. The loop
runs at most `fuel + 1` times. -/
def probe (fs : List FsEntry) (destDir basename srcPath : String) :
    Nat → Nat → Option (String × Nat)
  | 0, no =>
    if fsExists fs (dstPath destDir basename no srcPath) then none
    else some (dstPath destDir basename no srcPath, no + 1)
  | fuel + 1, no =>
    if fsExists fs (dstPath destDir basename no srcPath) then
      probe fs destDir basename srcPath fuel (no + 1)
    else some (dstPath destDir basename no srcPath, no + 1)

/-- The `for` loop of `moveAndRenameFiles`, from the file system, the counter
`no` and the result so far; the probing of each file is given as many rounds as
there are files in the file system. -/
def moveLoop (destDir basename : String) :
    List String → List FsEntry → Nat → List String → Option (List FsEntry × List String)
  | [], fs, _, result => some (fs, result)
  | fname :: rest, fs, no, result => do
    let found ← probe fs destDir basename fname fs.length no
    moveLoop destDir basename rest (fsRename fs fname found.1) found.2 (result ++ [found.1])

/-- The function `moveAndRenameFiles`: the file system after the moves and the
list of destinations. -/
def moveAndRenameFiles (fs : List FsEntry) (files : List String) (basename destDir : String) :
    Option (List FsEntry × List String) :=
  moveLoop destDir basename files fs 0 []

/-- Source: `GuiGameList::importFreshScreenshots`. -/
def importFreshScreenshots (s : State) (since : Nat) : Option State := do
  let sys ← s.mSystem
  if (s.systems.getD sys default).emulatorScreenshotDumpDir.isEmpty
      || (s.systems.getD sys default).screenshotDir.isEmpty then
    pure s
  else
    let newScreenshots :=
      newFilesInDirSince s.fs (s.systems.getD sys default).emulatorScreenshotDumpDir since
    if newScreenshots.isEmpty then pure s
    else
      match getSelectedObject s with
      | none => pure s
      | some game =>
        if (s.file game).isFolder then pure s
        else do
          let moved ← moveAndRenameFiles s.fs newScreenshots (s.file game).baseName
            (s.systems.getD sys default).screenshotDir
          pure { s with fs := moved.1,
                        files := s.files.set game
                          { s.file game with images := (s.file game).images ++ moved.2 } }

/-! ### The launch effect -/

/-- The function `lerpFloat`. -/
def lerpFloat (start stop t : ℚ) : ℚ :=
  if t ≤ 0 then start
  else if t ≥ 1 then stop
  else start * (1 - t) + stop * t

/-- The function `lerpVector2f`. -/
def lerpVector2f (start stop : ℚ × ℚ) (t : ℚ) : ℚ × ℚ :=
  if t ≤ 0 then start
  else if t ≥ 1 then stop
  else (start.1 * (1 - t) + stop.1 * t, start.2 * (1 - t) + stop.2 * t)

/-- The function `clamp`. -/
def clamp (min max val : ℚ) : ℚ :=
  if val < min then min
  else if val > max then max
  else val

/-- The function `smoothStep`. -/
def smoothStep (edge0 edge1 x : ℚ) : ℚ :=
  let x1 := clamp 0 1 ((x - edge0) / (edge1 - edge0))
  x1 * x1 * x1 * (x1 * (x1 * 6 - 15) + 10)

/-- The local `imageCenter` of `updateGameLaunchEffect`. -/
def imageCenter (env : Env) (s : State) : ℚ × ℚ :=
  let c :=
    match s.view.mScreenshot with
    | some center => center
    | none =>
      match s.view.mScreenshots with
      | some (size, pos) => (size.1 / 2 + pos.1, size.2 / 2 + pos.2)
      | none => env.unassigned
  if !isDetailed s then
    (s.view.listPosition.1 + s.view.listSize.1 / 2, s.view.listPosition.2 + s.view.listSize.2 / 2)
  else c

/-- The local `centerStart` of `updateGameLaunchEffect` (integer halves). -/
def centerStart (env : Env) : ℚ × ℚ :=
  ((Int.tdiv env.getScreenWidth 2 : Int), (Int.tdiv env.getScreenHeight 2 : Int))

/-- The local `tNormalized` of `updateGameLaunchEffect`. -/
def tNormalized (endTime t : Int) : ℚ := clamp 0 1 ((t : ℚ) / (endTime : ℚ))

/-- The value `updateGameLaunchEffect(t)` passes to `setZoomFactor`. -/
def zoomFactorAt (endTime t : Int) : ℚ :=
  lerpFloat 1 3 (tNormalized endTime t * tNormalized endTime t)

/-- The value `updateGameLaunchEffect(t)` passes to `setFadePercent`, with the
locals `fadeDelay` and `fadeTime`. -/
def fadePercentAt (endTime t : Int) : ℚ :=
  let fadeDelay := endTime - 600
  let fadeTime := endTime - fadeDelay - 100
  lerpFloat 0 1 (((t - fadeDelay : Int) : ℚ) / ((fadeTime : Int) : ℚ))

/-- The value `updateGameLaunchEffect(t)` passes to `setCenterPoint`. -/
def centerPointAt (env : Env) (s : State) (endTime t : Int) : ℚ × ℚ :=
  lerpVector2f (centerStart env) (imageCenter env s) (smoothStep 0 1 (tNormalized endTime t))

/-- Source: `GuiGameList::updateGameLaunchEffect`; `now` is the clock read before the
launch. The launch dereferences `mSystem` and the selected game. -/
def updateGameLaunchEffect (env : Env) (s : State) (t : Int) (now : Nat) : Option State :=
  let endTime := s.mGameLaunchEffectLength
  let s1 := { s with centerPoint := some (centerPointAt env s endTime t),
                     zoomFactor := some (zoomFactorAt endTime t),
                     fadePercent := some (fadePercentAt endTime t) }
  if t > endTime then do
    let s2 := s1.call (.transitionImageSetImage "")
    let _ ← s2.mSystem
    let game ← getSelectedObject s2
    let s3 := { s2 with fs := env.launchGame s2.fs game }.call (.launchGame game)
    let s4 ← importFreshScreenshots s3 now
    pure { updateDetailData env s4 with
             mEffectFunc := .updateGameReturnEffect,
             mEffectTime := 0,
             mGameLaunchEffectLength := 700,
             mLockInput := false }
  else pure s1

/-- Source: `GuiGameList::updateGameReturnEffect`. -/
def updateGameReturnEffect (env : Env) (s : State) (t : Int) (now : Nat) : Option State := do
  let s1 ← updateGameLaunchEffect env s (s.mGameLaunchEffectLength - t) now
  if t ≥ s1.mGameLaunchEffectLength then pure { s1 with mEffectFunc := .null }
  else pure s1

/-- Source: `GuiGameList::update`. -/
def update (env : Env) (s : State) (deltaTime : Int) (now : Nat) : Option State := do
  let s0 := { s with view := env.animationUpdate s.view deltaTime }
  let s1 ←
    match s0.mEffectFunc with
    | .null => pure s0
    | .updateGameLaunchEffect =>
      updateGameLaunchEffect env { s0 with mEffectTime := s0.mEffectTime + deltaTime }
        (s0.mEffectTime + deltaTime) now
    | .updateGameReturnEffect =>
      updateGameReturnEffect env { s0 with mEffectTime := s0.mEffectTime + deltaTime }
        (s0.mEffectTime + deltaTime) now
  pure { s1 with mList := { s1.mList with selection := env.listUpdate s1.mList deltaTime } }

/-! ### Input -/

/-- The end of `GuiGameList::input`: sort order, menu, fast select, and the
detail pane on the direction keys. -/
def inputSort (env : Env) (s : State) (config : InputConfig) (inp : Input) :
    Option (Bool × State) := do
  let s1 ←
    if config.isMappedTo "sortordernext" inp && inp.value != 0 then setNextSortIndex env s
    else if config.isMappedTo "sortorderprevious" inp && inp.value != 0 then
      setPreviousSortIndex env s
    else pure s
  if config.isMappedTo "menu" inp && inp.value != 0 then
    pure (true, s1.call .pushGuiMenu)
  else if config.isMappedTo "select" inp && inp.value != 0 then do
    let sel ← getSelectedObject s1
    pure (true, s1.call (.pushGuiFastSelect (s1.file sel).name))
  else if isDetailed s1 then
    if config.isMappedTo "up" inp || config.isMappedTo "down" inp
        || config.isMappedTo "pageup" inp || config.isMappedTo "pagedown" inp then
      if inp.value = 0 then pure (true, updateDetailData env s1)
      else pure (true, hideDetailData s1)
    else pure (true, s1)
  else pure (false, s1)

/-- The part of `GuiGameList::input` that switches systems, and what follows. -/
def inputSystem (env : Env) (s : State) (config : InputConfig) (inp : Input) :
    Option (Bool × State) :=
  if s.systems.length > 1 && inp.value != 0 then
    if config.isMappedTo "right" inp then do
      let s1 ← setSystemId env s (s.mSystemId + 1)
      pure (true, s1.call (.doTransition (-1)))
    else if config.isMappedTo "left" inp then do
      let s1 ← setSystemId env s (s.mSystemId - 1)
      pure (true, s1.call (.doTransition 1))
    else inputSort env s config inp
  else inputSort env s config inp

/-- The part of `GuiGameList::input` that returns to the folder on top of the
stack, and what follows. -/
def inputBack (env : Env) (s : State) (config : InputConfig) (inp : Input) :
    Option (Bool × State) :=
  if config.isMappedTo "b" inp && inp.value != 0 then
    match s.mFolderStack with
    | top :: rest => do
      let s1 ← updateList { s with mFolder := some top, mFolderStack := rest }
      pure (true, (updateDetailData env s1).call (.playSound "menuBack"))
    | [] => inputSystem env s config inp
  else inputSystem env s config inp

/-- The part of `GuiGameList::input` that enters a folder or starts the launch
effect, and what follows. The selected file `file` is not null here. -/
def inputConfirm (env : Env) (s : State) (config : InputConfig) (inp : Input) (file : Nat) :
    Option (Bool × State) :=
  if config.isMappedTo "a" inp then
    match s.mFolder with
    | none => none
    | some folder =>
      if (s.file folder).files.length > 0 && inp.value != 0 then
        let s1 := s.call (.playSound "menuSelect")
        if (s1.file file).isFolder then do
          let s2 ← updateList { s1 with mFolderStack := folder :: s1.mFolderStack,
                                        mFolder := some file }
          pure (true, updateDetailData env s2)
        else
          let s2 := s1.call .stopScrolling
          let len := env.menuSelectLengthMS s2.mSystemId
          some (true, { s2 with mEffectFunc := .updateGameLaunchEffect,
                                mEffectTime := 0,
                                mGameLaunchEffectLength := if len < 800 then 800 else len,
                                mLockInput := true })
      else inputBack env s config inp
  else inputBack env s config inp

/-- The three statements of `GuiGameList::input` around `mList.input`: the
selected file loses its stamp, the list handles the input, and the file
selected afterwards is stamped with the current time. Returns that file, or
`none` when `getSelectedObject()` is null at one of the two dereferences. -/
def restamp (env : Env) (s : State) (config : InputConfig) (inp : Input) (now : Nat) :
    Option (Nat × State) := do
  let old ← getSelectedObject s
  let s1 := setSelected s old none
  let s2 := { s1 with mList := { s1.mList with selection := env.listInput s1.mList config inp } }
  let file ← getSelectedObject s2
  pure (file, setSelected s2 file (some now))

/-- The function `GuiGameList::input`: the returned flag and the new state, or
`none` when a null pointer is dereferenced. -/
def input (env : Env) (s : State) (config : InputConfig) (inp : Input) (now : Nat) :
    Option (Bool × State) :=
  if s.mLockInput then some (false, s)
  else do
    let stamped ← restamp env s config inp now
    if inp.id = SDLK_F3 then
      if !(stamped.2.file stamped.1).isFolder then
        pure (true, stamped.2.call (.pushGuiMetaDataEd stamped.1))
      else pure (true, stamped.2)
    else if inp.id = SDLK_F5 then pure (true, stamped.2.call .pushGuiScraperStart)
    else inputConfirm env stamped.2 config inp stamped.1

/-- The constructor `GuiGameList::GuiGameList` on the given library, file system
and settings. The members `mFolder`, `mSystem` and `mSystemId` have no
initialiser: they start as null and 0. -/
def construct (env : Env) (files : List FileData) (systems : List SystemData)
    (fs : List FsEntry) (settingsSortIndex : Int) : Option State :=
  reselectSystem env
    { files := files, systems := systems, fs := fs, settingsSortIndex := settingsSortIndex,
      mSystemId := 0, mSystem := none, mFolder := none, mFolderStack := [],
      mList := { rows := [], selection := 0 },
      sortStateIndex := wrapSize settingsSortIndex,
      mLockInput := false, mEffectFunc := .null, mEffectTime := 0,
      mGameLaunchEffectLength := 700,
      view := { mScreenshot := none, mScreenshots := none, listPosition := (0, 0),
                listSize := env.initialListSize, descContainerAttached := true },
      centerPoint := none, zoomFactor := none, fadePercent := none, calls := [] }

/-- A step of the event loop on the game list. -/
inductive Step where
  | input (config : InputConfig) (inp : Input) (now : Nat)
  | update (deltaTime : Int) (now : Nat)

/-- One step of the event loop. -/
def step (env : Env) (s : State) : Step → Option State
  | .input config inp now => (input env s config inp now).map Prod.snd
  | .update deltaTime now => update env s deltaTime now

/-- A sequence of steps of the event loop. -/
def run (env : Env) : State → List Step → Option State
  | s, [] => some s
  | s, st :: rest => do
    let s1 ← step env s st
    run env s1 rest


/-- The browsing session of a state: current system, current folder, folder
stack, sort index, lock flag and the effect state. -/
structure Session where
  mSystemId : Int
  mSystem : Option Nat
  mFolder : Option Nat
  mFolderStack : List Nat
  sortStateIndex : Nat
  mLockInput : Bool
  mEffectFunc : EffectFunc
  mEffectTime : Int
  mGameLaunchEffectLength : Int
deriving DecidableEq, Repr

/-- The session of a state. -/
def State.session (s : State) : Session :=
  { mSystemId := s.mSystemId, mSystem := s.mSystem, mFolder := s.mFolder,
    mFolderStack := s.mFolderStack, sortStateIndex := s.sortStateIndex,
    mLockInput := s.mLockInput, mEffectFunc := s.mEffectFunc, mEffectTime := s.mEffectTime,
    mGameLaunchEffectLength := s.mGameLaunchEffectLength }


/-- The lock flag and the effect function are as before. -/
def SameGate (s s1 : State) : Prop :=
  s1.mLockInput = s.mLockInput ∧ s1.mEffectFunc = s.mEffectFunc

/-- The lock flag is set exactly while the launch effect is the running one. -/
def Gated (s : State) : Prop :=
  s.mLockInput = true ↔ s.mEffectFunc = .updateGameLaunchEffect


/-- A small library: system `nes` with the game Mario (one image), the folder
`hacks` holding the game Kaizo, and system `snes` with the game Zelda. -/
def demoFiles : List FileData :=
  [{ isFolder := true, name := "nes", baseName := "nes", files := [1, 2], images := [],
     selected := none },
   { isFolder := false, name := "Mario", baseName := "mario", files := [],
     images := ["/shots/mario-0.png"], selected := none },
   { isFolder := true, name := "hacks", baseName := "hacks", files := [3], images := [],
     selected := none },
   { isFolder := false, name := "Kaizo", baseName := "kaizo", files := [], images := [],
     selected := none },
   { isFolder := true, name := "snes", baseName := "snes", files := [5], images := [],
     selected := none },
   { isFolder := false, name := "Zelda", baseName := "zelda", files := [], images := [],
     selected := none }]

/-- The two systems of the small library. -/
def demoSystems : List SystemData :=
  [{ name := "nes", rootFolder := 0, emulatorScreenshotDumpDir := "/dump",
     screenshotDir := "/shots" },
   { name := "snes", rootFolder := 4, emulatorScreenshotDumpDir := "", screenshotDir := "" }]

/-- The files on disk before any launch. -/
def demoFs : List FsEntry :=
  [{ path := "/dump/old.png", mtime := 5 }, { path := "/shots/mario-0.png", mtime := 3 }]

/-- Collaborators for the small library: a 640 x 480 screen, a select sound of
300 ms, a list that keeps its selection, and an emulator that writes one
screenshot. -/
def demoEnv : Env :=
  { getScreenWidth := 640,
    getScreenHeight := 480,
    menuSelectLengthMS := fun _ => 300,
    listInput := fun l _ _ => l.selection,
    folderSort := fun files _ _ => files,
    listUpdate := fun l _ => l.selection,
    launchGame := fun fs _ => fs ++ [{ path := "/dump/new.png", mtime := 100 }],
    animationUpdate := fun v _ => v,
    initialListSize := (640, 400),
    themeLayout := fun _ _ v => v,
    detailLayout := fun _ v => v,
    unassigned := (0, 0) }

/-- The game list as constructed on the small library. -/
def demoStart : Option State := construct demoEnv demoFiles demoSystems demoFs 0

/-- A configuration that maps each key code to one action: 1 is `a`, 2 is `b`,
3 is `right`, 4 is `left`. -/
def demoConfig : InputConfig :=
  { isMappedTo := fun name inp =>
      (inp.id == 1 && name == "a") || (inp.id == 2 && name == "b") ||
      (inp.id == 3 && name == "right") || (inp.id == 4 && name == "left") }


/-- The session of the small library with the sort index put at `i`. -/
def demoAt (i : Nat) : State :=
  { files := demoFiles, systems := demoSystems, fs := demoFs, settingsSortIndex := i,
    mSystemId := 0, mSystem := some 0, mFolder := some 0, mFolderStack := [],
    mList := { rows := [1, 2], selection := 0 }, sortStateIndex := i,
    mLockInput := false, mEffectFunc := .null, mEffectTime := 0,
    mGameLaunchEffectLength := 700,
    view := { mScreenshot := none, mScreenshots := none, listPosition := (0, 0),
              listSize := (640, 400), descContainerAttached := true },
    centerPoint := none, zoomFactor := none, fadePercent := none, calls := [] }

/-- The session of the small library inside the folder `hacks`. -/
def demoInFolder : State :=
  { demoAt 0 with mFolder := some 2, mFolderStack := [0],
                  mList := { rows := [3], selection := 0 } }

/-- The session of the small library while a launch effect of 800 ms runs. -/
def demoLocked : State :=
  { demoAt 0 with mLockInput := true, mEffectFunc := .updateGameLaunchEffect,
                  mGameLaunchEffectLength := 800 }


/-- The session of the small library right after a pressed `a` on Mario at time
10: the launch effect is scheduled for 800 ms and the input is locked. -/
def demoLaunching : State :=
  { demoAt 0 with
      files := demoFiles.set 1 { isFolder := false, name := "Mario", baseName := "mario",
                                 files := [], images := ["/shots/mario-0.png"],
                                 selected := some 10 },
      calls := [.playSound "menuSelect", .stopScrolling],
      mLockInput := true, mEffectFunc := .updateGameLaunchEffect,
      mGameLaunchEffectLength := 800 }

/-- The number that a list of decimal digit characters stands for, read on from
the number `acc`. -/
def digitsValue (acc : Nat) (cs : List Char) : Nat :=
  cs.foldl (fun a c => a * 10 + (c.toNat - 48)) acc

/-- The file system after a sequence of renames, each a source path with its
destination path, made in order. -/
def renames (fs : List FsEntry) (moves : List (String × String)) : List FsEntry :=
  moves.foldl (fun f m => fsRename f m.1 m.2) fs

/-- Where a set of moves, each a source path with its destination path, leaves a
file: at the destination paired with its path, or where it is when its path is
not among the sources. -/
def moveTo (moves : List (String × String)) (e : FsEntry) : FsEntry :=
  match moves.lookup e.path with
  | some d => { e with path := d }
  | none => e

/-- The files `newFilesInDirSince` lists: those directly in the directory whose
last write time is not before `since`. -/
def isFresh (dir : String) (since : Nat) (e : FsEntry) : Bool :=
  inDirectory dir e && decide (e.mtime ≥ since)

/-- The session of the small library while Mario runs, after the emulator wrote
two screenshots at times 100 and 120 next to the old dump of time 5. -/
def demoDumped : State :=
  { demoLaunching with
      fs := demoFs ++ [{ path := "/dump/b.png", mtime := 100 },
                       { path := "/dump/a.png", mtime := 120 }] }

/-- The session of the small library with the given selection stamps on the
root folders of its two systems. -/
def demoStamped (nes snes : Option Nat) : State :=
  { demoAt 0 with
      files := (demoFiles.set 0 { isFolder := true, name := "nes", baseName := "nes",
                                  files := [1, 2], images := [], selected := nes }).set 4
                { isFolder := true, name := "snes", baseName := "snes", files := [5],
                  images := [], selected := snes } }

/-- The session of the small library 100 ms into the return effect. -/
def demoReturning : State :=
  { demoAt 0 with mEffectFunc := .updateGameReturnEffect, mEffectTime := 100 }

/-- The effect function and the effect length are as before. -/
def SamePace (s s1 : State) : Prop :=
  s1.mEffectFunc = s.mEffectFunc ∧
  s1.mGameLaunchEffectLength = s.mGameLaunchEffectLength

/-- While the return effect is the running one the effect length is 700. -/
def Paced (s : State) : Prop :=
  s.mEffectFunc = .updateGameReturnEffect → s.mGameLaunchEffectLength = 700

end Gui

/-! # Theorems -/

namespace Tex

theorem isEmpty_eq_false_of_ne {s : String} (h : s ≠ "") : s.isEmpty = false := by
  cases hs : s.isEmpty
  · rfl
  · exact absurd ((String.isEmpty_iff s).mp hs) h

theorem lookup_filter_ne (m : List (String × Nat)) (k p : String) (h : k ≠ p) :
    (m.filter (fun e => e.1 != p)).lookup k = m.lookup k := by
  induction m with
  | nil => rfl
  | cons e m ih =>
    obtain ⟨k1, v1⟩ := e
    by_cases h1 : k1 = p
    · subst h1
      have : (k == k1) = false := by simpa using h
      simp [List.filter, List.lookup, this, ih]
    · have : (k1 != p) = true := by simpa using h1
      simp only [List.filter, this, List.lookup]
      rw [ih]

theorem lookup_mapAssign_self (m : List (String × Nat)) (p : String) (a : Nat) :
    (mapAssign m p a).lookup p = some a := by
  simp [mapAssign, List.lookup]

theorem lookup_mapAssign_ne (m : List (String × Nat)) (k p : String) (a : Nat) (h : k ≠ p) :
    (mapAssign m p a).lookup k = m.lookup k := by
  have : (k == p) = false := by simpa using h
  simp only [mapAssign, List.lookup, this]
  exact lookup_filter_ne m k p h

theorem deinit_path (d : Device) (t : TextureResource) : (deinit d t).2.mPath = t.mPath := by
  unfold deinit; split <;> rfl

theorem deinit_id (d : Device) (t : TextureResource) : (deinit d t).2.mTextureID = 0 := by
  unfold deinit; split
  · rfl
  · simp_all

theorem deinit_size (d : Device) (t : TextureResource) :
    (deinit d t).2.mTextureSize = t.mTextureSize := by
  unfold deinit; split <;> rfl

theorem initFromData_path (env : Env) (msg : String) (d : Device) (t : TextureResource)
    (data : ResourceData) : (initFromData env msg d t data).2.mPath = t.mPath := by
  simp only [initFromData, glGenAndUpload]
  split <;> simp [deinit_path]

theorem reload_path (env : Env) (d : Device) (t : TextureResource) :
    (reload env d t).2.mPath = t.mPath := by
  unfold reload initFromResource; split
  · exact initFromData_path ..
  · rfl

theorem initFromScreen_path (env : Env) (d : Device) (t : TextureResource) :
    (initFromScreen env d t).2.mPath = t.mPath := by
  simp [initFromScreen, glGenAndUpload, deinit_path]

theorem construct_path (env : Env) (d : Device) (path : String) :
    (construct env d path).2.mPath = path := by
  simp [construct, reload_path]

theorem registered_empty : Registered World.empty := by
  intro a c h; simp [World.empty] at h

theorem live_iff (w : World) (a : Nat) :
    live w a = true ↔ ∃ c, w.heap[a]? = some c ∧ 0 < c.strong := by
  unfold live
  cases h : w.heap[a]? <;> simp

theorem registered_lock (w : World) (a : Nat) (hl : live w a = true) (h : Registered w) :
    Registered (lock w a) := by
  obtain ⟨c, hc, hs⟩ := (live_iff w a).mp hl
  intro b cb hb hsb hpb
  simp only [lock, hc] at hb ⊢
  rw [List.getElem?_set] at hb
  split at hb
  · split at hb
    · cases hb; subst_vars; exact h _ c hc hs hpb
    · cases hb
  · exact h b cb hb hsb hpb

theorem registered_onObject (w : World) (a : Nat)
    (f : Device → TextureResource → Device × TextureResource)
    (hf : ∀ d t, (f d t).2.mPath = t.mPath) (h : Registered w) :
    Registered (onObject w a f) := by
  unfold onObject
  split
  · rename_i c hc
    split
    · rename_i hs
      intro b cb hb hsb hpb
      simp only at hb ⊢
      rw [List.getElem?_set] at hb
      split at hb
      · split at hb
        · cases hb; subst_vars
          simp only [hf] at hpb ⊢
          exact h _ c hc hs hpb
        · cases hb
      · exact h b cb hb hsb hpb
    · exact h
  · exact h

theorem registered_release (w : World) (a : Nat) (h : Registered w) :
    Registered (release w a) := by
  unfold release
  split
  · rename_i c hc
    split
    · intro b cb hb hsb hpb
      simp only at hb ⊢
      rw [List.getElem?_set] at hb
      split at hb
      · split at hb
        · cases hb; simp at hsb
        · cases hb
      · exact h b cb hb hsb hpb
    · split
      · rename_i h1 hs
        intro b cb hb hsb hpb
        simp only at hb ⊢
        rw [List.getElem?_set] at hb
        split at hb
        · split at hb
          · cases hb; subst_vars
            exact h _ c hc (by omega) hpb
          · cases hb
        · exact h b cb hb hsb hpb
      · exact h
  · exact h

theorem registered_fresh (env : Env) (w : World) (path : String)
    (hmiss : ∀ a, w.sTextureMap.lookup path = some a → live w a = false)
    (h : Registered w) :
    Registered (addReloadable
      { (allocate env w path).1 with
        sTextureMap := mapAssign (allocate env w path).1.sTextureMap path (allocate env w path).2 }
      (allocate env w path).2) := by
  intro b cb hb hsb hpb
  simp only [addReloadable, allocate] at hb ⊢
  by_cases hlt : b < w.heap.length
  · rw [List.getElem?_append_left hlt] at hb
    by_cases hp : cb.obj.mPath = path
    · have h1 := h b cb hb hsb hpb
      rw [hp] at h1
      have h2 := hmiss b h1
      have h3 : live w b = true := (live_iff w b).mpr ⟨cb, hb, hsb⟩
      rw [h3] at h2; cases h2
    · rw [lookup_mapAssign_ne _ _ _ _ hp]
      exact h b cb hb hsb hpb
  · rw [List.getElem?_append_right (by omega)] at hb
    have hb0 : b - w.heap.length = 0 := by
      by_contra hne
      obtain ⟨k, hk⟩ : ∃ k, b - w.heap.length = k + 1 := ⟨b - w.heap.length - 1, by omega⟩
      rw [hk] at hb; simp at hb
    rw [hb0] at hb
    simp at hb
    subst hb
    simp only [construct_path]
    have : b = w.heap.length := by omega
    rw [this]
    exact lookup_mapAssign_self _ _ _

theorem registered_get (env : Env) (w : World) (path : String) (h : Registered w) :
    Registered (get env w path).1 := by
  unfold get
  split
  · rename_i he
    have hpe : path = "" := (String.isEmpty_iff path).mp he
    intro b cb hb hsb hpb
    simp only [addReloadable, allocate] at hb ⊢
    by_cases hlt : b < w.heap.length
    · rw [List.getElem?_append_left hlt] at hb
      exact h b cb hb hsb hpb
    · rw [List.getElem?_append_right (by omega)] at hb
      have hb0 : b - w.heap.length = 0 := by
        by_contra hne
        obtain ⟨k, hk⟩ : ∃ k, b - w.heap.length = k + 1 := ⟨b - w.heap.length - 1, by omega⟩
        rw [hk] at hb; simp at hb
      rw [hb0] at hb
      simp at hb
      subst hb
      simp [construct_path] at hpb
  · split
    · rename_i found hf
      split
      · rename_i hx
        exact registered_lock w found (by simpa [expired] using hx) h
      · rename_i hx
        refine registered_fresh env w path ?_ h
        intro a ha
        rw [hf] at ha; cases ha
        simpa [expired] using hx
    · rename_i hf
      refine registered_fresh env w path ?_ h
      intro a ha
      rw [hf] at ha; cases ha

theorem registered_step (env : Env) (w : World) (op : Op) (h : Registered w) :
    Registered (step env w op) := by
  cases op with
  | get path => exact registered_get env w path h
  | copy a =>
    simp only [step]
    split
    · rename_i hl; exact registered_lock w a hl h
    · exact h
  | release a => exact registered_release w a h
  | reload a => exact registered_onObject w a _ (reload_path env) h
  | unload a => exact registered_onObject w a _ deinit_path h
  | initFromScreen a => exact registered_onObject w a _ (initFromScreen_path env) h
  | initFromMemory a data =>
    exact registered_onObject w a _ (fun d t => initFromData_path env _ d t data) h

theorem registered_run (env : Env) (ops : List Op) (w : World) (h : Registered w) :
    Registered (run env w ops) := by
  induction ops generalizing w with
  | nil => exact h
  | cons op ops ih => exact ih _ (registered_step env w op h)


theorem get_hit (env : Env) (w : World) (P : String) (a : Nat) (hP : P ≠ "")
    (hreg : w.sTextureMap.lookup P = some a) (hl : live w a = true) :
    get env w P = (lock w a, a) := by
  simp [get, isEmpty_eq_false_of_ne hP, hreg, expired, hl]

theorem get_miss (env : Env) (w : World) (P : String) (hP : P ≠ "")
    (hmiss : ∀ a, w.sTextureMap.lookup P = some a → live w a = false) :
    get env w P =
      (addReloadable
        { (allocate env w P).1 with
          sTextureMap := mapAssign (allocate env w P).1.sTextureMap P (allocate env w P).2 }
        (allocate env w P).2, (allocate env w P).2) := by
  unfold get
  rw [isEmpty_eq_false_of_ne hP]
  cases hreg : w.sTextureMap.lookup P with
  | none => simp
  | some a => simp [expired, hmiss a hreg]

theorem live_lock (w : World) (a : Nat) (hl : live w a = true) : live (lock w a) a = true := by
  obtain ⟨c, hc, hs⟩ := (live_iff w a).mp hl
  have hlt : a < w.heap.length := by
    rcases Nat.lt_or_ge a w.heap.length with h | h
    · exact h
    · rw [List.getElem?_eq_none h] at hc; cases hc
  simp [live, lock, hc, List.getElem?_set, hlt]

theorem live_fresh (env : Env) (w : World) (P : String) (m : List (String × Nat)) :
    live (addReloadable { (allocate env w P).1 with sTextureMap := m } (allocate env w P).2)
      (allocate env w P).2 = true := by
  simp [live, addReloadable, allocate]

theorem filter_mapAssign (m : List (String × Nat)) (P : String) (a : Nat) :
    (mapAssign m P a).filter (fun e => e.1 == P) = [(P, a)] := by
  simp only [mapAssign, List.filter, beq_self_eq_true, List.filter_filter]
  congr 1
  rw [List.filter_eq_nil_iff]
  intro e _
  by_cases h : e.1 = P <;> simp [h]

/-- C1: for a non-empty path P, in every world reached by cache operations a
`get(P)` issued while an object for P is still owned returns that very object,
only adding an owner: no object is allocated, the device (decoder calls, GL
uploads) and the registry are untouched. Hence two owned objects for P are the
same object, and two `get(P)` in a row return the same handle. -/
theorem get_shares_live_entry (env : Env) (ops : List Op) (w : World) (P : String)
    (hw : w = run env World.empty ops) (hP : P ≠ "") :
    (∀ a, live w a = true → pathAt w a = some P →
      get env w P = (lock w a, a) ∧ (get env w P).1.heap.length = w.heap.length ∧
      (get env w P).1.dev = w.dev ∧ (get env w P).1.sTextureMap = w.sTextureMap) ∧
    (∀ a b, live w a = true → live w b = true → pathAt w a = some P → pathAt w b = some P →
      a = b) ∧
    ((get env (get env w P).1 P).2 = (get env w P).2 ∧
      (get env (get env w P).1 P).1.dev = (get env w P).1.dev ∧
      (get env (get env w P).1 P).1.heap.length = (get env w P).1.heap.length) := by
  have hreg : Registered w := hw ▸ registered_run env ops _ registered_empty
  have key : ∀ a, live w a = true → pathAt w a = some P → w.sTextureMap.lookup P = some a := by
    intro a hl hp
    obtain ⟨c, hc, hs⟩ := (live_iff w a).mp hl
    have hpc : c.obj.mPath = P := by simpa [pathAt, hc] using hp
    have := hreg a c hc hs (hpc ▸ hP)
    rwa [hpc] at this
  have lock_facts : ∀ (v : World) (a : Nat), (lock v a).heap.length = v.heap.length ∧
      (lock v a).dev = v.dev ∧ (lock v a).sTextureMap = v.sTextureMap := by
    intro v a
    unfold lock
    cases v.heap[a]? <;> simp
  refine ⟨?_, ?_, ?_⟩
  · intro a hl hp
    have hg := get_hit env w P a hP (key a hl hp) hl
    rw [hg]
    exact ⟨rfl, lock_facts w a⟩
  · intro a b hla hlb hpa hpb
    have h1 := key a hla hpa
    have h2 := key b hlb hpb
    rw [h1] at h2
    exact Option.some.inj h2
  · by_cases hit : ∃ a, w.sTextureMap.lookup P = some a ∧ live w a = true
    · obtain ⟨a, ha, hl⟩ := hit
      have hg := get_hit env w P a hP ha hl
      have hg2 := get_hit env (lock w a) P a hP
        (by rw [(lock_facts w a).2.2]; exact ha) (live_lock w a hl)
      rw [hg]
      simp only
      rw [hg2]
      exact ⟨rfl, (lock_facts _ a).2.1, (lock_facts _ a).1⟩
    · have hmiss : ∀ a, w.sTextureMap.lookup P = some a → live w a = false := by
        intro a ha
        cases hl : live w a
        · rfl
        · exact absurd ⟨a, ha, hl⟩ hit
      have hg := get_miss env w P hP hmiss
      rw [hg]
      simp only
      have hg2 := get_hit env
        (addReloadable
          { (allocate env w P).1 with
            sTextureMap := mapAssign (allocate env w P).1.sTextureMap P (allocate env w P).2 }
          (allocate env w P).2) P (allocate env w P).2 hP
        (by simp only [addReloadable]; exact lookup_mapAssign_self _ _ _)
        (live_fresh env w P _)
      rw [hg2]
      exact ⟨rfl, (lock_facts _ _).2.1, (lock_facts _ _).1⟩

theorem get_shares_live_entry_witness :
    "a.png" ≠ "" ∧ (get envDemo (run envDemo World.empty opsDemo) "a.png").2 = 0 ∧
    (get envDemo (run envDemo World.empty opsDemo) "a.png").1.dev.decodes = 2 :=
  have h := (get_shares_live_entry envDemo opsDemo _ "a.png" rfl (by decide)).1 0
    (by decide) (by decide)
  ⟨by decide, congrArg Prod.snd h.1, by rw [h.2.2.1]; decide⟩


theorem initFromData_fail (env : Env) (msg : String) (d : Device) (t : TextureResource)
    (data : ResourceData) (hfail : (env.loadFromMemoryRGBA32 data).imageRGBA = []) :
    initFromData env msg d t data =
      ({ (deinit d t).1 with decodes := (deinit d t).1.decodes + 1,
                             log := (deinit d t).1.log ++ [msg] }, (deinit d t).2) := by
  simp [initFromData, hfail]

theorem initFromData_ok (env : Env) (msg : String) (d : Device) (t : TextureResource)
    (data : ResourceData) (hok : (env.loadFromMemoryRGBA32 data).imageRGBA ≠ []) :
    initFromData env msg d t data =
      ({ (deinit d t).1 with
          decodes := (deinit d t).1.decodes + 1,
          glGenerated := (deinit d t).1.glGenerated + 1,
          glTextures := ((deinit d t).1.glGenerated + 1,
            ((env.loadFromMemoryRGBA32 data).width : Int),
            ((env.loadFromMemoryRGBA32 data).height : Int)) :: (deinit d t).1.glTextures },
       { (deinit d t).2 with
          mTextureID := (deinit d t).1.glGenerated + 1,
          mTextureSize := ((env.loadFromMemoryRGBA32 data).width,
            (env.loadFromMemoryRGBA32 data).height) }) := by
  simp [initFromData, glGenAndUpload, hok]

theorem deinit_fresh (d : Device) (path : String) (sz : Int × Int) :
    deinit d { mTextureID := 0, mPath := path, mTextureSize := sz } =
      (d, { mTextureID := 0, mPath := path, mTextureSize := sz }) := by
  simp [deinit]

/-- C2: for a non-empty path P whose registered weak entry is expired, `get(P)`
allocates a new object at a fresh address with one owner, built by the
constructor (one more decoder call; when the decoder yields pixels, one new GL
texture of the decoded size is generated and recorded in the object), makes it
the one and only entry of P in the registry, leaves the other keys alone, and
returns it. -/
theorem get_rebuilds_expired_entry (env : Env) (w : World) (P : String) (dead : Nat)
    (hP : P ≠ "") (hreg : w.sTextureMap.lookup P = some dead) (hexp : expired w dead = true) :
    (get env w P).2 = w.heap.length ∧
    (get env w P).1.heap = w.heap ++ [{ obj := (construct env w.dev P).2, strong := 1 }] ∧
    (get env w P).1.dev = (construct env w.dev P).1 ∧
    (get env w P).1.dev.decodes = w.dev.decodes + 1 ∧
    live (get env w P).1 (get env w P).2 = true ∧
    (get env w P).1.sTextureMap.lookup P = some (get env w P).2 ∧
    (get env w P).1.sTextureMap.filter (fun e => e.1 == P) = [(P, (get env w P).2)] ∧
    (∀ k, k ≠ P → (get env w P).1.sTextureMap.lookup k = w.sTextureMap.lookup k) ∧
    ((env.loadFromMemoryRGBA32 (env.getFileData P)).imageRGBA ≠ [] →
      (get env w P).1.dev.glGenerated = w.dev.glGenerated + 1 ∧
      (construct env w.dev P).2.mTextureID = w.dev.glGenerated + 1 ∧
      getSize (construct env w.dev P).2 =
        (((env.loadFromMemoryRGBA32 (env.getFileData P)).width : Int),
         ((env.loadFromMemoryRGBA32 (env.getFileData P)).height : Int)) ∧
      (w.dev.glGenerated + 1,
        ((env.loadFromMemoryRGBA32 (env.getFileData P)).width : Int),
        ((env.loadFromMemoryRGBA32 (env.getFileData P)).height : Int)) ∈
          (get env w P).1.dev.glTextures) := by
  have hdead : live w dead = false := by simpa [expired] using hexp
  have hmiss : ∀ a, w.sTextureMap.lookup P = some a → live w a = false := by
    intro a ha
    rw [hreg] at ha; cases ha; exact hdead
  have hg := get_miss env w P hP hmiss
  have hc : construct env w.dev P =
      initFromData env "Could not initialize texture (invalid resource data)!" w.dev
        { mTextureID := 0, mPath := P, mTextureSize := (0, 0) } (env.getFileData P) := by
    simp [construct, reload, initFromResource, isEmpty_eq_false_of_ne hP]
  rw [hg]
  refine ⟨rfl, rfl, rfl, ?_, live_fresh env w P _, ?_, ?_, ?_, ?_⟩
  · simp only [addReloadable, allocate, hc, initFromData, deinit_fresh]
    split <;> rfl
  · simp only [addReloadable]
    exact lookup_mapAssign_self _ _ _
  · simp only [addReloadable]
    exact filter_mapAssign _ _ _
  · intro k hk
    simp only [addReloadable]
    exact lookup_mapAssign_ne _ _ _ _ hk
  · intro hok
    simp only [addReloadable, allocate, getSize, hc, initFromData_ok env _ _ _ _ hok,
      deinit_fresh]
    simp


theorem get_rebuilds_expired_entry_witness :
    "a.png" ≠ "" ∧
    (run envDemo World.empty [.get "a.png", .release 0]).sTextureMap.lookup "a.png" = some 0 ∧
    expired (run envDemo World.empty [.get "a.png", .release 0]) 0 = true ∧
    (get envDemo (run envDemo World.empty [.get "a.png", .release 0]) "a.png").2 = 1 ∧
    (get envDemo (run envDemo World.empty [.get "a.png", .release 0]) "a.png").1.dev.decodes
      = 2 :=
  have h := get_rebuilds_expired_entry envDemo
    (run envDemo World.empty [.get "a.png", .release 0]) "a.png" 0
    (by decide) (by decide) (by decide)
  ⟨by decide, by decide, by decide, h.1, h.2.2.2.1⟩

/-- C3, as stated, fails: an entry that was loaded from a good file (size 2 x 3)
and is then re-initialised from data the decoder rejects has no texture, but
still reports the old size 2 x 3, not 0 x 0. -/
theorem failed_reinit_keeps_stale_size :
    (envDemo.loadFromMemoryRGBA32 []).imageRGBA = [] ∧
    getSize (construct envDemo World.empty.dev "a.png").2 = (2, 3) ∧
    (initFromMemory envDemo (construct envDemo World.empty.dev "a.png").1
      (construct envDemo World.empty.dev "a.png").2 []).2.mTextureID = 0 ∧
    getSize (initFromMemory envDemo (construct envDemo World.empty.dev "a.png").1
      (construct envDemo World.empty.dev "a.png").2 []).2 = (2, 3) ∧
    getSize (initFromResource envDemo (construct envDemo World.empty.dev "a.png").1
      (construct envDemo World.empty.dev "a.png").2 []).2 ≠ (0, 0) := by
  decide

/-- C3, amended: a load attempt whose decode fails leaves the entry without a
texture (id 0, no GL name generated) and with the size it had before the
attempt, and returns normally after logging one error line. This holds for
`initFromResource` and `initFromMemory` on any entry and for `reload` on an
entry with a path; after the constructor the size is (0, 0). -/
theorem failed_load_unbinds_and_keeps_size (env : Env) (d : Device) (t : TextureResource)
    (data : ResourceData) (path : String) :
    ((env.loadFromMemoryRGBA32 data).imageRGBA = [] →
      (initFromResource env d t data).2.mTextureID = 0 ∧
      getSize (initFromResource env d t data).2 = getSize t ∧
      (initFromResource env d t data).1.glGenerated = d.glGenerated ∧
      (initFromResource env d t data).1.log =
        d.log ++ ["Could not initialize texture (invalid resource data)!"] ∧
      (initFromMemory env d t data).2.mTextureID = 0 ∧
      getSize (initFromMemory env d t data).2 = getSize t ∧
      (initFromMemory env d t data).1.glGenerated = d.glGenerated ∧
      (initFromMemory env d t data).1.log =
        d.log ++ ["Could not initialize texture from memory (invalid data)!"]) ∧
    ((env.loadFromMemoryRGBA32 (env.getFileData t.mPath)).imageRGBA = [] → t.mPath ≠ "" →
      (reload env d t).2.mTextureID = 0 ∧
      getSize (reload env d t).2 = getSize t ∧
      (reload env d t).1.glGenerated = d.glGenerated) ∧
    ((env.loadFromMemoryRGBA32 (env.getFileData path)).imageRGBA = [] →
      (construct env d path).2.mTextureID = 0 ∧
      getSize (construct env d path).2 = (0, 0) ∧
      (construct env d path).1.glGenerated = d.glGenerated) := by
  have hgen : (deinit d t).1.glGenerated = d.glGenerated := by
    unfold deinit; split <;> rfl
  have hlog : (deinit d t).1.log = d.log := by
    unfold deinit; split <;> rfl
  have base : ∀ (msg : String) (dat : ResourceData),
      (env.loadFromMemoryRGBA32 dat).imageRGBA = [] →
      (initFromData env msg d t dat).2.mTextureID = 0 ∧
      getSize (initFromData env msg d t dat).2 = getSize t ∧
      (initFromData env msg d t dat).1.glGenerated = d.glGenerated ∧
      (initFromData env msg d t dat).1.log = d.log ++ [msg] := by
    intro msg dat hfail
    rw [initFromData_fail env msg d t dat hfail]
    exact ⟨deinit_id d t, deinit_size d t, hgen, by simp [hlog]⟩
  refine ⟨?_, ?_, ?_⟩
  · intro hfail
    obtain ⟨h1, h2, h3, h4⟩ := base "Could not initialize texture (invalid resource data)!"
      data hfail
    obtain ⟨h5, h6, h7, h8⟩ := base "Could not initialize texture from memory (invalid data)!"
      data hfail
    exact ⟨h1, h2, h3, h4, h5, h6, h7, h8⟩
  · intro hfail hp
    obtain ⟨h1, h2, h3, _⟩ := base "Could not initialize texture (invalid resource data)!"
      (env.getFileData t.mPath) hfail
    simp only [reload, isEmpty_eq_false_of_ne hp, Bool.not_false, if_true]
    exact ⟨h1, h2, h3⟩
  · intro hfail
    unfold construct reload
    split
    · simp only [initFromResource]
      rw [initFromData_fail env _ _ _ _ hfail, deinit_fresh]
      exact ⟨rfl, rfl, rfl⟩
    · exact ⟨rfl, rfl, rfl⟩

theorem failed_load_unbinds_and_keeps_size_witness :
    (envDemo.loadFromMemoryRGBA32 []).imageRGBA = [] ∧
    (envDemo.loadFromMemoryRGBA32 (envDemo.getFileData "missing.png")).imageRGBA = [] ∧
    "missing.png" ≠ "" ∧
    getSize (initFromResource envDemo World.empty.dev
      { mTextureID := 7, mPath := "missing.png", mTextureSize := (2, 3) } []).2 = (2, 3) ∧
    getSize (reload envDemo World.empty.dev
      { mTextureID := 7, mPath := "missing.png", mTextureSize := (2, 3) }).2 = (2, 3) ∧
    getSize (construct envDemo World.empty.dev "missing.png").2 = (0, 0) :=
  have h := failed_load_unbinds_and_keeps_size envDemo World.empty.dev
    { mTextureID := 7, mPath := "missing.png", mTextureSize := (2, 3) } [] "missing.png"
  ⟨by decide, by decide, by decide, (h.1 (by decide)).2.1,
    (h.2.1 (by decide) (by decide)).2.1, (h.2.2 (by decide)).2.1⟩

/-- C18, the code at the failing input: on the 640 x 480 screen `initFromScreen`
copies a 640 x 480 image into the new texture but records the size (480, 480):
both components are assigned from `height`, for every screen size. -/
theorem initFromScreen_records_height_twice :
    envDemo.getScreenWidth = 640 ∧ envDemo.getScreenHeight = 480 ∧
    getSize (initFromScreen envDemo World.empty.dev
      { mTextureID := 0, mPath := "", mTextureSize := (0, 0) }).2 = (480, 480) ∧
    (initFromScreen envDemo World.empty.dev
      { mTextureID := 0, mPath := "", mTextureSize := (0, 0) }).1.glTextures
        = [(1, 640, 480)] ∧
    (∀ (env : Env) (d : Device) (t : TextureResource),
      getSize (initFromScreen env d t).2 = (env.getScreenHeight, env.getScreenHeight)) :=
  ⟨by decide, by decide, by decide, by decide, fun _ _ _ => rfl⟩

end Tex

namespace Gui

theorem sortStates_length : sortStates.length = 8 := rfl

theorem wrapSize_of_lt (n : Int) (h0 : 0 ≤ n) (h1 : n < 2 ^ 64) : wrapSize n = n.toNat := by
  unfold wrapSize SIZE_BITS
  rw [Int.emod_eq_of_lt h0 (by exact_mod_cast h1)]

theorem wrapSize_neg_one : wrapSize (-1) = 2 ^ 64 - 1 := by decide

theorem toInt32_of_lt (n : Nat) (h : n < 2 ^ 31) : toInt32 n = n := by
  unfold toInt32
  have : n % 2 ^ 32 = n := Nat.mod_eq_of_lt (by omega)
  rw [this, if_pos h]

/-! ### Frame lemmas: what the refresh functions leave alone -/

theorem updateDetailData_session (env : Env) (s : State) :
    (updateDetailData env s).session = s.session ∧
    (updateDetailData env s).systems = s.systems := by
  unfold updateDetailData hideDetailData
  split
  · exact ⟨rfl, rfl⟩
  · split <;> exact ⟨rfl, rfl⟩

theorem updateList_isSome (s : State) (h : s.mFolder ≠ none) : ∃ s1, updateList s = some s1 := by
  unfold updateList
  split
  · exact absurd ‹_› h
  · exact ⟨_, rfl⟩

theorem updateList_session (s s1 : State) (h : updateList s = some s1) :
    s1.session = s.session ∧ s1.systems = s.systems := by
  unfold updateList at h
  split at h
  · cases h
  · cases h; exact ⟨rfl, rfl⟩

theorem sort_session (env : Env) (s s1 : State) (k : Nat) (h : sort env s k = some s1) :
    s1.session = s.session ∧ s1.systems = s.systems := by
  simp only [sort, Option.bind_eq_bind, Option.bind_eq_some, Option.pure_def,
    Option.some.injEq] at h
  obtain ⟨folder, _, s2, h2, rfl⟩ := h
  have h1 := updateList_session _ _ h2
  have h3 := updateDetailData_session env s2
  exact ⟨h3.1.trans h1.1, h3.2.trans h1.2⟩

theorem sort_isSome (env : Env) (s : State) (k : Nat) (h : s.mFolder ≠ none) :
    ∃ s1, sort env s k = some s1 := by
  obtain ⟨folder, hf⟩ := Option.ne_none_iff_exists'.mp h
  obtain ⟨s2, h2⟩ := updateList_isSome
    ({ s with files := env.folderSort s.files folder k }.call (.folderSort folder k)) h
  exact ⟨updateDetailData env s2, by
    simp only [sort, Option.bind_eq_bind, Option.bind_eq_some, Option.pure_def,
      Option.some.injEq]
    exact ⟨folder, hf, s2, h2, rfl⟩⟩

theorem setSortIndex_session (env : Env) (s s1 : State) (index : Nat)
    (h : setSortIndex env s index = some s1) :
    s1.session = { s.session with sortStateIndex := if index ≥ 8 then 0 else index } ∧
    s1.systems = s.systems := by
  simp only [setSortIndex, sortStates_length] at h
  generalize (if index ≥ 8 then 0 else index) = k at h ⊢
  by_cases hk : k = s.sortStateIndex
  · rw [if_neg (by simpa using hk)] at h
    simp only [Option.bind_eq_bind, Option.pure_def, Option.some_bind, Option.some.injEq] at h
    subst h
    refine ⟨?_, rfl⟩
    simp [State.session, hk]
  · rw [if_pos hk] at h
    simp only [Option.bind_eq_bind, Option.bind_eq_some, Option.pure_def,
      Option.some.injEq] at h
    obtain ⟨s2, h2, rfl⟩ := h
    have h1 := sort_session env _ _ _ h2
    refine ⟨?_, h1.2⟩
    have := h1.1
    simp only [State.session, Session.mk.injEq] at this ⊢
    obtain ⟨a1, a2, a3, a4, a5, a6, a7, a8, a9⟩ := this
    exact ⟨a1, a2, a3, a4, a5, a6, a7, a8, a9⟩

theorem setSortIndex_isSome (env : Env) (s : State) (index : Nat) (h : s.mFolder ≠ none) :
    ∃ s1, setSortIndex env s index = some s1 := by
  simp only [setSortIndex, sortStates_length]
  generalize (if index ≥ 8 then 0 else index) = k
  by_cases hk : k = s.sortStateIndex
  · rw [if_neg (by simpa using hk)]
    exact ⟨_, rfl⟩
  · rw [if_pos hk]
    obtain ⟨s2, h2⟩ := sort_isSome env { s with sortStateIndex := k } k h
    simp only [Option.bind_eq_bind, Option.bind_eq_some, Option.pure_def, Option.some.injEq]
    exact ⟨_, s2, h2, rfl⟩

theorem next_index (i : Nat) (hi : i < 8) :
    (if wrapSize ((i : Int) + 1) ≥ 8 then 0 else wrapSize ((i : Int) + 1)) = (i + 1) % 8 := by
  rw [wrapSize_of_lt _ (by omega) (by omega)]
  have : ((i : Int) + 1).toNat = i + 1 := by omega
  rw [this]
  split <;> omega

theorem prev_index (i : Nat) (h0 : i ≠ 0) (hi : i < 8) :
    (if wrapSize ((i : Int) - 1) ≥ 8 then 0 else wrapSize ((i : Int) - 1)) = i - 1 := by
  rw [wrapSize_of_lt _ (by omega) (by omega)]
  have : ((i : Int) - 1).toNat = i - 1 := by omega
  rw [this]
  split <;> omega

/-- What `setSortIndex` does on a non-null folder. -/
theorem setSortIndex_spec (env : Env) (s : State) (index : Nat) (h : s.mFolder ≠ none) :
    ∃ s1, setSortIndex env s index = some s1 ∧
      s1.session = { s.session with sortStateIndex := if index ≥ 8 then 0 else index } ∧
      s1.systems = s.systems := by
  obtain ⟨s1, h1⟩ := setSortIndex_isSome env s index h
  exact ⟨s1, h1, setSortIndex_session env s s1 index h1⟩

theorem session_mFolder {s s1 : State} {k : Nat}
    (h : s1.session = { s.session with sortStateIndex := k }) : s1.mFolder = s.mFolder :=
  congrArg Session.mFolder h

theorem session_sortStateIndex {s s1 : State} {k : Nat}
    (h : s1.session = { s.session with sortStateIndex := k }) : s1.sortStateIndex = k :=
  congrArg Session.sortStateIndex h

/-- What `setNextSortIndex` does on a non-null folder and an index in range:
the index moves to the next one, cyclically, and nothing else of the session
changes. -/
theorem setNextSortIndex_spec (env : Env) (s : State) (h : s.mFolder ≠ none)
    (hi : s.sortStateIndex < 8) :
    ∃ s1, setNextSortIndex env s = some s1 ∧
      s1.session = { s.session with sortStateIndex := (s.sortStateIndex + 1) % 8 } ∧
      s1.systems = s.systems := by
  simp only [setNextSortIndex, sortStates_length]
  by_cases h0 : s.sortStateIndex = 0
  · have hw : wrapSize ((s.sortStateIndex : Int) - 1) ≥ 8 := by
      rw [h0]; decide
    rw [if_pos hw]
    obtain ⟨s1, e1, hs1, hy1⟩ := setSortIndex_spec env s 0 h
    have hf1 : s1.mFolder ≠ none := by rw [session_mFolder hs1]; exact h
    have hi1 : s1.sortStateIndex = 0 := by rw [session_sortStateIndex hs1]; rfl
    obtain ⟨s2, e2, hs2, hy2⟩ := setSortIndex_spec env s1
      (wrapSize ((s1.sortStateIndex : Int) + 1)) hf1
    refine ⟨s2, ?_, ?_, hy2.trans hy1⟩
    · simp only [Option.bind_eq_bind, Option.bind_eq_some]
      exact ⟨s1, e1, e2⟩
    · rw [hs2, hs1, hi1, h0]
      rfl
  · have hw : ¬ wrapSize ((s.sortStateIndex : Int) - 1) ≥ 8 := by
      rw [wrapSize_of_lt _ (by omega) (by omega)]
      have : ((s.sortStateIndex : Int) - 1).toNat = s.sortStateIndex - 1 := by omega
      rw [this]
      omega
    rw [if_neg hw]
    obtain ⟨s2, e2, hs2, hy2⟩ := setSortIndex_spec env s
      (wrapSize ((s.sortStateIndex : Int) + 1)) h
    refine ⟨s2, ?_, ?_, hy2⟩
    · simp only [Option.bind_eq_bind, Option.pure_def, Option.some_bind]
      exact e2
    · rw [hs2, next_index _ hi]

/-- What `setPreviousSortIndex` does on a non-null folder and an index in
range: from an index above 0 it moves to the one before; from index 0 it moves
to the last index and then one further back, to the index before the last. -/
theorem setPreviousSortIndex_spec (env : Env) (s : State) (h : s.mFolder ≠ none)
    (hi : s.sortStateIndex < 8) :
    ∃ s1, setPreviousSortIndex env s = some s1 ∧
      s1.session = { s.session with
        sortStateIndex := if s.sortStateIndex = 0 then 6 else s.sortStateIndex - 1 } ∧
      s1.systems = s.systems := by
  simp only [setPreviousSortIndex, sortStates_length]
  have hc : toInt32 s.sortStateIndex = s.sortStateIndex := toInt32_of_lt _ (by omega)
  by_cases h0 : s.sortStateIndex = 0
  · have hw : toInt32 s.sortStateIndex - 1 < 0 := by rw [hc, h0]; decide
    rw [if_pos hw]
    obtain ⟨s1, e1, hs1, hy1⟩ := setSortIndex_spec env s (wrapSize (((8 : Nat) : Int) - 1)) h
    have hf1 : s1.mFolder ≠ none := by rw [session_mFolder hs1]; exact h
    have hi1 : s1.sortStateIndex = 7 := by rw [session_sortStateIndex hs1]; decide
    obtain ⟨s2, e2, hs2, hy2⟩ := setSortIndex_spec env s1
      (wrapSize ((s1.sortStateIndex : Int) - 1)) hf1
    refine ⟨s2, ?_, ?_, hy2.trans hy1⟩
    · simp only [Option.bind_eq_bind, Option.bind_eq_some]
      exact ⟨s1, e1, e2⟩
    · rw [hs2, hs1, hi1, if_pos h0]
      rfl
  · have hw : ¬ toInt32 s.sortStateIndex - 1 < 0 := by rw [hc]; omega
    rw [if_neg hw]
    obtain ⟨s2, e2, hs2, hy2⟩ := setSortIndex_spec env s
      (wrapSize ((s.sortStateIndex : Int) - 1)) h
    refine ⟨s2, ?_, ?_, hy2⟩
    · simp only [Option.bind_eq_bind, Option.pure_def, Option.some_bind]
      exact e2
    · rw [hs2, prev_index _ h0 hi, if_neg h0]


theorem iterate_setNextSortIndex (env : Env) (n : Nat) (s : State) (hf : s.mFolder ≠ none)
    (hi : s.sortStateIndex < 8) :
    ∃ sn, Nat.iterate (fun o => Option.bind o (setNextSortIndex env)) n (some s) = some sn ∧
      sn.sortStateIndex = (s.sortStateIndex + n) % 8 ∧ sn.mFolder = s.mFolder := by
  induction n with
  | zero => exact ⟨s, rfl, by simp; omega, rfl⟩
  | succ n ih =>
    obtain ⟨sn, hn, hidx, hfn⟩ := ih
    have hfn1 : sn.mFolder ≠ none := by rw [hfn]; exact hf
    have hin : sn.sortStateIndex < 8 := by rw [hidx]; omega
    obtain ⟨s1, e1, hs1, _⟩ := setNextSortIndex_spec env sn hfn1 hin
    refine ⟨s1, ?_, ?_, ?_⟩
    · rw [Function.iterate_succ_apply', hn]
      exact e1
    · rw [session_sortStateIndex hs1, hidx]
      omega
    · rw [session_mFolder hs1, hfn]

/-- C4: with the 8 sort states, on a session with a current folder and a sort
index i below 8, `setNextSortIndex` returns with the index at (i + 1) mod 8 and
the rest of the session as it was, and 8 calls in a row return with the index
back at i. -/
theorem setNextSortIndex_cycles (env : Env) (s : State) (hf : s.mFolder ≠ none)
    (hi : s.sortStateIndex < 8) :
    sortStates.length = 8 ∧
    (∃ s1, setNextSortIndex env s = some s1 ∧
      s1.sortStateIndex = (s.sortStateIndex + 1) % sortStates.length ∧
      s1.session = { s.session with sortStateIndex := (s.sortStateIndex + 1) % 8 }) ∧
    (∃ s8, Nat.iterate (fun o => Option.bind o (setNextSortIndex env)) 8 (some s) = some s8 ∧
      s8.sortStateIndex = s.sortStateIndex) := by
  refine ⟨rfl, ?_, ?_⟩
  · obtain ⟨s1, e1, hs1, _⟩ := setNextSortIndex_spec env s hf hi
    exact ⟨s1, e1, session_sortStateIndex hs1, hs1⟩
  · obtain ⟨s8, e8, h8, _⟩ := iterate_setNextSortIndex env 8 s hf hi
    exact ⟨s8, e8, by rw [h8]; omega⟩

theorem setNextSortIndex_cycles_witness :
    (demoAt 7).mFolder ≠ none ∧ (demoAt 7).sortStateIndex < 8 ∧
    (∃ s1, setNextSortIndex demoEnv (demoAt 7) = some s1 ∧ s1.sortStateIndex = 0) :=
  have h := (setNextSortIndex_cycles demoEnv (demoAt 7) (by decide) (by decide)).2.1
  ⟨by decide, by decide, h.imp (fun _ hs => ⟨hs.1, hs.2.1⟩)⟩

/-- C5, the code at the failing input: with the 8 sort states and the sort index
at 0, `setPreviousSortIndex` returns with the index at 6, not at the last index
7; from index 3 it goes to 2. -/
theorem setPreviousSortIndex_from_zero :
    (setPreviousSortIndex demoEnv (demoAt 0)).map (fun s => s.sortStateIndex) = some 6 ∧
    (setPreviousSortIndex demoEnv (demoAt 3)).map (fun s => s.sortStateIndex) = some 2 := by
  decide



theorem session_gate {s s1 : State} (h : s1.session = s.session) :
    s1.mLockInput = s.mLockInput ∧ s1.mEffectFunc = s.mEffectFunc :=
  ⟨congrArg Session.mLockInput h, congrArg Session.mEffectFunc h⟩

theorem restamp_session (env : Env) (s : State) (config : InputConfig) (inp : Input)
    (now : Nat) (r : Nat × State) (h : restamp env s config inp now = some r) :
    r.2.session = s.session ∧ r.2.systems = s.systems ∧ r.2.mList.rows = s.mList.rows := by
  simp only [restamp, Option.bind_eq_bind, Option.bind_eq_some, Option.pure_def,
    Option.some.injEq] at h
  obtain ⟨old, _, file, _, rfl⟩ := h
  exact ⟨rfl, rfl, rfl⟩

theorem restamp_eq (env : Env) (s : State) (config : InputConfig) (inp : Input)
    (now : Nat) (old file : Nat) (hold : getSelectedObject s = some old)
    (hnew : s.mList.rows[env.listInput s.mList config inp]? = some file) :
    ∃ s3, restamp env s config inp now = some (file, s3) := by
  simp only [restamp, Option.bind_eq_bind, Option.bind_eq_some, Option.pure_def,
    Option.some.injEq]
  exact ⟨_, old, hold, file, hnew, rfl⟩

theorem setSystemId_session (env : Env) (s s1 : State) (id : Int)
    (h : setSystemId env s id = some s1) :
    s1.mLockInput = s.mLockInput ∧ s1.mEffectFunc = s.mEffectFunc ∧
    s1.mEffectTime = s.mEffectTime ∧
    s1.mGameLaunchEffectLength = s.mGameLaunchEffectLength ∧
    s1.sortStateIndex = s.sortStateIndex ∧ s1.systems = s.systems := by
  unfold setSystemId at h
  by_cases hlen : s.systems.length = 0
  · rw [if_pos hlen] at h
    cases h; exact ⟨rfl, rfl, rfl, rfl, rfl, rfl⟩
  · rw [if_neg hlen] at h
    by_cases hneg : wrapSystemId s.systems.length id < 0
    · rw [if_pos hneg] at h; cases h
    · rw [if_neg hneg] at h
      simp only [Option.bind_eq_bind, Option.bind_eq_some, Option.pure_def,
        Option.some.injEq] at h
      obtain ⟨sys, _, s2, h2, rfl⟩ := h
      have h1 := updateList_session _ _ h2
      have h3 := updateDetailData_session env s2
      have e := h3.1.trans h1.1
      have e2 := h3.2.trans h1.2
      exact ⟨congrArg Session.mLockInput e, congrArg Session.mEffectFunc e,
        congrArg Session.mEffectTime e, congrArg Session.mGameLaunchEffectLength e,
        congrArg Session.sortStateIndex e, e2⟩

/-- What `setSystemId` does when the wrapped id is in range: it returns with
that id as the active system, an empty folder stack and the root folder of that
system as the current folder. -/
theorem setSystemId_spec (env : Env) (s : State) (id : Int) (k : Nat) (sys : SystemData)
    (hk : wrapSystemId s.systems.length id = (k : Int))
    (hsys : s.systems[k]? = some sys) :
    ∃ s1, setSystemId env s id = some s1 ∧ s1.mSystemId = k ∧ s1.mSystem = some k ∧
      s1.mFolderStack = [] ∧ s1.mFolder = some sys.rootFolder ∧ s1.systems = s.systems := by
  have hlen : s.systems.length ≠ 0 := by
    intro h0
    have := List.getElem?_eq_none (l := s.systems) (n := k) (by omega)
    rw [this] at hsys; cases hsys
  unfold setSystemId
  rw [if_neg hlen, hk, if_neg (by omega)]
  simp only [Int.toNat_ofNat, hsys, Option.bind_eq_bind, Option.some_bind, Option.pure_def]
  obtain ⟨s2, h2⟩ := updateList_isSome
    (updateTheme env { s with mSystemId := k, mSystem := some k, mFolderStack := [],
                              mFolder := some sys.rootFolder }) (by simp [updateTheme])
  have h1 := updateList_session _ _ h2
  have h3 := updateDetailData_session env s2
  have e := h3.1.trans h1.1
  refine ⟨updateDetailData env s2, ?_, congrArg Session.mSystemId e,
    congrArg Session.mSystem e, congrArg Session.mFolderStack e,
    congrArg Session.mFolder e, h3.2.trans h1.2⟩
  simp only [Option.bind_eq_some, Option.some.injEq]
  exact ⟨s2, h2, rfl⟩

theorem wrapSystemId_step (n c : Nat) (delta : Int) (hn : 1 < n) (hc : c < n)
    (hd : delta = 1 ∨ delta = -1) :
    wrapSystemId n ((c : Int) + delta) = ((c : Int) + delta) % (n : Int) ∧
    0 ≤ ((c : Int) + delta) % (n : Int) ∧ ((c : Int) + delta) % (n : Int) < n := by
  have hpos : 0 ≤ ((c : Int) + delta) % (n : Int) := Int.emod_nonneg _ (by omega)
  have hlt : ((c : Int) + delta) % (n : Int) < n := Int.emod_lt_of_pos _ (by omega)
  refine ⟨?_, hpos, hlt⟩
  unfold wrapSystemId
  rcases hd with rfl | rfl
  · by_cases hlast : c + 1 = n
    · have e : ((c : Int) + 1) = n := by exact_mod_cast hlast
      rw [e]
      simp
    · have e : ((c : Int) + 1) % (n : Int) = c + 1 := Int.emod_eq_of_lt (by omega) (by omega)
      rw [e]
      simp only
      rw [if_neg (by omega), if_neg (by omega)]
  · by_cases h0 : c = 0
    · subst h0
      have e : ((0 : Nat) : Int) + -1 = -1 := by simp
      rw [e]
      have e2 : (-1 : Int) % (n : Int) = n - 1 := by
        rw [← Int.add_emod_self]
        exact Int.emod_eq_of_lt (by omega) (by omega)
      rw [e2]
      simp only
      rw [if_neg (show ¬ ((-1 : Int) ≥ (n : Int)) by omega),
        if_pos (show (-1 : Int) < 0 by omega)]
      omega
    · have e : ((c : Int) + -1) % (n : Int) = c + -1 := Int.emod_eq_of_lt (by omega) (by omega)
      rw [e]
      simp only
      rw [if_neg (by omega), if_neg (by omega)]


theorem input_unlocked (env : Env) (s s3 : State) (config : InputConfig) (inp : Input)
    (now file : Nat) (hlock : s.mLockInput = false)
    (hstamp : restamp env s config inp now = some (file, s3))
    (hF3 : inp.id ≠ SDLK_F3) (hF5 : inp.id ≠ SDLK_F5) :
    input env s config inp now = inputConfirm env s3 config inp file := by
  unfold input
  simp only [hlock, Bool.false_eq_true, if_false, hstamp, Option.bind_eq_bind,
    Option.some_bind, if_neg hF3, if_neg hF5]

/-- C6: on an unlocked session, for a pressed input that is mapped to `b` only
and is neither of the raw keys F3 and F5, with a row selected before and after
the list has seen the input: `input` returns; with an empty folder stack the
whole session (current folder and stack included) is as before; otherwise the
event is consumed, the current folder is the former top of the stack and the
stack has lost its top. -/
theorem input_back (env : Env) (s : State) (config : InputConfig) (inp : Input)
    (now old file : Nat)
    (hlock : s.mLockInput = false)
    (hmap : ∀ name, config.isMappedTo name inp = (name == "b"))
    (hpress : inp.value ≠ 0)
    (hF3 : inp.id ≠ SDLK_F3) (hF5 : inp.id ≠ SDLK_F5)
    (hold : getSelectedObject s = some old)
    (hnew : s.mList.rows[env.listInput s.mList config inp]? = some file) :
    (s.mFolderStack = [] →
      ∃ r s1, input env s config inp now = some (r, s1) ∧
        s1.mFolder = s.mFolder ∧ s1.mFolderStack = [] ∧ s1.session = s.session) ∧
    (∀ top rest, s.mFolderStack = top :: rest →
      ∃ s1, input env s config inp now = some (true, s1) ∧
        s1.mFolder = some top ∧ s1.mFolderStack = rest ∧
        s1.mSystemId = s.mSystemId ∧ s1.sortStateIndex = s.sortStateIndex) := by
  obtain ⟨s3, hstamp⟩ := restamp_eq env s config inp now old file hold hnew
  obtain ⟨hsess, _, _⟩ := restamp_session env s config inp now _ hstamp
  simp only at hsess
  have hpress1 : (inp.value != 0) = true := by simpa using hpress
  have hin : input env s config inp now = inputBack env s3 config inp := by
    rw [input_unlocked env s s3 config inp now file hlock hstamp hF3 hF5]
    unfold inputConfirm
    rw [hmap "a"]
    simp
  have hstack : s3.mFolderStack = s.mFolderStack := congrArg Session.mFolderStack hsess
  rw [hin]
  unfold inputBack
  simp only [hmap "b", beq_self_eq_true, hpress1, Bool.and_self, if_true]
  constructor
  · intro hempty
    rw [hstack, hempty]
    simp only [inputSystem, inputSort, hmap, hpress1]
    simp only [show ("right" == "b") = false by decide, show ("left" == "b") = false by decide,
      show ("sortordernext" == "b") = false by decide,
      show ("sortorderprevious" == "b") = false by decide,
      show ("menu" == "b") = false by decide, show ("select" == "b") = false by decide,
      show ("up" == "b") = false by decide, show ("down" == "b") = false by decide,
      show ("pageup" == "b") = false by decide, show ("pagedown" == "b") = false by decide,
      Bool.false_and, Bool.and_false, Bool.false_eq_true, if_false, Bool.or_self,
      Option.pure_def, Option.bind_eq_bind, Option.some_bind, ite_self]
    have hf : s3.mFolder = s.mFolder := congrArg Session.mFolder hsess
    have hst : s3.mFolderStack = [] := hstack.trans hempty
    split
    · exact ⟨_, _, rfl, hf, hst, hsess⟩
    · exact ⟨_, _, rfl, hf, hst, hsess⟩
  · intro top rest hst
    rw [hstack, hst]
    simp only
    obtain ⟨s4, h4⟩ := updateList_isSome
      { s3 with mFolder := some top, mFolderStack := rest } (by simp)
    have h5 := (updateList_session _ _ h4).1
    have h6 := (updateDetailData_session env s4).1
    have e := h6.trans h5
    refine ⟨(updateDetailData env s4).call (.playSound "menuBack"), ?_,
      congrArg Session.mFolder e, congrArg Session.mFolderStack e, ?_, ?_⟩
    · simp only [Option.bind_eq_bind, Option.bind_eq_some, Option.pure_def,
        Option.some.injEq]
      exact ⟨s4, h4, rfl⟩
    · exact (congrArg Session.mSystemId e).trans (congrArg Session.mSystemId hsess)
    · exact (congrArg Session.sortStateIndex e).trans (congrArg Session.sortStateIndex hsess)


theorem input_back_witness :
    demoInFolder.mLockInput = false ∧ ((1 : Int) ≠ 0) ∧
    getSelectedObject demoInFolder = some 3 ∧
    (∃ s1, input demoEnv demoInFolder demoConfig { id := 2, value := 1 } 10 = some (true, s1) ∧
      s1.mFolder = some 0 ∧ s1.mFolderStack = []) :=
  have h := (input_back demoEnv demoInFolder demoConfig { id := 2, value := 1 } 10 3 3
    (by decide) (fun name => by simp [demoConfig]) (by decide) (by decide) (by decide)
    (by decide) (by decide)).2 0 [] (by decide)
  ⟨by decide, by decide, by decide, h.imp (fun _ hs => ⟨hs.1, hs.2.1, hs.2.2.1⟩)⟩

/-- C7: with more than one system and the current system index c in range, for
delta +1 or -1: `setSystemId(mSystemId + delta)` returns with the active index
at (c + delta) mod n, an empty folder stack and the root folder of that system
as current folder; and on an unlocked session a pressed input mapped only to
`right` (delta +1) or only to `left` (delta -1), not one of the raw keys, with a
row selected before and after the list has seen it, is consumed and makes
exactly that switch. -/
theorem system_switch (env : Env) (s : State) (c : Nat) (delta : Int)
    (hn : 1 < s.systems.length) (hid : s.mSystemId = (c : Int)) (hc : c < s.systems.length)
    (hd : delta = 1 ∨ delta = -1) :
    (∃ s1 sys, setSystemId env s (s.mSystemId + delta) = some s1 ∧
      s1.mSystemId = ((c : Int) + delta) % (s.systems.length : Int) ∧
      s1.mFolderStack = [] ∧
      s.systems[(((c : Int) + delta) % (s.systems.length : Int)).toNat]? = some sys ∧
      s1.mFolder = some sys.rootFolder ∧ s1.systems = s.systems) ∧
    (∀ (config : InputConfig) (inp : Input) (now old file : Nat),
      s.mLockInput = false →
      (∀ name, config.isMappedTo name inp = (name == if delta = 1 then "right" else "left")) →
      inp.value ≠ 0 → inp.id ≠ SDLK_F3 → inp.id ≠ SDLK_F5 →
      getSelectedObject s = some old →
      s.mList.rows[env.listInput s.mList config inp]? = some file →
      ∃ s1 sys, input env s config inp now = some (true, s1) ∧
        s1.mSystemId = ((c : Int) + delta) % (s.systems.length : Int) ∧
        s1.mFolderStack = [] ∧
        s.systems[(((c : Int) + delta) % (s.systems.length : Int)).toNat]? = some sys ∧
        s1.mFolder = some sys.rootFolder ∧ s1.systems = s.systems) := by
  obtain ⟨hw, hpos, hlt⟩ := wrapSystemId_step s.systems.length c delta hn hc hd
  obtain ⟨k, hk⟩ : ∃ k : Nat, ((c : Int) + delta) % (s.systems.length : Int) = k :=
    ⟨_, (Int.toNat_of_nonneg hpos).symm⟩
  have hkn : k < s.systems.length := by omega
  have hsys : s.systems[k]? = some (s.systems[k]) := List.getElem?_eq_getElem hkn
  have core : ∀ t : State, t.systems = s.systems → t.mSystemId = s.mSystemId →
      ∃ s1 sys, setSystemId env t (t.mSystemId + delta) = some s1 ∧
        s1.mSystemId = ((c : Int) + delta) % (s.systems.length : Int) ∧
        s1.mFolderStack = [] ∧
        s.systems[(((c : Int) + delta) % (s.systems.length : Int)).toNat]? = some sys ∧
        s1.mFolder = some sys.rootFolder ∧ s1.systems = s.systems := by
    intro t hts htid
    obtain ⟨s1, e1, h1, _, h3, h4, h5⟩ := setSystemId_spec env t (t.mSystemId + delta) k
      (s.systems[k]) (by rw [hts, htid, hid, hw, hk]) (by rw [hts]; exact hsys)
    refine ⟨s1, s.systems[k], e1, by rw [h1, hk], h3, ?_, h4, h5.trans hts⟩
    rw [hk, Int.toNat_ofNat]
    exact hsys
  refine ⟨core s rfl rfl, ?_⟩
  intro config inp now old file hlock hmap hpress hF3 hF5 hold hnew
  obtain ⟨s3, hstamp⟩ := restamp_eq env s config inp now old file hold hnew
  obtain ⟨hsess, hsys3, _⟩ := restamp_session env s config inp now _ hstamp
  simp only at hsess hsys3
  have hpress1 : (inp.value != 0) = true := by simpa using hpress
  have hlen : decide (s3.systems.length > 1) = true := by rw [hsys3]; simpa using hn
  obtain ⟨s1, sys, e1, p1, p2, p3, p4, p5⟩ :=
    core s3 hsys3 (congrArg Session.mSystemId hsess)
  rw [input_unlocked env s s3 config inp now file hlock hstamp hF3 hF5]
  rcases hd with rfl | rfl
  · simp only [if_true] at hmap
    refine ⟨s1.call (.doTransition (-1)), sys, ?_, p1, p2, p3, p4, p5⟩
    simp only [inputConfirm, inputBack, inputSystem, hmap, hpress1, hlen,
      show ("a" == "right") = false by decide, show ("b" == "right") = false by decide,
      beq_self_eq_true, Bool.false_and, Bool.and_self, Bool.false_eq_true, if_false, if_true,
      e1, Option.bind_eq_bind, Option.some_bind, Option.pure_def]
  · simp only [show ((-1 : Int) = 1) = False by decide, if_false] at hmap
    refine ⟨s1.call (.doTransition 1), sys, ?_, p1, p2, p3, p4, p5⟩
    have e2 : setSystemId env s3 (s3.mSystemId - 1) = some s1 := e1
    simp only [inputConfirm, inputBack, inputSystem, hmap, hpress1, hlen,
      show ("a" == "left") = false by decide, show ("b" == "left") = false by decide,
      show ("right" == "left") = false by decide,
      beq_self_eq_true, Bool.false_and, Bool.and_self, Bool.false_eq_true, if_false, if_true,
      e2, Option.bind_eq_bind, Option.some_bind, Option.pure_def]

theorem system_switch_witness :
    1 < (demoAt 0).systems.length ∧ (demoAt 0).mSystemId = ((0 : Nat) : Int) ∧
    0 < (demoAt 0).systems.length ∧
    (∃ s1, input demoEnv (demoAt 0) demoConfig { id := 4, value := 1 } 10 = some (true, s1) ∧
      s1.mSystemId = 1 ∧ s1.mFolderStack = [] ∧ s1.mFolder = some 4) := by
  obtain ⟨s1, sys, h1, h2, h3, h4, h5, _⟩ :=
    (system_switch demoEnv (demoAt 0) 0 (-1) (by decide) (by decide) (by decide)
      (Or.inr rfl)).2 demoConfig { id := 4, value := 1 } 10 1 1
      (by decide) (fun name => by simp [demoConfig]) (by decide) (by decide) (by decide)
      (by decide) (by decide)
  have e : (demoAt 0).systems[((((0 : Nat) : Int) + -1)
      % ((demoAt 0).systems.length : Int)).toNat]? = some ⟨"snes", 4, "", ""⟩ := by decide
  rw [e] at h4
  cases h4
  exact ⟨by decide, by decide, by decide, s1, h1, by rw [h2]; decide, h3, h5⟩

/-- C8, as stated, fails: on the locked session of the small library a pressed
`a` leaves the state as it is but `input` returns false, so the event is
reported as not consumed. -/
theorem input_locked_returns_false :
    demoLocked.mLockInput = true ∧
    (input demoEnv demoLocked demoConfig { id := 1, value := 1 } 10).map Prod.fst = some false ∧
    (input demoEnv demoLocked demoConfig { id := 1, value := 1 } 10).map Prod.fst ≠ some true :=
  by decide

/-- C8, amended: while the lock flag is set, `input` returns for every input
event with the state unchanged (current folder, folder stack, system index,
sort index and effect state included), and the value it returns is false. -/
theorem input_locked (env : Env) (s : State) (config : InputConfig) (inp : Input) (now : Nat)
    (hlock : s.mLockInput = true) :
    input env s config inp now = some (false, s) ∧
    ∀ r s1, input env s config inp now = some (r, s1) →
      r = false ∧ s1.session = s.session ∧ s1.mFolder = s.mFolder ∧
      s1.mFolderStack = s.mFolderStack ∧ s1.mSystemId = s.mSystemId ∧
      s1.sortStateIndex = s.sortStateIndex ∧ s1.mEffectFunc = s.mEffectFunc := by
  have h : input env s config inp now = some (false, s) := by
    unfold input
    rw [if_pos hlock]
  refine ⟨h, ?_⟩
  intro r s1 h1
  rw [h] at h1
  cases h1
  exact ⟨rfl, rfl, rfl, rfl, rfl, rfl, rfl⟩

theorem input_locked_witness :
    demoLocked.mLockInput = true ∧
    input demoEnv demoLocked demoConfig { id := 1, value := 1 } 10 = some (false, demoLocked) :=
  ⟨by decide, (input_locked demoEnv demoLocked demoConfig { id := 1, value := 1 } 10
    (by decide)).1⟩


theorem SameGate.refl (s : State) : SameGate s s := ⟨rfl, rfl⟩

theorem SameGate.trans {a b c : State} (h1 : SameGate a b) (h2 : SameGate b c) :
    SameGate a c := ⟨h2.1.trans h1.1, h2.2.trans h1.2⟩

theorem SameGate.of_session {s s1 : State} (h : s1.session = s.session) : SameGate s s1 :=
  session_gate h

theorem SameGate.gated {s s1 : State} (h : SameGate s s1) (hg : Gated s) : Gated s1 := by
  unfold Gated at *
  rw [h.1, h.2]
  exact hg

theorem setSortIndex_gate (env : Env) (s s1 : State) (index : Nat)
    (h : setSortIndex env s index = some s1) : SameGate s s1 := by
  have := (setSortIndex_session env s s1 index h).1
  exact ⟨congrArg Session.mLockInput this, congrArg Session.mEffectFunc this⟩

theorem setNextSortIndex_gate (env : Env) (s s1 : State)
    (h : setNextSortIndex env s = some s1) : SameGate s s1 := by
  unfold setNextSortIndex at h
  by_cases hc : wrapSize ((s.sortStateIndex : Int) - 1) ≥ sortStates.length
  · rw [if_pos hc] at h
    simp only [Option.bind_eq_bind, Option.bind_eq_some] at h
    obtain ⟨s2, h2, h3⟩ := h
    exact (setSortIndex_gate env _ _ _ h2).trans (setSortIndex_gate env _ _ _ h3)
  · rw [if_neg hc] at h
    simp only [Option.bind_eq_bind, Option.pure_def, Option.some_bind] at h
    exact setSortIndex_gate env _ _ _ h

theorem setPreviousSortIndex_gate (env : Env) (s s1 : State)
    (h : setPreviousSortIndex env s = some s1) : SameGate s s1 := by
  unfold setPreviousSortIndex at h
  by_cases hc : toInt32 s.sortStateIndex - 1 < 0
  · rw [if_pos hc] at h
    simp only [Option.bind_eq_bind, Option.bind_eq_some] at h
    obtain ⟨s2, h2, h3⟩ := h
    exact (setSortIndex_gate env _ _ _ h2).trans (setSortIndex_gate env _ _ _ h3)
  · rw [if_neg hc] at h
    simp only [Option.bind_eq_bind, Option.pure_def, Option.some_bind] at h
    exact setSortIndex_gate env _ _ _ h

theorem setSystemId_gate (env : Env) (s s1 : State) (id : Int)
    (h : setSystemId env s id = some s1) : SameGate s s1 :=
  ⟨(setSystemId_session env s s1 id h).1, (setSystemId_session env s s1 id h).2.1⟩

theorem updateDetailData_gate (env : Env) (s : State) : SameGate s (updateDetailData env s) :=
  SameGate.of_session (updateDetailData_session env s).1

theorem updateList_gate (s s1 : State) (h : updateList s = some s1) : SameGate s s1 :=
  SameGate.of_session (updateList_session s s1 h).1

theorem inputSort_gate (env : Env) (s s1 : State) (config : InputConfig) (inp : Input)
    (r : Bool) (h : inputSort env s config inp = some (r, s1)) : SameGate s s1 := by
  have tail : ∀ s2 : State, SameGate s s2 →
      (if (config.isMappedTo "menu" inp && inp.value != 0) = true then
          some (true, s2.call .pushGuiMenu)
        else if (config.isMappedTo "select" inp && inp.value != 0) = true then
          (getSelectedObject s2).bind fun sel =>
            some (true, s2.call (.pushGuiFastSelect (s2.file sel).name))
        else if isDetailed s2 = true then
          if (config.isMappedTo "up" inp || config.isMappedTo "down" inp
              || config.isMappedTo "pageup" inp || config.isMappedTo "pagedown" inp) = true then
            if inp.value = 0 then some (true, updateDetailData env s2)
            else some (true, hideDetailData s2)
          else some (true, s2)
        else some (false, s2)) = some (r, s1) → SameGate s s1 := by
    intro s2 hg ht
    by_cases c1 : (config.isMappedTo "menu" inp && inp.value != 0) = true
    · rw [if_pos c1] at ht; cases ht; exact hg
    · rw [if_neg c1] at ht
      by_cases c2 : (config.isMappedTo "select" inp && inp.value != 0) = true
      · rw [if_pos c2] at ht
        simp only [Option.bind_eq_some, Option.some.injEq, Prod.mk.injEq] at ht
        obtain ⟨sel, _, _, rfl⟩ := ht
        exact hg
      · rw [if_neg c2] at ht
        by_cases c3 : isDetailed s2 = true
        · rw [if_pos c3] at ht
          split at ht
          · split at ht
            · cases ht; exact hg.trans (updateDetailData_gate env s2)
            · cases ht; exact hg
          · cases ht; exact hg
        · rw [if_neg c3] at ht; cases ht; exact hg
  unfold inputSort at h
  by_cases d1 : (config.isMappedTo "sortordernext" inp && inp.value != 0) = true
  · rw [if_pos d1] at h
    simp only [Option.bind_eq_bind, Option.bind_eq_some, Option.pure_def] at h
    obtain ⟨s2, h2, h3⟩ := h
    exact tail s2 (setNextSortIndex_gate env s s2 h2) h3
  · rw [if_neg d1] at h
    by_cases d2 : (config.isMappedTo "sortorderprevious" inp && inp.value != 0) = true
    · rw [if_pos d2] at h
      simp only [Option.bind_eq_bind, Option.bind_eq_some, Option.pure_def] at h
      obtain ⟨s2, h2, h3⟩ := h
      exact tail s2 (setPreviousSortIndex_gate env s s2 h2) h3
    · rw [if_neg d2] at h
      simp only [Option.bind_eq_bind, Option.pure_def, Option.some_bind] at h
      exact tail s (SameGate.refl s) h


theorem inputSystem_gate (env : Env) (s s1 : State) (config : InputConfig) (inp : Input)
    (r : Bool) (h : inputSystem env s config inp = some (r, s1)) : SameGate s s1 := by
  unfold inputSystem at h
  by_cases c0 : (decide (s.systems.length > 1) && inp.value != 0) = true
  · rw [if_pos c0] at h
    by_cases c1 : config.isMappedTo "right" inp = true
    · rw [if_pos c1] at h
      simp only [Option.bind_eq_bind, Option.bind_eq_some, Option.pure_def, Option.some.injEq,
        Prod.mk.injEq] at h
      obtain ⟨s2, h2, _, rfl⟩ := h
      exact setSystemId_gate env s s2 _ h2
    · rw [if_neg c1] at h
      by_cases c2 : config.isMappedTo "left" inp = true
      · rw [if_pos c2] at h
        simp only [Option.bind_eq_bind, Option.bind_eq_some, Option.pure_def,
          Option.some.injEq, Prod.mk.injEq] at h
        obtain ⟨s2, h2, _, rfl⟩ := h
        exact setSystemId_gate env s s2 _ h2
      · rw [if_neg c2] at h
        exact inputSort_gate env s s1 config inp r h
  · rw [if_neg c0] at h
    exact inputSort_gate env s s1 config inp r h

theorem inputBack_gate (env : Env) (s s1 : State) (config : InputConfig) (inp : Input)
    (r : Bool) (h : inputBack env s config inp = some (r, s1)) : SameGate s s1 := by
  unfold inputBack at h
  by_cases c0 : (config.isMappedTo "b" inp && inp.value != 0) = true
  · rw [if_pos c0] at h
    cases hst : s.mFolderStack with
    | nil =>
      rw [hst] at h
      exact inputSystem_gate env s s1 config inp r h
    | cons top rest =>
      rw [hst] at h
      simp only [Option.bind_eq_bind, Option.bind_eq_some, Option.pure_def, Option.some.injEq,
        Prod.mk.injEq] at h
      obtain ⟨s2, h2, _, rfl⟩ := h
      have g1 := updateList_gate _ _ h2
      have g2 := updateDetailData_gate env s2
      exact ⟨g2.1.trans g1.1, g2.2.trans g1.2⟩
  · rw [if_neg c0] at h
    exact inputSystem_gate env s s1 config inp r h

theorem inputConfirm_gate (env : Env) (s s1 : State) (config : InputConfig) (inp : Input)
    (file : Nat) (r : Bool) (h : inputConfirm env s config inp file = some (r, s1)) :
    SameGate s s1 ∨
      (s1.mLockInput = true ∧ s1.mEffectFunc = .updateGameLaunchEffect) := by
  unfold inputConfirm at h
  by_cases c0 : config.isMappedTo "a" inp = true
  · rw [if_pos c0] at h
    cases hf : s.mFolder with
    | none => rw [hf] at h; cases h
    | some folder =>
      rw [hf] at h
      simp only at h
      by_cases c1 : (decide ((s.file folder).files.length > 0) && inp.value != 0) = true
      · rw [if_pos c1] at h
        by_cases c2 : ((s.call (.playSound "menuSelect")).file file).isFolder = true
        · rw [if_pos c2] at h
          simp only [Option.bind_eq_bind, Option.bind_eq_some, Option.pure_def,
            Option.some.injEq, Prod.mk.injEq] at h
          obtain ⟨s2, h2, _, rfl⟩ := h
          have g1 := updateList_gate _ _ h2
          have g2 := updateDetailData_gate env s2
          exact Or.inl ⟨g2.1.trans g1.1, g2.2.trans g1.2⟩
        · rw [if_neg c2] at h
          simp only [Option.some.injEq, Prod.mk.injEq] at h
          obtain ⟨_, rfl⟩ := h
          exact Or.inr ⟨rfl, rfl⟩
      · rw [if_neg c1] at h
        exact Or.inl (inputBack_gate env s s1 config inp r h)
  · rw [if_neg c0] at h
    exact Or.inl (inputBack_gate env s s1 config inp r h)

theorem restamp_gate (env : Env) (s : State) (config : InputConfig) (inp : Input)
    (now : Nat) (r : Nat × State) (h : restamp env s config inp now = some r) :
    SameGate s r.2 :=
  SameGate.of_session (restamp_session env s config inp now r h).1

/-- An input step keeps the lock flag tied to the launch effect. -/
theorem input_gated (env : Env) (s s1 : State) (config : InputConfig) (inp : Input)
    (now : Nat) (r : Bool) (hg : Gated s) (h : input env s config inp now = some (r, s1)) :
    Gated s1 := by
  unfold input at h
  by_cases hl : s.mLockInput = true
  · rw [if_pos hl] at h
    cases h; exact hg
  · rw [if_neg hl] at h
    simp only [Option.bind_eq_bind, Option.bind_eq_some] at h
    obtain ⟨st, hst, h2⟩ := h
    have g0 := restamp_gate env s config inp now st hst
    have hg3 : Gated st.2 := g0.gated hg
    by_cases c3 : inp.id = SDLK_F3
    · rw [if_pos c3] at h2
      split at h2 <;> (cases h2; exact hg3)
    · rw [if_neg c3] at h2
      by_cases c5 : inp.id = SDLK_F5
      · rw [if_pos c5] at h2
        cases h2; exact hg3
      · rw [if_neg c5] at h2
        rcases inputConfirm_gate env st.2 s1 config inp st.1 r h2 with g | ⟨g1, g2⟩
        · exact g.gated hg3
        · unfold Gated
          rw [g1, g2]
          simp

theorem importFreshScreenshots_gate (s s1 : State) (since : Nat)
    (h : importFreshScreenshots s since = some s1) :
    SameGate s s1 ∧ s1.mList = s.mList ∧ s1.view = s.view := by
  unfold importFreshScreenshots at h
  simp only [Option.bind_eq_bind, Option.bind_eq_some] at h
  obtain ⟨sys, _, h2⟩ := h
  split at h2
  · cases h2; exact ⟨SameGate.refl s, rfl, rfl⟩
  · split at h2
    · cases h2; exact ⟨SameGate.refl s, rfl, rfl⟩
    · split at h2
      · cases h2; exact ⟨SameGate.refl s, rfl, rfl⟩
      · split at h2
        · cases h2; exact ⟨SameGate.refl s, rfl, rfl⟩
        · simp only [Option.pure_def, Option.bind_eq_some, Option.some.injEq] at h2
          obtain ⟨moved, _, rfl⟩ := h2
          exact ⟨SameGate.refl s, rfl, rfl⟩

/-- What `updateGameLaunchEffect` does to the lock flag and the effect: nothing
while `t` has not passed the effect length, and afterwards the lock is cleared
and the return effect installed. -/
theorem updateGameLaunchEffect_gate (env : Env) (s s1 : State) (t : Int) (now : Nat)
    (h : updateGameLaunchEffect env s t now = some s1) :
    (t ≤ s.mGameLaunchEffectLength ∧ SameGate s s1 ∧
      s1.mGameLaunchEffectLength = s.mGameLaunchEffectLength) ∨
    (t > s.mGameLaunchEffectLength ∧ s1.mLockInput = false ∧
      s1.mEffectFunc = .updateGameReturnEffect ∧ s1.mEffectTime = 0 ∧
      s1.mGameLaunchEffectLength = 700) := by
  unfold updateGameLaunchEffect at h
  simp only at h
  by_cases c : t > s.mGameLaunchEffectLength
  · rw [if_pos c] at h
    simp only [Option.bind_eq_bind, Option.bind_eq_some, Option.pure_def,
      Option.some.injEq] at h
    obtain ⟨_, _, game, _, s4, _, rfl⟩ := h
    exact Or.inr ⟨c, rfl, rfl, rfl, rfl⟩
  · rw [if_neg c] at h
    simp only [Option.pure_def, Option.some.injEq] at h
    subst h
    exact Or.inl ⟨by omega, SameGate.refl s, rfl⟩

theorem update_gated (env : Env) (s s1 : State) (deltaTime : Int) (now : Nat)
    (hg : Gated s) (h : update env s deltaTime now = some s1) : Gated s1 := by
  unfold update at h
  simp only at h
  cases he : s.mEffectFunc with
  | null =>
    rw [he] at h
    simp only [Option.bind_eq_bind, Option.pure_def, Option.some_bind, Option.some.injEq] at h
    subst h
    unfold Gated at hg ⊢
    rw [he] at hg
    simpa using hg
  | updateGameLaunchEffect =>
    rw [he] at h
    simp only [Option.bind_eq_bind, Option.bind_eq_some, Option.pure_def,
      Option.some.injEq] at h
    obtain ⟨s2, h2, rfl⟩ := h
    unfold Gated at hg ⊢
    rcases updateGameLaunchEffect_gate env _ s2 _ now h2 with ⟨_, g, _⟩ | ⟨_, g1, g2, _⟩
    · have e1 : s2.mLockInput = s.mLockInput := g.1
      have e2 : s2.mEffectFunc = .updateGameLaunchEffect := g.2
      rw [he] at hg
      simp only [e1, e2]
      simpa using hg
    · simp only [g1, g2]
      simp
  | updateGameReturnEffect =>
    rw [he] at h
    have hl : s.mLockInput = false := by
      unfold Gated at hg
      rw [he] at hg
      cases hx : s.mLockInput
      · rfl
      · exact absurd (hg.mp hx) (by simp)
    simp only [updateGameReturnEffect, Option.bind_eq_bind, Option.bind_eq_some,
      Option.pure_def, Option.some.injEq] at h
    obtain ⟨s2, ⟨s3, h3, h4⟩, rfl⟩ := h
    unfold Gated
    have key : s3.mLockInput = false ∧ s3.mEffectFunc = .updateGameReturnEffect := by
      rcases updateGameLaunchEffect_gate env _ s3 _ now h3 with ⟨_, g, _⟩ | ⟨_, g1, g2, _⟩
      · exact ⟨g.1.trans hl, g.2⟩
      · exact ⟨g1, g2⟩
    split at h4
    · cases h4
      simp [key.1]
    · cases h4
      simp [key.1, key.2]

theorem step_gated (env : Env) (s s1 : State) (st : Step) (hg : Gated s)
    (h : step env s st = some s1) : Gated s1 := by
  cases st with
  | input config inp now =>
    simp only [step, Option.map_eq_some'] at h
    obtain ⟨⟨r, s2⟩, h2, rfl⟩ := h
    exact input_gated env s s2 config inp now r hg h2
  | update deltaTime now => exact update_gated env s s1 deltaTime now hg h

theorem run_gated (env : Env) (steps : List Step) (s s1 : State) (hg : Gated s)
    (h : run env s steps = some s1) : Gated s1 := by
  induction steps generalizing s with
  | nil => simp only [run, Option.some.injEq] at h; subst h; exact hg
  | cons st rest ih =>
    simp only [run, Option.bind_eq_bind, Option.bind_eq_some] at h
    obtain ⟨s2, h2, h3⟩ := h
    exact ih s2 (step_gated env s s2 st hg h2) h3

theorem construct_gated (env : Env) (files : List FileData) (systems : List SystemData)
    (fs : List FsEntry) (settingsSortIndex : Int) (s0 : State)
    (h : construct env files systems fs settingsSortIndex = some s0) : Gated s0 := by
  unfold construct reselectSystem at h
  have g := setSystemId_gate env _ s0 _ h
  unfold Gated
  rw [g.1, g.2]
  simp


set_option maxRecDepth 4000 in
/-- C9, as stated, fails: on the small library, a pressed `a` on Mario followed
by updates of 500 ms and 301 ms leaves the return effect running with the lock flag
cleared; a second pressed `a` then schedules the launch effect again although
the effect never went back to idle. -/
theorem returning_is_unlocked :
    (demoStart.bind fun s => run demoEnv s
        [.input demoConfig { id := 1, value := 1 } 10, .update 500 15, .update 301 20]).map
      (fun s => (s.mEffectFunc, s.mLockInput)) = some (.updateGameReturnEffect, false) ∧
    (demoStart.bind fun s => run demoEnv s
        [.input demoConfig { id := 1, value := 1 } 10, .update 500 15, .update 301 20,
         .input demoConfig { id := 1, value := 1 } 30]).map
      (fun s => (s.mEffectFunc, s.mLockInput)) = some (.updateGameLaunchEffect, true) := by
  decide

/-- C9, amended: in every state reached from the constructor by input and
update steps the lock flag is set exactly when the launch effect is the running
one. While it runs every input is refused with the state unchanged, so no
second launch can be scheduled before it completes; the lock is cleared when
the launch effect completes and hands over to the return effect, so input is
unlocked while returning as well as in idle. -/
theorem lock_iff_launching (env : Env) (files : List FileData) (systems : List SystemData)
    (fs : List FsEntry) (settingsSortIndex : Int) (steps : List Step) (s0 s : State)
    (h0 : construct env files systems fs settingsSortIndex = some s0)
    (hrun : run env s0 steps = some s) :
    (s.mLockInput = true ↔ s.mEffectFunc = .updateGameLaunchEffect) ∧
    (s.mEffectFunc = .updateGameLaunchEffect →
      ∀ config inp now, input env s config inp now = some (false, s)) ∧
    (s.mEffectFunc = .null ∨ s.mEffectFunc = .updateGameReturnEffect →
      s.mLockInput = false) := by
  have hg : Gated s :=
    run_gated env steps s0 s (construct_gated env files systems fs settingsSortIndex s0 h0) hrun
  unfold Gated at hg
  refine ⟨hg, ?_, ?_⟩
  · intro he config inp now
    unfold input
    rw [if_pos (hg.mpr he)]
  · intro he
    cases hl : s.mLockInput
    · rfl
    · have := hg.mp hl
      rcases he with he | he <;> rw [he] at this <;> cases this

theorem lock_iff_launching_witness :
    construct demoEnv demoFiles demoSystems demoFs 0 = some (demoAt 0) ∧
    run demoEnv (demoAt 0) [.input demoConfig { id := 1, value := 1 } 10] = some demoLaunching ∧
    demoLaunching.mLockInput = true ∧
    input demoEnv demoLaunching demoConfig { id := 1, value := 1 } 11
      = some (false, demoLaunching) :=
  have h := lock_iff_launching demoEnv demoFiles demoSystems demoFs 0
    [.input demoConfig { id := 1, value := 1 } 10] (demoAt 0) demoLaunching rfl rfl
  ⟨rfl, rfl, h.1.mpr rfl, h.2.1 rfl demoConfig { id := 1, value := 1 } 11⟩


theorem clamp01_range (x : ℚ) : 0 ≤ clamp 0 1 x ∧ clamp 0 1 x ≤ 1 := by
  unfold clamp
  split
  · exact ⟨le_refl _, zero_le_one⟩
  · split
    · exact ⟨zero_le_one, le_refl _⟩
    · constructor <;> linarith

theorem lerpFloat_one_three_sq (c : ℚ) (h0 : 0 ≤ c) (h1 : c ≤ 1) :
    lerpFloat 1 3 (c * c) = 1 + 2 * c ^ 2 := by
  unfold lerpFloat
  split
  · rename_i h
    have : c = 0 := by nlinarith
    rw [this]; norm_num
  · split
    · rename_i h
      have : c = 1 := by nlinarith
      rw [this]; norm_num
    · ring

theorem importFreshScreenshots_shape (s s1 : State) (since : Nat)
    (h : importFreshScreenshots s since = some s1) :
    ∃ fs1 files1, s1 = { s with fs := fs1, files := files1 } := by
  unfold importFreshScreenshots at h
  simp only [Option.bind_eq_bind, Option.bind_eq_some] at h
  obtain ⟨sys, _, h2⟩ := h
  split at h2
  · cases h2; exact ⟨_, _, rfl⟩
  · split at h2
    · cases h2; exact ⟨_, _, rfl⟩
    · split at h2
      · cases h2; exact ⟨_, _, rfl⟩
      · split at h2
        · cases h2; exact ⟨_, _, rfl⟩
        · simp only [Option.pure_def, Option.bind_eq_some, Option.some.injEq] at h2
          obtain ⟨moved, _, rfl⟩ := h2
          exact ⟨_, _, rfl⟩

theorem updateDetailData_shape (env : Env) (s : State) :
    ∃ v, updateDetailData env s = { s with view := v } := by
  unfold updateDetailData hideDetailData
  split
  · exact ⟨_, rfl⟩
  · split <;> exact ⟨_, rfl⟩

theorem importFreshScreenshots_window (s s1 : State) (since : Nat)
    (h : importFreshScreenshots s since = some s1) :
    s1.zoomFactor = s.zoomFactor ∧ s1.fadePercent = s.fadePercent ∧
    s1.centerPoint = s.centerPoint := by
  obtain ⟨fs1, files1, rfl⟩ := importFreshScreenshots_shape s s1 since h
  exact ⟨rfl, rfl, rfl⟩

theorem updateDetailData_window (env : Env) (s : State) :
    (updateDetailData env s).zoomFactor = s.zoomFactor ∧
    (updateDetailData env s).fadePercent = s.fadePercent ∧
    (updateDetailData env s).centerPoint = s.centerPoint := by
  obtain ⟨v, hv⟩ := updateDetailData_shape env s
  rw [hv]
  exact ⟨rfl, rfl, rfl⟩

/-- What `updateGameLaunchEffect(t)` leaves on the window. -/
theorem updateGameLaunchEffect_window (env : Env) (s s1 : State) (t : Int) (now : Nat)
    (h : updateGameLaunchEffect env s t now = some s1) :
    s1.zoomFactor = some (zoomFactorAt s.mGameLaunchEffectLength t) ∧
    s1.fadePercent = some (fadePercentAt s.mGameLaunchEffectLength t) ∧
    s1.centerPoint = some (centerPointAt env s s.mGameLaunchEffectLength t) := by
  unfold updateGameLaunchEffect at h
  simp only at h
  by_cases c : t > s.mGameLaunchEffectLength
  · rw [if_pos c] at h
    simp only [Option.bind_eq_bind, Option.bind_eq_some, Option.pure_def,
      Option.some.injEq] at h
    obtain ⟨_, _, game, _, s4, h4, rfl⟩ := h
    obtain ⟨i1, i2, i3⟩ := importFreshScreenshots_window _ _ _ h4
    obtain ⟨u1, u2, u3⟩ := updateDetailData_window env s4
    exact ⟨u1.trans i1, u2.trans i2, u3.trans i3⟩
  · rw [if_neg c] at h
    simp only [Option.pure_def, Option.some.injEq] at h
    subst h
    exact ⟨rfl, rfl, rfl⟩

theorem updateGameLaunchEffect_running (env : Env) (s : State) (t : Int) (now : Nat)
    (h : t ≤ s.mGameLaunchEffectLength) :
    updateGameLaunchEffect env s t now = some
      { s with centerPoint := some (centerPointAt env s s.mGameLaunchEffectLength t),
               zoomFactor := some (zoomFactorAt s.mGameLaunchEffectLength t),
               fadePercent := some (fadePercentAt s.mGameLaunchEffectLength t) } := by
  unfold updateGameLaunchEffect
  simp only
  rw [if_neg (by omega)]
  rfl

/-- C10: for an effect length D above 0 and every integer t, the zoom factor
that `updateGameLaunchEffect(t)` computes is 1 + 2 c^2 with c = t / D clamped to
[0, 1], which is 1 at t = 0 and 3 at t = D (so for D = 800); and it is the value
the function leaves as the zoom factor of the window whenever it returns, which
it does for every t up to D. -/
theorem zoomFactor_formula (D t : Int) (hD : 0 < D) :
    zoomFactorAt D t = 1 + 2 * (clamp 0 1 ((t : ℚ) / (D : ℚ))) ^ 2 ∧
    zoomFactorAt D 0 = 1 ∧ zoomFactorAt D D = 3 ∧
    zoomFactorAt 800 0 = 1 ∧ zoomFactorAt 800 800 = 3 ∧
    (∀ (env : Env) (s s1 : State) (now : Nat), s.mGameLaunchEffectLength = D →
      updateGameLaunchEffect env s t now = some s1 →
      s1.zoomFactor = some (1 + 2 * (clamp 0 1 ((t : ℚ) / (D : ℚ))) ^ 2)) ∧
    (∀ (env : Env) (s : State) (now : Nat), s.mGameLaunchEffectLength = D → t ≤ D →
      ∃ s1, updateGameLaunchEffect env s t now = some s1 ∧
        s1.zoomFactor = some (1 + 2 * (clamp 0 1 ((t : ℚ) / (D : ℚ))) ^ 2)) := by
  have formula : ∀ (E u : Int),
      zoomFactorAt E u = 1 + 2 * (clamp 0 1 ((u : ℚ) / (E : ℚ))) ^ 2 := by
    intro E u
    unfold zoomFactorAt tNormalized
    exact lerpFloat_one_three_sq _ (clamp01_range _).1 (clamp01_range _).2
  have hDq : (D : ℚ) ≠ 0 := by exact_mod_cast (ne_of_gt hD)
  refine ⟨formula D t, ?_, ?_, ?_, ?_, ?_, ?_⟩
  · rw [formula]
    norm_num [clamp]
  · rw [formula, div_self hDq]
    norm_num [clamp]
  · rw [formula]
    norm_num [clamp]
  · rw [formula]
    norm_num [clamp]
  · intro env s s1 now hlen h
    rw [(updateGameLaunchEffect_window env s s1 t now h).1, hlen, formula]
  · intro env s now hlen ht
    refine ⟨_, updateGameLaunchEffect_running env s t now (by omega), ?_⟩
    simp only [hlen, formula]

theorem zoomFactor_formula_witness :
    (0 : Int) < 800 ∧ zoomFactorAt 800 400 = 3 / 2 ∧
    (∃ s1, updateGameLaunchEffect demoEnv demoLaunching 400 15 = some s1 ∧
      s1.zoomFactor = some (3 / 2)) := by
  have h := zoomFactor_formula 800 400 (by decide)
  have e : (1 : ℚ) + 2 * (clamp 0 1 (((400 : Int) : ℚ) / ((800 : Int) : ℚ))) ^ 2 = 3 / 2 := by
    norm_num [clamp]
  obtain ⟨s1, h1, h2⟩ := h.2.2.2.2.2.2 demoEnv demoLaunching 15 rfl (by decide)
  exact ⟨by decide, by rw [h.1, e], s1, h1, by rw [h2, e]⟩

theorem fadePercentAt_eq (D t : Int) :
    fadePercentAt D t = lerpFloat 0 1 (((t : ℚ) - ((D : ℚ) - 600)) / 500) := by
  unfold fadePercentAt
  simp only
  congr 1
  have h1 : (D - (D - 600) - 100 : Int) = 500 := by ring
  rw [h1]
  push_cast
  ring

theorem fadePercentAt_low (D t : Int) (h : t ≤ D - 600) : fadePercentAt D t = 0 := by
  rw [fadePercentAt_eq]
  unfold lerpFloat
  have hq : (t : ℚ) ≤ (D : ℚ) - 600 := by exact_mod_cast h
  rw [if_pos (by apply div_nonpos_of_nonpos_of_nonneg <;> linarith)]

theorem fadePercentAt_mid (D t : Int) (h1 : D - 600 < t) (h2 : t < D - 100) :
    fadePercentAt D t = ((t : ℚ) - ((D : ℚ) - 600)) / 500 ∧
    0 < fadePercentAt D t ∧ fadePercentAt D t < 1 := by
  have hq1 : (D : ℚ) - 600 < (t : ℚ) := by exact_mod_cast h1
  have hq2 : (t : ℚ) < (D : ℚ) - 100 := by exact_mod_cast h2
  have hpos : 0 < ((t : ℚ) - ((D : ℚ) - 600)) / 500 := by
    apply div_pos <;> linarith
  have hlt : ((t : ℚ) - ((D : ℚ) - 600)) / 500 < 1 := by
    rw [div_lt_one (by norm_num)]
    linarith
  have e : fadePercentAt D t = ((t : ℚ) - ((D : ℚ) - 600)) / 500 := by
    rw [fadePercentAt_eq]
    unfold lerpFloat
    rw [if_neg (by linarith), if_neg (by linarith)]
    ring
  exact ⟨e, by rw [e]; exact hpos, by rw [e]; exact hlt⟩

theorem fadePercentAt_high (D t : Int) (h : t ≥ D - 100) : fadePercentAt D t = 1 := by
  rw [fadePercentAt_eq]
  unfold lerpFloat
  have hq : (D : ℚ) - 100 ≤ (t : ℚ) := by exact_mod_cast h
  have h1 : (1 : ℚ) ≤ ((t : ℚ) - ((D : ℚ) - 600)) / 500 := by
    rw [le_div_iff₀ (by norm_num)]
    linarith
  rw [if_neg (by linarith), if_pos h1]

/-- C11: for every effect length D and every integer t, the fade percent that
`updateGameLaunchEffect(t)` computes is 0 for t up to D - 600, is
(t - (D - 600)) / 500, strictly between 0 and 1, for t strictly between D - 600
and D - 100, and is 1 from D - 100 on; so it is above 0 exactly when t exceeds
D - 600. It is the value the function leaves as the fade percent of the window
whenever it returns, which it does for every t up to D. -/
theorem fadePercent_window (D t : Int) :
    (t ≤ D - 600 → fadePercentAt D t = 0) ∧
    (D - 600 < t → t < D - 100 →
      fadePercentAt D t = ((t : ℚ) - ((D : ℚ) - 600)) / 500 ∧
      0 < fadePercentAt D t ∧ fadePercentAt D t < 1) ∧
    (t ≥ D - 100 → fadePercentAt D t = 1) ∧
    (0 < fadePercentAt D t ↔ D - 600 < t) ∧
    (∀ (env : Env) (s s1 : State) (now : Nat), s.mGameLaunchEffectLength = D →
      updateGameLaunchEffect env s t now = some s1 →
      s1.fadePercent = some (fadePercentAt D t)) ∧
    (∀ (env : Env) (s : State) (now : Nat), s.mGameLaunchEffectLength = D → t ≤ D →
      ∃ s1, updateGameLaunchEffect env s t now = some s1 ∧
        s1.fadePercent = some (fadePercentAt D t)) := by
  have low := fadePercentAt_low D t
  have mid := fadePercentAt_mid D t
  have high := fadePercentAt_high D t
  refine ⟨low, mid, high, ?_, ?_, ?_⟩
  · constructor
    · intro hpos
      by_contra hc
      rw [low (by omega)] at hpos
      exact lt_irrefl _ hpos
    · intro h
      by_cases h2 : t < D - 100
      · exact (mid h h2).2.1
      · rw [high (by omega)]
        exact zero_lt_one
  · intro env s s1 now hlen h
    rw [(updateGameLaunchEffect_window env s s1 t now h).2.1, hlen]
  · intro env s now hlen ht
    refine ⟨_, updateGameLaunchEffect_running env s t now (by omega), ?_⟩
    simp only [hlen]

theorem fadePercent_window_witness :
    ((800 : Int) - 600 < 450) ∧ ((450 : Int) < 800 - 100) ∧ fadePercentAt 800 450 = 1 / 2 ∧
    ((200 : Int) ≤ 800 - 600) ∧ fadePercentAt 800 200 = 0 ∧
    ((700 : Int) ≥ 800 - 100) ∧ fadePercentAt 800 700 = 1 ∧
    (∃ s1, updateGameLaunchEffect demoEnv demoLaunching 450 15 = some s1 ∧
      s1.fadePercent = some (1 / 2)) := by
  have h := fadePercent_window 800 450
  have e := (h.2.1 (by decide) (by decide)).1
  have e2 : (((450 : Int) : ℚ) - (((800 : Int) : ℚ) - 600)) / 500 = 1 / 2 := by norm_num
  obtain ⟨s1, h1, h2⟩ := h.2.2.2.2.2 demoEnv demoLaunching 15 rfl (by decide)
  exact ⟨by decide, by decide, by rw [e, e2], by decide,
    (fadePercent_window 800 200).1 (by decide), by decide,
    (fadePercent_window 800 700).2.2.1 (by decide), s1, h1, by rw [h2, e, e2]⟩

/-! ### Decimal numerals -/

theorem digitChar_value (k : Nat) (hk : k < 10) : (Nat.digitChar k).toNat - 48 = k := by
  interval_cases k <;> rfl

theorem digitChar_ne_dot (k : Nat) (hk : k < 10) : Nat.digitChar k ≠ '.' := by
  interval_cases k <;> decide

theorem toDigitsCore_value (fuel n : Nat) (ds : List Char) (h : n < fuel) :
    digitsValue 0 (Nat.toDigitsCore 10 fuel n ds) = digitsValue n ds := by
  induction fuel generalizing n ds with
  | zero => omega
  | succ fuel ih =>
    unfold Nat.toDigitsCore
    simp only
    by_cases h0 : n / 10 = 0
    · rw [if_pos h0]
      have hn : n % 10 = n := Nat.mod_eq_of_lt (by omega)
      have hv := digitChar_value (n % 10) (Nat.mod_lt _ (by decide))
      simp only [digitsValue, List.foldl_cons, Nat.zero_mul, Nat.zero_add, hv]
      rw [hn]
    · rw [if_neg h0]
      rw [ih (n / 10) _ (by omega)]
      simp only [digitsValue, List.foldl_cons,
        digitChar_value (n % 10) (Nat.mod_lt _ (by decide))]
      congr 1
      omega

theorem toDigitsCore_no_dot (fuel n : Nat) (ds : List Char) (hds : ∀ c ∈ ds, c ≠ '.') :
    ∀ c ∈ Nat.toDigitsCore 10 fuel n ds, c ≠ '.' := by
  induction fuel generalizing n ds with
  | zero => exact hds
  | succ fuel ih =>
    unfold Nat.toDigitsCore
    simp only
    have hcons : ∀ c ∈ Nat.digitChar (n % 10) :: ds, c ≠ '.' := by
      intro c hc
      rcases List.mem_cons.mp hc with rfl | hc
      · exact digitChar_ne_dot _ (Nat.mod_lt _ (by decide))
      · exact hds c hc
    split
    · exact hcons
    · exact ih _ _ hcons

theorem toString_data (n : Nat) : (toString n).data = Nat.toDigits 10 n := rfl

theorem toString_value (n : Nat) : digitsValue 0 (toString n).data = n := by
  rw [toString_data]
  unfold Nat.toDigits
  rw [toDigitsCore_value _ _ _ (by omega)]
  rfl

/-- The decimal numeral of a number determines the number. -/
theorem toString_injective (n m : Nat) (h : (toString n).data = (toString m).data) : n = m := by
  have := congrArg (digitsValue 0) h
  rwa [toString_value, toString_value] at this

theorem toString_no_dot (n : Nat) : ∀ c ∈ (toString n).data, c ≠ '.' := by
  rw [toString_data]
  exact toDigitsCore_no_dot _ _ _ (fun c hc => by simp at hc)

theorem extension_data (p : String) :
    (extension p).data = [] ∨ ∃ r, (extension p).data = '.' :: r := by
  unfold extension
  split
  · left; rfl
  · split
    · right; exact ⟨_, rfl⟩
    · left; rfl

theorem takeWhile_digits (d e : List Char) (hd : ∀ c ∈ d, c ≠ '.')
    (he : e = [] ∨ ∃ r, e = '.' :: r) :
    (d ++ e).takeWhile (fun c => c != '.') = d := by
  induction d with
  | nil =>
    rcases he with rfl | ⟨r, rfl⟩
    · rfl
    · simp [List.takeWhile]
  | cons c d ih =>
    have hc : (c != '.') = true := by simpa using hd c (List.mem_cons_self _ _)
    have ih2 := ih (fun x hx => hd x (List.mem_cons_of_mem _ hx))
    simp only [List.cons_append, List.takeWhile, hc]
    exact congrArg (List.cons c) ih2

/-- Two destination names with different numbers differ, whatever the sources
they are built for. -/
theorem dstPath_injective (destDir basename : String) (n m : Nat) (src1 src2 : String)
    (h : dstPath destDir basename n src1 = dstPath destDir basename m src2) : n = m := by
  have hd := congrArg String.data h
  simp only [dstPath, String.data_append, List.append_assoc] at hd
  have h2 := List.append_cancel_left (List.append_cancel_left hd)
  have t1 := takeWhile_digits (toString n).data (extension src1).data
    (toString_no_dot n) (extension_data src1)
  have t2 := takeWhile_digits (toString m).data (extension src2).data
    (toString_no_dot m) (extension_data src2)
  rw [h2, t2] at t1
  exact (toString_injective n m t1.symm)

/-! ### The probing loop -/

theorem fsExists_iff (fs : List FsEntry) (p : String) :
    fsExists fs p = true ↔ p ∈ fs.map (fun e => e.path) := by
  simp only [fsExists, List.any_eq_true, List.mem_map, beq_iff_eq]

/-- What the probing loop returns when it returns: the first free destination
from `no` on, and the counter one past its number. -/
theorem probe_spec (fs : List FsEntry) (destDir basename srcPath : String) (fuel no : Nat)
    (r : String × Nat) (h : probe fs destDir basename srcPath fuel no = some r) :
    ∃ n, no ≤ n ∧ r = (dstPath destDir basename n srcPath, n + 1) ∧
      fsExists fs (dstPath destDir basename n srcPath) = false ∧
      ∀ k, no ≤ k → k < n → fsExists fs (dstPath destDir basename k srcPath) = true := by
  induction fuel generalizing no with
  | zero =>
    unfold probe at h
    split at h
    · cases h
    · rename_i hfree
      cases h
      exact ⟨no, le_refl _, rfl, by simpa using hfree, fun k h1 h2 => by omega⟩
  | succ fuel ih =>
    unfold probe at h
    split at h
    · rename_i hex
      obtain ⟨n, hn, hr, hfree, hbelow⟩ := ih (no + 1) h
      refine ⟨n, by omega, hr, hfree, ?_⟩
      intro k h1 h2
      by_cases hk : k = no
      · rw [hk]; exact hex
      · exact hbelow k (by omega) h2
    · rename_i hfree
      cases h
      exact ⟨no, le_refl _, rfl, by simpa using hfree, fun k h1 h2 => by omega⟩

/-- The probing loop finds a free destination within as many rounds as there
are paths that a destination from `no` on can collide with. -/
theorem probe_isSome (fs : List FsEntry) (destDir basename srcPath : String) (fuel : Nat) :
    ∀ (l : List String) (no : Nat), l.length ≤ fuel →
      (∀ k, no ≤ k → fsExists fs (dstPath destDir basename k srcPath) = true →
        dstPath destDir basename k srcPath ∈ l) →
      ∃ r, probe fs destDir basename srcPath fuel no = some r := by
  induction fuel with
  | zero =>
    intro l no hl hcov
    have hnil : l = [] := List.length_eq_zero.mp (by omega)
    unfold probe
    split
    · rename_i hex
      have := hcov no (le_refl _) hex
      rw [hnil] at this
      cases this
    · exact ⟨_, rfl⟩
  | succ fuel ih =>
    intro l no hl hcov
    unfold probe
    split
    · rename_i hex
      have hmem := hcov no (le_refl _) hex
      apply ih (l.erase (dstPath destDir basename no srcPath)) (no + 1)
      · rw [List.length_erase_of_mem hmem]
        omega
      · intro k hk hexk
        have hne : dstPath destDir basename k srcPath ≠ dstPath destDir basename no srcPath := by
          intro he
          have := dstPath_injective destDir basename k no srcPath srcPath he
          omega
        exact (List.mem_erase_of_ne hne).mpr (hcov k (by omega) hexk)
    · exact ⟨_, rfl⟩

theorem probe_total (fs : List FsEntry) (destDir basename srcPath : String) (no : Nat) :
    ∃ r, probe fs destDir basename srcPath fs.length no = some r :=
  probe_isSome fs destDir basename srcPath fs.length (fs.map (fun e => e.path)) no
    (by simp) (fun k _ hex => (fsExists_iff fs _).mp hex)

theorem renames_cons (fs : List FsEntry) (src dst : String) (rest : List (String × String)) :
    renames fs ((src, dst) :: rest) = renames (fsRename fs src dst) rest := rfl

/-- What the loop of `moveAndRenameFiles` does from any file system, counter and
result so far. -/
theorem moveLoop_spec (destDir basename : String) (files : List String) :
    ∀ (fs : List FsEntry) (no : Nat) (result : List String),
      ∃ (fs1 : List FsEntry) (ns : List Nat),
        moveLoop destDir basename files fs no result =
          some (fs1, result ++ List.zipWith (dstPath destDir basename) ns files) ∧
        ns.length = files.length ∧ ns.Pairwise (fun a b => a < b) ∧ (∀ n ∈ ns, no ≤ n) ∧
        fs1 = renames fs (files.zip (List.zipWith (dstPath destDir basename) ns files)) ∧
        (∀ (i : Nat) (d : String),
          (List.zipWith (dstPath destDir basename) ns files)[i]? = some d →
          fsExists (renames fs
            ((files.zip (List.zipWith (dstPath destDir basename) ns files)).take i)) d
              = false) ∧
        (∀ (n0 : Nat) (src0 : String), ns.head? = some n0 → files.head? = some src0 →
          ∀ k, no ≤ k → k < n0 → fsExists fs (dstPath destDir basename k src0) = true) := by
  induction files with
  | nil =>
    intro fs no result
    refine ⟨fs, [], by simp [moveLoop], rfl, List.Pairwise.nil, by simp, rfl, ?_, ?_⟩
    · intro i d h; simp at h
    · intro n0 src0 h; simp at h
  | cons src rest ih =>
    intro fs no result
    obtain ⟨r, hr⟩ := probe_total fs destDir basename src no
    obtain ⟨n, hn, rfl, hfree, hbelow⟩ := probe_spec fs destDir basename src fs.length no r hr
    obtain ⟨fs1, ns, e1, hlen, hpair, hge, hfs, hstep, _⟩ :=
      ih (fsRename fs src (dstPath destDir basename n src)) (n + 1)
        (result ++ [dstPath destDir basename n src])
    refine ⟨fs1, n :: ns, ?_, by simp [hlen], ?_, ?_, ?_, ?_, ?_⟩
    · simp only [moveLoop, hr, Option.bind_eq_bind, Option.some_bind, e1,
        List.zipWith_cons_cons, List.append_assoc, List.singleton_append]
    · refine List.Pairwise.cons ?_ hpair
      intro m hm
      have := hge m hm
      omega
    · intro m hm
      rcases List.mem_cons.mp hm with rfl | hm
      · exact hn
      · have := hge m hm
        omega
    · simp only [List.zipWith_cons_cons, List.zip_cons_cons, renames_cons]
      exact hfs
    · intro i d hd
      cases i with
      | zero =>
        simp only [List.zipWith_cons_cons, List.getElem?_cons_zero, Option.some.injEq] at hd
        subst hd
        simpa [renames] using hfree
      | succ i =>
        simp only [List.zipWith_cons_cons, List.getElem?_cons_succ] at hd
        simp only [List.zipWith_cons_cons, List.zip_cons_cons, List.take_succ_cons,
          renames_cons]
        exact hstep i d hd
    · intro n0 src0 h1 h2 k hk1 hk2
      simp only [List.head?_cons, Option.some.injEq] at h1 h2
      subst h1 h2
      exact hbelow k hk1 hk2

theorem mem_zipWith_dstPath (destDir basename : String) (ns : List Nat) :
    ∀ (files : List String) (d : String),
      d ∈ List.zipWith (dstPath destDir basename) ns files →
      ∃ m src, m ∈ ns ∧ d = dstPath destDir basename m src := by
  induction ns with
  | nil => intro files d h; simp at h
  | cons n ns ih =>
    intro files d h
    cases files with
    | nil => simp at h
    | cons src rest =>
      rw [List.zipWith_cons_cons, List.mem_cons] at h
      rcases h with rfl | h
      · exact ⟨n, src, List.mem_cons_self _ _, rfl⟩
      · obtain ⟨m, src2, hm, he⟩ := ih rest d h
        exact ⟨m, src2, List.mem_cons_of_mem _ hm, he⟩

theorem zipWith_dstPath_nodup (destDir basename : String) (ns : List Nat) :
    ∀ files : List String, ns.Pairwise (fun a b => a < b) →
      (List.zipWith (dstPath destDir basename) ns files).Nodup := by
  induction ns with
  | nil => intro files _; simp
  | cons n ns ih =>
    intro files hp
    cases files with
    | nil => simp
    | cons src rest =>
      rw [List.zipWith_cons_cons, List.nodup_cons]
      rw [List.pairwise_cons] at hp
      refine ⟨?_, ih rest hp.2⟩
      intro hmem
      obtain ⟨m, src2, hm, he⟩ := mem_zipWith_dstPath destDir basename ns rest _ hmem
      have := dstPath_injective destDir basename n m src src2 he
      have := hp.1 m hm
      omega

theorem fsRename_paths (fs : List FsEntry) (src dst : String) :
    (fsRename fs src dst).map (fun e => e.path)
      = (fs.map (fun e => e.path)).map (fun p => if p = src then dst else p) := by
  simp only [fsRename, List.map_map]
  apply List.map_congr_left
  intro e _
  simp only [Function.comp, beq_iff_eq]
  split <;> rfl

theorem fsRename_nodup (fs : List FsEntry) (src dst : String)
    (hn : (fs.map (fun e => e.path)).Nodup) (hfree : fsExists fs dst = false) :
    ((fsRename fs src dst).map (fun e => e.path)).Nodup := by
  rw [fsRename_paths]
  have hdst : dst ∉ fs.map (fun e => e.path) := by
    intro h
    rw [(fsExists_iff fs dst).mpr h] at hfree
    cases hfree
  apply List.Nodup.map_on _ hn
  intro x hx y hy hxy
  by_cases h1 : x = src
  · by_cases h2 : y = src
    · rw [h1, h2]
    · rw [if_pos h1, if_neg h2] at hxy
      rw [← hxy] at hy
      exact absurd hy hdst
  · by_cases h2 : y = src
    · rw [if_neg h1, if_pos h2] at hxy
      rw [hxy] at hx
      exact absurd hx hdst
    · rw [if_neg h1, if_neg h2] at hxy
      exact hxy

theorem renames_nodup (moves : List (String × String)) :
    ∀ fs : List FsEntry, (fs.map (fun e => e.path)).Nodup →
      (∀ (i : Nat) (m : String × String), moves[i]? = some m →
        fsExists (renames fs (moves.take i)) m.2 = false) →
      ((renames fs moves).map (fun e => e.path)).Nodup := by
  induction moves with
  | nil => intro fs hn _; exact hn
  | cons mv rest ih =>
    intro fs hn hstep
    obtain ⟨src, dst⟩ := mv
    rw [renames_cons]
    apply ih
    · exact fsRename_nodup fs src dst hn (by simpa [renames] using hstep 0 (src, dst) (by simp))
    · intro i m hm
      have := hstep (i + 1) m (by simpa using hm)
      simpa [List.take_succ_cons, renames_cons] using this

theorem renames_length (moves : List (String × String)) :
    ∀ fs : List FsEntry, (renames fs moves).length = fs.length := by
  induction moves with
  | nil => intro fs; rfl
  | cons mv rest ih =>
    intro fs
    obtain ⟨src, dst⟩ := mv
    rw [renames_cons, ih]
    simp [fsRename]

theorem getElem?_zip_snd (files dsts : List String) (i : Nat) (m : String × String)
    (h : (files.zip dsts)[i]? = some m) : dsts[i]? = some m.2 := by
  rw [List.getElem?_zip_eq_some] at h
  exact h.2

/-- C12: for every file system, list of source files, base name and destination
directory, `moveAndRenameFiles` returns; the result has one destination per
source file, the i-th being `destDir / basename` followed by `-`, a number and
the extension of the i-th source, with the numbers strictly increasing in source
order, the first one the least number from 0 on whose name is free, and the
destinations pairwise distinct. No destination exists in the file system at the
time its file is renamed to it, so distinct paths stay distinct and no file is
lost. With a non-empty directory not ending in a separator and a non-empty base
name not starting with one, the name reads `destDir/basename-n.ext`. -/
theorem moveAndRenameFiles_spec (fs : List FsEntry) (files : List String)
    (basename destDir : String) :
    (∃ (fs1 : List FsEntry) (ns : List Nat),
      moveAndRenameFiles fs files basename destDir =
        some (fs1, List.zipWith (dstPath destDir basename) ns files) ∧
      ns.length = files.length ∧
      (List.zipWith (dstPath destDir basename) ns files).length = files.length ∧
      ns.Pairwise (fun a b => a < b) ∧
      (List.zipWith (dstPath destDir basename) ns files).Nodup ∧
      (∀ (n0 : Nat) (src0 : String), ns.head? = some n0 → files.head? = some src0 →
        ∀ k, k < n0 → fsExists fs (dstPath destDir basename k src0) = true) ∧
      fs1 = renames fs (files.zip (List.zipWith (dstPath destDir basename) ns files)) ∧
      (∀ (i : Nat) (d : String),
        (List.zipWith (dstPath destDir basename) ns files)[i]? = some d →
        fsExists (renames fs
          ((files.zip (List.zipWith (dstPath destDir basename) ns files)).take i)) d
            = false) ∧
      fs1.length = fs.length ∧
      ((fs.map (fun e => e.path)).Nodup → (fs1.map (fun e => e.path)).Nodup)) ∧
    (∀ (n : Nat) (src : String), destDir.isEmpty = false → destDir.back ≠ '/' →
      basename.isEmpty = false → basename.front ≠ '/' →
      dstPath destDir basename n src =
        destDir ++ "/" ++ basename ++ "-" ++ toString n ++ extension src) := by
  constructor
  · obtain ⟨fs1, ns, e1, hlen, hpair, _, hfs, hstep, hhead⟩ :=
      moveLoop_spec destDir basename files fs 0 []
    refine ⟨fs1, ns, ?_, hlen, ?_, hpair, zipWith_dstPath_nodup destDir basename ns files hpair,
      ?_, hfs, hstep, ?_, ?_⟩
    · simpa [moveAndRenameFiles] using e1
    · simp [hlen]
    · intro n0 src0 h1 h2 k hk
      exact hhead n0 src0 h1 h2 k (Nat.zero_le _) hk
    · rw [hfs, renames_length]
    · intro hn
      rw [hfs]
      apply renames_nodup _ fs hn
      intro i m hm
      exact hstep i m.2 (getElem?_zip_snd _ _ i m hm)
  · intro n src h1 h2 h3 h4
    have c2 : (destDir.back != '/') = true := by simpa using h2
    have c4 : (basename.front != '/') = true := by simpa using h4
    simp [dstPath, pathAppend, h1, h3, c2, c4]

set_option maxRecDepth 8000 in
/-- With `/shots/mario-0.png` on disk, the two fresh dumps of the small library
go to `/shots/mario-1.png` and `/shots/mario-2.png`: the numbers 1 and 2 increase
in source order, the name with 0 is taken, both names are free when written and
differ, and the four files keep distinct paths. -/
theorem moveAndRenameFiles_spec_witness :
    moveAndRenameFiles demoDumped.fs ["/dump/a.png", "/dump/b.png"] "mario" "/shots" =
      some ([{ path := "/dump/old.png", mtime := 5 }, { path := "/shots/mario-0.png", mtime := 3 },
             { path := "/shots/mario-2.png", mtime := 100 },
             { path := "/shots/mario-1.png", mtime := 120 }],
            ["/shots/mario-1.png", "/shots/mario-2.png"]) ∧
    dstPath "/shots" "mario" 1 "/dump/a.png" = "/shots/mario-1.png" ∧
    fsExists demoDumped.fs (dstPath "/shots" "mario" 0 "/dump/a.png") = true ∧
    (∃ (fs1 : List FsEntry) (ns : List Nat),
      moveAndRenameFiles demoDumped.fs ["/dump/a.png", "/dump/b.png"] "mario" "/shots" =
        some (fs1, List.zipWith (dstPath "/shots" "mario") ns ["/dump/a.png", "/dump/b.png"]) ∧
      ns.length = 2 ∧ ns.Pairwise (fun a b => a < b) ∧
      (List.zipWith (dstPath "/shots" "mario") ns ["/dump/a.png", "/dump/b.png"]).Nodup ∧
      (fs1.map (fun e => e.path)).Nodup) := by
  have h := moveAndRenameFiles_spec demoDumped.fs ["/dump/a.png", "/dump/b.png"] "mario" "/shots"
  refine ⟨by decide, ?_, by decide, ?_⟩
  · exact (h.2 1 "/dump/a.png" (by decide) (by decide) (by decide) (by decide)).trans
      (by decide)
  · obtain ⟨fs1, ns, e1, hlen, _, hpair, hnd, _, _, _, _, hpaths⟩ := h.1
    exact ⟨fs1, ns, e1, hlen, hpair, hnd, hpaths (by decide)⟩

/-! ### The import of fresh screenshots -/

theorem lookup_zip_none (srcs dsts : List String) (p : String) (h : p ∉ srcs) :
    (srcs.zip dsts).lookup p = none := by
  induction srcs generalizing dsts with
  | nil => simp
  | cons s rest ih =>
    cases dsts with
    | nil => simp
    | cons d drest =>
      have hne : (p == s) = false := by
        simp only [beq_eq_false_iff_ne, ne_eq]
        intro he
        exact h (he ▸ List.mem_cons_self _ _)
      simp only [List.zip_cons_cons, List.lookup_cons, hne]
      exact ih drest (fun hm => h (List.mem_cons_of_mem _ hm))

theorem lookup_zip_some (srcs dsts : List String) (hn : srcs.Nodup) (k : Nat) (p d : String)
    (hp : srcs[k]? = some p) (hd : dsts[k]? = some d) :
    (srcs.zip dsts).lookup p = some d := by
  induction srcs generalizing dsts k with
  | nil => simp at hp
  | cons s rest ih =>
    cases dsts with
    | nil => simp at hd
    | cons d0 drest =>
      rw [List.nodup_cons] at hn
      cases k with
      | zero =>
        simp only [List.getElem?_cons_zero, Option.some.injEq] at hp hd
        subst hp hd
        simp [List.lookup_cons]
      | succ k =>
        simp only [List.getElem?_cons_succ] at hp hd
        have hmem : p ∈ rest := by
          obtain ⟨hk, he⟩ := List.getElem?_eq_some_iff.mp hp
          exact he ▸ List.getElem_mem hk
        have hne : (p == s) = false := by
          simp only [beq_eq_false_iff_ne, ne_eq]
          intro he
          exact hn.1 (he ▸ hmem)
        simp only [List.zip_cons_cons, List.lookup_cons, hne]
        exact ih drest hn.2 k hp hd

theorem moveTo_nil (e : FsEntry) : moveTo [] e = e := rfl

/-- A run of renames whose sources are distinct files of the file system and
whose destinations are free when they are written moves each source to its
destination and leaves every other file where it is. -/
theorem renames_eq_map (srcs : List String) :
    ∀ (dsts : List String) (fs : List FsEntry),
      (fs.map (fun e => e.path)).Nodup → srcs.Nodup →
      (∀ p ∈ srcs, p ∈ fs.map (fun e => e.path)) →
      dsts.length = srcs.length →
      (∀ (i : Nat) (d : String), dsts[i]? = some d →
        fsExists (renames fs ((srcs.zip dsts).take i)) d = false) →
      renames fs (srcs.zip dsts) = fs.map (moveTo (srcs.zip dsts)) := by
  induction srcs with
  | nil =>
    intro dsts fs _ _ _ _ _
    simp only [List.zip_nil_left, renames, List.foldl_nil]
    rw [show moveTo ([] : List (String × String)) = id from funext moveTo_nil]
    simp
  | cons src rest ih =>
    intro dsts fs hfs hsrc hin hlen hstep
    cases dsts with
    | nil => simp at hlen
    | cons dst drest =>
      rw [List.nodup_cons] at hsrc
      have hfree : fsExists fs dst = false := by
        simpa [renames] using hstep 0 dst (by simp)
      have hdst : dst ∉ fs.map (fun e => e.path) := by
        intro h
        rw [(fsExists_iff fs dst).mpr h] at hfree
        cases hfree
      have hdrest : dst ∉ rest := fun h => hdst (hin dst (List.mem_cons_of_mem _ h))
      rw [List.zip_cons_cons, renames_cons]
      rw [ih drest (fsRename fs src dst) (fsRename_nodup fs src dst hfs hfree) hsrc.2]
      · simp only [fsRename, List.map_map]
        apply List.map_congr_left
        intro e _
        simp only [Function.comp]
        by_cases he : e.path = src
        · have hb : (e.path == src) = true := by simpa using he
          simp only [hb, if_true, moveTo, lookup_zip_none rest drest dst hdrest,
            List.lookup_cons]
        · have hb : (e.path == src) = false := by simpa using he
          simp only [hb, Bool.false_eq_true, if_false, moveTo, List.lookup_cons]
      · intro p hp
        rw [fsRename_paths]
        have hne : p ≠ src := fun h => hsrc.1 (h ▸ hp)
        exact List.mem_map.mpr ⟨p, hin p (List.mem_cons_of_mem _ hp), by rw [if_neg hne]⟩
      · simpa using hlen
      · intro i d hd
        have := hstep (i + 1) d (by simpa using hd)
        simpa [List.take_succ_cons, renames_cons] using this

theorem stringLe_total : IsTotal String stringLe := ⟨fun a b => le_total a.toList b.toList⟩

theorem stringLe_trans : IsTrans String stringLe :=
  ⟨fun _ _ _ h1 h2 => le_trans h1 h2⟩

theorem newFilesInDirSince_perm (fs : List FsEntry) (path : String) (since : Nat)
    (hp : path.isEmpty = false) :
    (newFilesInDirSince fs path since).Perm
      ((fs.filter (isFresh path since)).map (fun e => e.path)) := by
  unfold newFilesInDirSince
  simp only [hp, Bool.not_false, if_true]
  exact List.perm_insertionSort _ _

theorem newFilesInDirSince_sorted (fs : List FsEntry) (path : String) (since : Nat) :
    (newFilesInDirSince fs path since).Sorted stringLe := by
  haveI := stringLe_total
  haveI := stringLe_trans
  exact List.sorted_insertionSort _ _

theorem newFilesInDirSince_mem (fs : List FsEntry) (path : String) (since : Nat)
    (hp : path.isEmpty = false) (p : String) :
    p ∈ newFilesInDirSince fs path since ↔
      ∃ e ∈ fs, isFresh path since e = true ∧ e.path = p := by
  rw [(newFilesInDirSince_perm fs path since hp).mem_iff]
  simp only [List.mem_map, List.mem_filter]
  constructor
  · rintro ⟨e, ⟨h1, h2⟩, rfl⟩; exact ⟨e, h1, h2, rfl⟩
  · rintro ⟨e, h1, h2, rfl⟩; exact ⟨e, ⟨h1, h2⟩, rfl⟩

theorem newFilesInDirSince_nodup (fs : List FsEntry) (path : String) (since : Nat)
    (hp : path.isEmpty = false) (hfs : (fs.map (fun e => e.path)).Nodup) :
    (newFilesInDirSince fs path since).Nodup := by
  rw [(newFilesInDirSince_perm fs path since hp).nodup_iff]
  exact List.Nodup.sublist (List.Sublist.map _ (List.filter_sublist _)) hfs

theorem moveAndRenameFiles_moves (fs : List FsEntry) (files : List String)
    (basename destDir : String) (hfs : (fs.map (fun e => e.path)).Nodup)
    (hfiles : files.Nodup) (hin : ∀ p ∈ files, p ∈ fs.map (fun e => e.path)) :
    ∃ dsts : List String, dsts.length = files.length ∧
      moveAndRenameFiles fs files basename destDir =
        some (fs.map (moveTo (files.zip dsts)), dsts) := by
  obtain ⟨fs1, ns, e1, hlen, _, _, hfs1, hstep, _⟩ :=
    moveLoop_spec destDir basename files fs 0 []
  have hl : (List.zipWith (dstPath destDir basename) ns files).length = files.length := by
    simp [hlen]
  refine ⟨List.zipWith (dstPath destDir basename) ns files, hl, ?_⟩
  rw [← renames_eq_map files _ fs hfs hfiles hin hl hstep, ← hfs1]
  simpa [moveAndRenameFiles] using e1

theorem set_file_self (s : State) (game : Nat) (f : FileData) (h : game < s.files.length) :
    (s.files.set game f).getD game default = f := by
  simp [List.getD_eq_getElem?_getD, List.getElem?_set, h]

theorem set_file_other (s : State) (game p : Nat) (f : FileData) (h : p ≠ game) :
    (s.files.set game f).getD p default = s.files.getD p default := by
  simp [List.getD_eq_getElem?_getD, List.getElem?_set, Ne.symm h]

/-- C13. In a session whose system has the screenshot-dump directory `dump` and
the screenshot directory `shots`, let `srcs` be what `newFilesInDirSince` lists
for `dump` and `since`. With `dump` configured, `srcs` holds exactly the paths of
the files directly in `dump` whose last write time is at or after `since`, in
lexicographic order, and it is empty exactly when there is no such file.
`importFreshScreenshots(since)` leaves the session as it is when `dump` or
`shots` is unconfigured or `srcs` is empty. Otherwise, with a game selected and
distinct paths in the file system, it returns; `moveAndRenameFiles` gives one
destination per listed source; the file system afterwards is the old one with
each listed file at the destination paired with its path and every other file,
the older files of `dump` among them, in place; the image list of the game is
the old one followed by the destinations in the order of the sorted sources;
and no other node and nothing else of the session changes. -/
theorem importFreshScreenshots_spec (s : State) (since sys game : Nat)
    (dump shots : String) (srcs : List String)
    (hsys : s.mSystem = some sys)
    (hdump : dump = (s.systems.getD sys default).emulatorScreenshotDumpDir)
    (hshots : shots = (s.systems.getD sys default).screenshotDir)
    (hsrcs : srcs = newFilesInDirSince s.fs dump since) :
    ((dump.isEmpty = true ∨ shots.isEmpty = true ∨ srcs = []) →
      (importFreshScreenshots s since) = some s) ∧
    srcs.Sorted stringLe ∧
    (dump.isEmpty = false →
      (∀ p, p ∈ srcs ↔ ∃ e ∈ s.fs, isFresh dump since e = true ∧ e.path = p) ∧
      (srcs = [] ↔ ∀ e ∈ s.fs, isFresh dump since e = false) ∧
      srcs.length = (s.fs.filter (isFresh dump since)).length) ∧
    (∀ e, isFresh dump since e = true ↔ (inDirectory dump e = true ∧ since ≤ e.mtime)) ∧
    (dump.isEmpty = false → shots.isEmpty = false → srcs ≠ [] →
      getSelectedObject s = some game → (s.file game).isFolder = false →
      (s.fs.map (fun e => e.path)).Nodup →
      ∃ dsts : List String,
        dsts.length = srcs.length ∧ srcs.Nodup ∧
        moveAndRenameFiles s.fs srcs (s.file game).baseName shots =
          some (s.fs.map (moveTo (srcs.zip dsts)), dsts) ∧
        (importFreshScreenshots s since) =
          some { s with
            fs := s.fs.map (moveTo (srcs.zip dsts)),
            files := s.files.set game
              { s.file game with images := (s.file game).images ++ dsts } } ∧
        (∀ e ∈ s.fs, isFresh dump since e = true →
          ∃ (k : Nat) (d : String), srcs[k]? = some e.path ∧ dsts[k]? = some d ∧
            moveTo (srcs.zip dsts) e = { e with path := d }) ∧
        (∀ e ∈ s.fs, isFresh dump since e = false → moveTo (srcs.zip dsts) e = e) ∧
        (game < s.files.length →
          ((s.files.set game
              { s.file game with images := (s.file game).images ++ dsts }).getD game
                default).images = (s.file game).images ++ dsts) ∧
        (∀ p, p ≠ game →
          (s.files.set game
              { s.file game with images := (s.file game).images ++ dsts }).getD p default
            = s.file p)) := by
  have hpathinj : (s.fs.map (fun e => e.path)).Nodup →
      ∀ e1 ∈ s.fs, ∀ e2 ∈ s.fs, e1.path = e2.path → e1 = e2 := by
    intro hn e1 h1 e2 h2 he
    exact List.inj_on_of_nodup_map hn h1 h2 he
  refine ⟨?_, ?_, ?_, ?_, ?_⟩
  · intro h
    unfold importFreshScreenshots
    simp only [hsys, Option.bind_eq_bind, Option.some_bind, ← hdump, ← hshots, ← hsrcs]
    by_cases hc : (dump.isEmpty || shots.isEmpty) = true
    · rw [if_pos hc]; rfl
    · rw [if_neg hc]
      have hs : srcs = [] := by
        rcases h with h | h | h
        · exact absurd (by simp [h]) hc
        · exact absurd (by simp [h]) hc
        · exact h
      simp [hs]
  · rw [hsrcs]; exact newFilesInDirSince_sorted _ _ _
  · intro hd
    have hmem := fun p => newFilesInDirSince_mem s.fs dump since hd p
    rw [← hsrcs] at hmem
    refine ⟨hmem, ?_, ?_⟩
    · constructor
      · intro h e he
        by_contra hf
        have : e.path ∈ srcs := (hmem e.path).mpr ⟨e, he, by simpa using hf, rfl⟩
        rw [h] at this
        cases this
      · intro h
        rw [List.eq_nil_iff_forall_not_mem]
        intro p hp
        obtain ⟨e, he, hf, _⟩ := (hmem p).mp hp
        rw [h e he] at hf
        cases hf
    · rw [hsrcs, (newFilesInDirSince_perm s.fs dump since hd).length_eq, List.length_map]
  · intro e
    simp [isFresh]
  · intro hd hsh hne hsel hnf hfs
    have hmem := fun p => newFilesInDirSince_mem s.fs dump since hd p
    rw [← hsrcs] at hmem
    have hnd : srcs.Nodup := by
      rw [hsrcs]; exact newFilesInDirSince_nodup s.fs dump since hd hfs
    have hin : ∀ p ∈ srcs, p ∈ s.fs.map (fun e => e.path) := by
      intro p hp
      obtain ⟨e, he, _, rfl⟩ := (hmem p).mp hp
      exact List.mem_map_of_mem _ he
    obtain ⟨dsts, hlen, hmv⟩ :=
      moveAndRenameFiles_moves s.fs srcs (s.file game).baseName shots hfs hnd hin
    refine ⟨dsts, hlen, hnd, hmv, ?_, ?_, ?_, ?_, ?_⟩
    · unfold importFreshScreenshots
      simp only [hsys, Option.bind_eq_bind, Option.some_bind, ← hdump, ← hshots, ← hsrcs]
      have hc : ¬ ((dump.isEmpty || shots.isEmpty) = true) := by simp [hd, hsh]
      rw [if_neg hc]
      have he : ¬ (srcs.isEmpty = true) := by
        simpa [List.isEmpty_iff] using hne
      rw [if_neg he]
      simp only [hsel, hnf, Bool.false_eq_true, if_false, hmv, Option.some_bind,
        Option.pure_def]
    · intro e he hf
      obtain ⟨k, hk⟩ := List.getElem?_of_mem ((hmem e.path).mpr ⟨e, he, hf, rfl⟩)
      have hkl : k < dsts.length := by
        rw [hlen]
        exact (List.getElem?_eq_some_iff.mp hk).1
      refine ⟨k, dsts[k], hk, List.getElem?_eq_getElem hkl, ?_⟩
      simp only [moveTo,
        lookup_zip_some srcs dsts hnd k e.path dsts[k] hk (List.getElem?_eq_getElem hkl)]
    · intro e he hf
      have hnot : e.path ∉ srcs := by
        intro hp
        obtain ⟨e2, he2, hf2, hp2⟩ := (hmem e.path).mp hp
        have := hpathinj hfs e2 he2 e he hp2
        rw [this, hf] at hf2
        cases hf2
      simp only [moveTo, lookup_zip_none srcs dsts e.path hnot]
    · intro hg
      rw [set_file_self s game _ hg]
    · intro p hp
      rw [set_file_other s game p _ hp]
      rfl

set_option maxRecDepth 8000 in
/-- While Mario runs, the dump directory of the small library holds the old file
of time 5 and two screenshots of times 100 and 120; the import since time 50
lists `/dump/a.png` before `/dump/b.png`, moves them to `/shots/mario-1.png` and
`/shots/mario-2.png` past the existing `/shots/mario-0.png`, leaves the old dump
in place and appends the two names to the images of Mario. With the second
system, which has no directories configured, the import does nothing. -/
theorem importFreshScreenshots_spec_witness :
    newFilesInDirSince demoDumped.fs "/dump" 50 = ["/dump/a.png", "/dump/b.png"] ∧
    (∃ dsts : List String,
      moveAndRenameFiles demoDumped.fs ["/dump/a.png", "/dump/b.png"] "mario" "/shots" =
        some (demoDumped.fs.map (moveTo (["/dump/a.png", "/dump/b.png"].zip dsts)), dsts) ∧
      (importFreshScreenshots demoDumped 50) =
        some { demoDumped with
          fs := demoDumped.fs.map (moveTo (["/dump/a.png", "/dump/b.png"].zip dsts)),
          files := demoDumped.files.set 1
            { demoDumped.file 1 with images := (demoDumped.file 1).images ++ dsts } }) ∧
    (importFreshScreenshots demoDumped 50).map (fun s1 => (s1.fs, (s1.file 1).images)) =
      some ([{ path := "/dump/old.png", mtime := 5 }, { path := "/shots/mario-0.png", mtime := 3 },
             { path := "/shots/mario-2.png", mtime := 100 },
             { path := "/shots/mario-1.png", mtime := 120 }],
            ["/shots/mario-0.png", "/shots/mario-1.png", "/shots/mario-2.png"]) ∧
    (importFreshScreenshots { demoDumped with mSystem := some 1 } 50) =
      some { demoDumped with mSystem := some 1 } := by
  have h := importFreshScreenshots_spec demoDumped 50 0 1 "/dump" "/shots"
    ["/dump/a.png", "/dump/b.png"] (by decide) (by decide) (by decide) (by decide)
  have h2 := importFreshScreenshots_spec { demoDumped with mSystem := some 1 } 50 1 1 "" ""
    [] (by decide) (by decide) (by decide) (by decide)
  refine ⟨by decide, ?_, by decide, h2.1 (Or.inl (by decide))⟩
  obtain ⟨dsts, _, _, hmv, himp, _⟩ :=
    h.2.2.2.2 (by decide) (by decide) (by decide) (by decide) (by decide) (by decide)
  exact ⟨dsts, hmv, himp⟩

/-- What the loop of `reselectSystem` returns: the id it started with when no
remaining root folder has a stamp above the time it started with; otherwise
the first remaining system whose stamp is the largest. -/
theorem reselectLoop_spec (s : State) (rest : List SystemData) (idx : Nat) (cur : Int)
    (curT : Nat) :
    (reselectLoop s rest idx cur curT = cur ∧
      ∀ (i : Nat) (sd : SystemData) (t : Nat), rest[i]? = some sd → (s.file sd.rootFolder).selected = some t → t ≤ curT) ∨
    (∃ (j : Nat) (sdj : SystemData) (tj : Nat), rest[j]? = some sdj ∧
      reselectLoop s rest idx cur curT = ((idx + j : Nat) : Int) ∧
      (s.file sdj.rootFolder).selected = some tj ∧ curT < tj ∧
      ∀ (i : Nat) (sd : SystemData) (t : Nat), rest[i]? = some sd → (s.file sd.rootFolder).selected = some t →
        t ≤ tj ∧ (i < j → t < tj)) := by
  induction rest generalizing idx cur curT with
  | nil =>
    left
    exact ⟨rfl, fun i sd t h => by simp at h⟩
  | cons sd0 rest ih =>
    have keep : reselectLoop s rest (idx + 1) cur curT = reselectLoop s (sd0 :: rest) idx cur curT →
        (∀ t, (s.file sd0.rootFolder).selected = some t → t ≤ curT) →
        (reselectLoop s (sd0 :: rest) idx cur curT = cur ∧
          ∀ (i : Nat) (sd : SystemData) (t : Nat), (sd0 :: rest)[i]? = some sd →
            (s.file sd.rootFolder).selected = some t → t ≤ curT) ∨
        (∃ (j : Nat) (sdj : SystemData) (tj : Nat), (sd0 :: rest)[j]? = some sdj ∧
          reselectLoop s (sd0 :: rest) idx cur curT = ((idx + j : Nat) : Int) ∧
          (s.file sdj.rootFolder).selected = some tj ∧ curT < tj ∧
          ∀ (i : Nat) (sd : SystemData) (t : Nat), (sd0 :: rest)[i]? = some sd → (s.file sd.rootFolder).selected = some t →
            t ≤ tj ∧ (i < j → t < tj)) := by
      intro e hhead
      rw [← e]
      rcases ih (idx + 1) cur curT with ⟨h1, h2⟩ | ⟨j, sdj, tj, hj, h1, h2, h3, h4⟩
      · left
        refine ⟨h1, ?_⟩
        intro i sd t hi hst
        cases i with
        | zero =>
          simp only [List.getElem?_cons_zero, Option.some.injEq] at hi
          subst hi
          exact hhead t hst
        | succ i =>
          simp only [List.getElem?_cons_succ] at hi
          exact h2 i sd t hi hst
      · right
        refine ⟨j + 1, sdj, tj, by simpa using hj, ?_, h2, h3, ?_⟩
        · rw [h1]
          congr 1
          omega
        · intro i sd t hi hst
          cases i with
          | zero =>
            simp only [List.getElem?_cons_zero, Option.some.injEq] at hi
            subst hi
            have := hhead t hst
            exact ⟨by omega, fun _ => by omega⟩
          | succ i =>
            simp only [List.getElem?_cons_succ] at hi
            obtain ⟨a, b⟩ := h4 i sd t hi hst
            exact ⟨a, fun hlt => b (by omega)⟩
    cases hs : (s.file sd0.rootFolder).selected with
    | none =>
      apply keep
      · simp only [reselectLoop, hs]
      · intro t ht
        rw [hs] at ht
        cases ht
    | some t0 =>
      by_cases hlt : curT < t0
      · have e : reselectLoop s (sd0 :: rest) idx cur curT
            = reselectLoop s rest (idx + 1) idx t0 := by
          simp only [reselectLoop, hs, if_pos hlt]
        rw [e]
        right
        rcases ih (idx + 1) idx t0 with ⟨h1, h2⟩ | ⟨j, sdj, tj, hj, h1, h2, h3, h4⟩
        · refine ⟨0, sd0, t0, by simp, by rw [h1]; simp, hs, hlt, ?_⟩
          intro i sd t hi hst
          cases i with
          | zero =>
            simp only [List.getElem?_cons_zero, Option.some.injEq] at hi
            subst hi
            rw [hs] at hst
            cases hst
            exact ⟨le_refl _, fun h => absurd h (by omega)⟩
          | succ i =>
            simp only [List.getElem?_cons_succ] at hi
            exact ⟨h2 i sd t hi hst, fun h => absurd h (by omega)⟩
        · refine ⟨j + 1, sdj, tj, by simpa using hj, ?_, h2, by omega, ?_⟩
          · rw [h1]
            congr 1
            omega
          · intro i sd t hi hst
            cases i with
            | zero =>
              simp only [List.getElem?_cons_zero, Option.some.injEq] at hi
              subst hi
              rw [hs] at hst
              cases hst
              exact ⟨by omega, fun _ => h3⟩
            | succ i =>
              simp only [List.getElem?_cons_succ] at hi
              obtain ⟨a, b⟩ := h4 i sd t hi hst
              exact ⟨a, fun hlt2 => b (by omega)⟩
      · apply keep
        · simp only [reselectLoop, hs, if_neg hlt]
        · intro t ht
          rw [hs] at ht
          cases ht
          omega

theorem wrapSystemId_of_lt (n k : Nat) (h : k < n) : wrapSystemId n (k : Int) = k := by
  unfold wrapSystemId
  simp only
  rw [if_neg (by omega), if_neg (by omega)]

/-- C14, as stated, fails: when the root folder of the second system is the
only one that carries a stamp and the stamp is `min_date_time` itself,
`reselectSystem` selects system 0, not the stamped system. -/
theorem reselectSystem_skips_min_date_time :
    ((demoStamped none (some 0)).file 0).selected = none ∧
    ((demoStamped none (some 0)).file 4).selected = some 0 ∧
    (demoStamped none (some 0)).systems.map (fun sd => sd.rootFolder) = [0, 4] ∧
    (reselectSystem demoEnv (demoStamped none (some 0))).map (fun s => s.mSystemId)
      = some 0 := by
  decide

/-- C14, amended: on a non-empty list of systems `reselectSystem` returns with
system k selected and its root folder as the current folder, where k is the
system whose root folder carries the most recent stamp among the stamps later
than `min_date_time`, the lowest index when several share it; when no root
folder carries a stamp later than `min_date_time`, k is 0. -/
theorem reselectSystem_picks_latest (env : Env) (s : State) (hn : s.systems ≠ []) :
    ∃ (s1 : State) (k : Nat) (sys : SystemData), reselectSystem env s = some s1 ∧ s1.mSystemId = (k : Int) ∧
      s.systems[k]? = some sys ∧ s1.mFolder = some sys.rootFolder ∧
      s1.mFolderStack = [] ∧
      ((∀ (i : Nat) (sd : SystemData) (t : Nat), s.systems[i]? = some sd → (s.file sd.rootFolder).selected = some t →
          t = 0) → k = 0) ∧
      (∀ (i : Nat) (sd : SystemData) (t : Nat), s.systems[i]? = some sd → (s.file sd.rootFolder).selected = some t →
        0 < t →
        ∃ tk, (s.file sys.rootFolder).selected = some tk ∧ t ≤ tk ∧ (i < k → t < tk)) := by
  have hlen : 0 < s.systems.length := List.length_pos.mpr hn
  unfold reselectSystem
  rcases reselectLoop_spec s s.systems 0 0 0 with ⟨h1, h2⟩ | ⟨j, sdj, tj, hj, h1, h2, h3, h4⟩
  · have hsys : s.systems[0]? = some (s.systems[0]) := List.getElem?_eq_getElem hlen
    obtain ⟨s1, e1, p1, _, p3, p4, _⟩ := setSystemId_spec env s
      (reselectLoop s s.systems 0 0 0) 0 (s.systems[0])
      (by rw [h1]; exact wrapSystemId_of_lt _ 0 hlen) hsys
    refine ⟨s1, 0, s.systems[0], e1, p1, hsys, p4, p3, fun _ => rfl, ?_⟩
    intro i sd t hi hst hpos
    have := h2 i sd t hi hst
    omega
  · have hjlt : j < s.systems.length := by
      rcases Nat.lt_or_ge j s.systems.length with h | h
      · exact h
      · rw [List.getElem?_eq_none h] at hj; cases hj
    obtain ⟨s1, e1, p1, _, p3, p4, _⟩ := setSystemId_spec env s
      (reselectLoop s s.systems 0 0 0) j sdj
      (by rw [h1]; simp only [Nat.zero_add]; exact wrapSystemId_of_lt _ j hjlt) hj
    refine ⟨s1, j, sdj, e1, p1, hj, p4, p3, ?_, ?_⟩
    · intro hall
      have := hall j sdj tj hj h2
      omega
    · intro i sd t hi hst _
      exact ⟨tj, h2, h4 i sd t hi hst⟩

theorem reselectSystem_picks_latest_witness :
    (demoStamped (some 50) (some 90)).systems ≠ [] ∧
    (reselectSystem demoEnv (demoStamped (some 50) (some 90))).map (fun s => s.mSystemId)
      = some 1 ∧
    (reselectSystem demoEnv (demoStamped (some 70) (some 70))).map (fun s => s.mSystemId)
      = some 0 ∧
    (∃ (s1 : State) (k : Nat), reselectSystem demoEnv (demoStamped (some 50) (some 90)) = some s1 ∧
      s1.mSystemId = (k : Int) ∧ s1.mFolderStack = []) := by
  obtain ⟨s1, k, sys, h1, h2, _, _, h5, _⟩ :=
    reselectSystem_picks_latest demoEnv (demoStamped (some 50) (some 90)) (by decide)
  exact ⟨by decide, by decide, by decide, s1, k, h1, h2, h5⟩

theorem anyGameWithImage_iff (s : State) (l : List Nat) :
    anyGameWithImage s l = true ↔
      ∃ p ∈ l, (s.file p).isFolder = false ∧ (s.file p).images ≠ [] := by
  induction l with
  | nil => simp [anyGameWithImage]
  | cons p rest ih =>
    unfold anyGameWithImage
    by_cases hf : (s.file p).isFolder = true
    · simp [hf, ih]
    · have hf2 : (s.file p).isFolder = false := by simpa using hf
      by_cases hi : (s.file p).images = []
      · simp [hf2, hi, ih]
      · have hlen : ((s.file p).images.length != 0) = true := by
          simpa using hi
        simp [hf2, hlen, hi]

/-- C15, as stated, fails: inside the folder `hacks` of the small library
`isDetailed` returns false although Mario, a game in the root folder of the same
system, has an image. -/
theorem isDetailed_ignores_other_folders :
    isDetailed demoInFolder = false ∧
    demoInFolder.mSystem = some 0 ∧ (demoInFolder.systems.getD 0 default).rootFolder = 0 ∧
    1 ∈ (demoInFolder.file 0).files ∧ (demoInFolder.file 1).isFolder = false ∧
    (demoInFolder.file 1).images = ["/shots/mario-0.png"] := by
  decide

/-- C15, amended: `isDetailed` returns true exactly when the current folder is
not null and some game among the files directly in the current folder has at
least one image; it returns false exactly when the current folder is null or no
game directly in it has an image. -/
theorem isDetailed_iff (s : State) :
    (isDetailed s = true ↔
      ∃ folder, s.mFolder = some folder ∧
        ∃ p ∈ (s.file folder).files, (s.file p).isFolder = false ∧ (s.file p).images ≠ []) ∧
    (isDetailed s = false ↔
      (s.mFolder = none ∨
        ∃ folder, s.mFolder = some folder ∧
          ∀ p ∈ (s.file folder).files, (s.file p).isFolder = false →
            (s.file p).images = [])) := by
  have h1 : isDetailed s = true ↔
      ∃ folder, s.mFolder = some folder ∧
        ∃ p ∈ (s.file folder).files, (s.file p).isFolder = false ∧ (s.file p).images ≠ [] := by
    unfold isDetailed
    cases hf : s.mFolder with
    | none => simp
    | some folder => simp [anyGameWithImage_iff]
  refine ⟨h1, ?_⟩
  rw [← Bool.not_eq_true, h1]
  cases hf : s.mFolder with
  | none => simp
  | some folder =>
    simp only [Option.some.injEq, exists_eq_left', reduceCtorEq, false_or]
    push_neg
    rfl

theorem SamePace.pace_refl (s : State) : SamePace s s := ⟨rfl, rfl⟩

theorem SamePace.pace_trans {a b c : State} (h1 : SamePace a b) (h2 : SamePace b c) :
    SamePace a c := ⟨h2.1.trans h1.1, h2.2.trans h1.2⟩

theorem SamePace.pace_of_session {s s1 : State} (h : s1.session = s.session) : SamePace s s1 :=
  ⟨congrArg Session.mEffectFunc h, congrArg Session.mGameLaunchEffectLength h⟩

theorem SamePace.paced {s s1 : State} (h : SamePace s s1) (hg : Paced s) : Paced s1 := by
  unfold Paced at *
  rw [h.1, h.2]
  exact hg

theorem setSortIndex_pace (env : Env) (s s1 : State) (index : Nat)
    (h : setSortIndex env s index = some s1) : SamePace s s1 := by
  have := (setSortIndex_session env s s1 index h).1
  exact ⟨congrArg Session.mEffectFunc this, congrArg Session.mGameLaunchEffectLength this⟩

theorem setNextSortIndex_pace (env : Env) (s s1 : State)
    (h : setNextSortIndex env s = some s1) : SamePace s s1 := by
  unfold setNextSortIndex at h
  by_cases hc : wrapSize ((s.sortStateIndex : Int) - 1) ≥ sortStates.length
  · rw [if_pos hc] at h
    simp only [Option.bind_eq_bind, Option.bind_eq_some] at h
    obtain ⟨s2, h2, h3⟩ := h
    exact (setSortIndex_pace env _ _ _ h2).pace_trans (setSortIndex_pace env _ _ _ h3)
  · rw [if_neg hc] at h
    simp only [Option.bind_eq_bind, Option.pure_def, Option.some_bind] at h
    exact setSortIndex_pace env _ _ _ h

theorem setPreviousSortIndex_pace (env : Env) (s s1 : State)
    (h : setPreviousSortIndex env s = some s1) : SamePace s s1 := by
  unfold setPreviousSortIndex at h
  by_cases hc : toInt32 s.sortStateIndex - 1 < 0
  · rw [if_pos hc] at h
    simp only [Option.bind_eq_bind, Option.bind_eq_some] at h
    obtain ⟨s2, h2, h3⟩ := h
    exact (setSortIndex_pace env _ _ _ h2).pace_trans (setSortIndex_pace env _ _ _ h3)
  · rw [if_neg hc] at h
    simp only [Option.bind_eq_bind, Option.pure_def, Option.some_bind] at h
    exact setSortIndex_pace env _ _ _ h

theorem setSystemId_pace (env : Env) (s s1 : State) (id : Int)
    (h : setSystemId env s id = some s1) : SamePace s s1 :=
  ⟨(setSystemId_session env s s1 id h).2.1, (setSystemId_session env s s1 id h).2.2.2.1⟩

theorem updateDetailData_pace (env : Env) (s : State) : SamePace s (updateDetailData env s) :=
  SamePace.pace_of_session (updateDetailData_session env s).1

theorem updateList_pace (s s1 : State) (h : updateList s = some s1) : SamePace s s1 :=
  SamePace.pace_of_session (updateList_session s s1 h).1

theorem inputSort_pace (env : Env) (s s1 : State) (config : InputConfig) (inp : Input)
    (r : Bool) (h : inputSort env s config inp = some (r, s1)) : SamePace s s1 := by
  have tail : ∀ s2 : State, SamePace s s2 →
      (if (config.isMappedTo "menu" inp && inp.value != 0) = true then
          some (true, s2.call .pushGuiMenu)
        else if (config.isMappedTo "select" inp && inp.value != 0) = true then
          (getSelectedObject s2).bind fun sel =>
            some (true, s2.call (.pushGuiFastSelect (s2.file sel).name))
        else if isDetailed s2 = true then
          if (config.isMappedTo "up" inp || config.isMappedTo "down" inp
              || config.isMappedTo "pageup" inp || config.isMappedTo "pagedown" inp) = true then
            if inp.value = 0 then some (true, updateDetailData env s2)
            else some (true, hideDetailData s2)
          else some (true, s2)
        else some (false, s2)) = some (r, s1) → SamePace s s1 := by
    intro s2 hg ht
    by_cases c1 : (config.isMappedTo "menu" inp && inp.value != 0) = true
    · rw [if_pos c1] at ht; cases ht; exact hg
    · rw [if_neg c1] at ht
      by_cases c2 : (config.isMappedTo "select" inp && inp.value != 0) = true
      · rw [if_pos c2] at ht
        simp only [Option.bind_eq_some, Option.some.injEq, Prod.mk.injEq] at ht
        obtain ⟨sel, _, _, rfl⟩ := ht
        exact hg
      · rw [if_neg c2] at ht
        by_cases c3 : isDetailed s2 = true
        · rw [if_pos c3] at ht
          split at ht
          · split at ht
            · cases ht; exact hg.pace_trans (updateDetailData_pace env s2)
            · cases ht; exact hg
          · cases ht; exact hg
        · rw [if_neg c3] at ht; cases ht; exact hg
  unfold inputSort at h
  by_cases d1 : (config.isMappedTo "sortordernext" inp && inp.value != 0) = true
  · rw [if_pos d1] at h
    simp only [Option.bind_eq_bind, Option.bind_eq_some, Option.pure_def] at h
    obtain ⟨s2, h2, h3⟩ := h
    exact tail s2 (setNextSortIndex_pace env s s2 h2) h3
  · rw [if_neg d1] at h
    by_cases d2 : (config.isMappedTo "sortorderprevious" inp && inp.value != 0) = true
    · rw [if_pos d2] at h
      simp only [Option.bind_eq_bind, Option.bind_eq_some, Option.pure_def] at h
      obtain ⟨s2, h2, h3⟩ := h
      exact tail s2 (setPreviousSortIndex_pace env s s2 h2) h3
    · rw [if_neg d2] at h
      simp only [Option.bind_eq_bind, Option.pure_def, Option.some_bind] at h
      exact tail s (SamePace.pace_refl s) h


theorem inputSystem_pace (env : Env) (s s1 : State) (config : InputConfig) (inp : Input)
    (r : Bool) (h : inputSystem env s config inp = some (r, s1)) : SamePace s s1 := by
  unfold inputSystem at h
  by_cases c0 : (decide (s.systems.length > 1) && inp.value != 0) = true
  · rw [if_pos c0] at h
    by_cases c1 : config.isMappedTo "right" inp = true
    · rw [if_pos c1] at h
      simp only [Option.bind_eq_bind, Option.bind_eq_some, Option.pure_def, Option.some.injEq,
        Prod.mk.injEq] at h
      obtain ⟨s2, h2, _, rfl⟩ := h
      exact setSystemId_pace env s s2 _ h2
    · rw [if_neg c1] at h
      by_cases c2 : config.isMappedTo "left" inp = true
      · rw [if_pos c2] at h
        simp only [Option.bind_eq_bind, Option.bind_eq_some, Option.pure_def,
          Option.some.injEq, Prod.mk.injEq] at h
        obtain ⟨s2, h2, _, rfl⟩ := h
        exact setSystemId_pace env s s2 _ h2
      · rw [if_neg c2] at h
        exact inputSort_pace env s s1 config inp r h
  · rw [if_neg c0] at h
    exact inputSort_pace env s s1 config inp r h

theorem inputBack_pace (env : Env) (s s1 : State) (config : InputConfig) (inp : Input)
    (r : Bool) (h : inputBack env s config inp = some (r, s1)) : SamePace s s1 := by
  unfold inputBack at h
  by_cases c0 : (config.isMappedTo "b" inp && inp.value != 0) = true
  · rw [if_pos c0] at h
    cases hst : s.mFolderStack with
    | nil =>
      rw [hst] at h
      exact inputSystem_pace env s s1 config inp r h
    | cons top rest =>
      rw [hst] at h
      simp only [Option.bind_eq_bind, Option.bind_eq_some, Option.pure_def, Option.some.injEq,
        Prod.mk.injEq] at h
      obtain ⟨s2, h2, _, rfl⟩ := h
      have g1 := updateList_pace _ _ h2
      have g2 := updateDetailData_pace env s2
      exact ⟨g2.1.trans g1.1, g2.2.trans g1.2⟩
  · rw [if_neg c0] at h
    exact inputSystem_pace env s s1 config inp r h

theorem inputConfirm_pace (env : Env) (s s1 : State) (config : InputConfig) (inp : Input)
    (file : Nat) (r : Bool) (h : inputConfirm env s config inp file = some (r, s1)) :
    SamePace s s1 ∨ s1.mEffectFunc = .updateGameLaunchEffect := by
  unfold inputConfirm at h
  by_cases c0 : config.isMappedTo "a" inp = true
  · rw [if_pos c0] at h
    cases hf : s.mFolder with
    | none => rw [hf] at h; cases h
    | some folder =>
      rw [hf] at h
      simp only at h
      by_cases c1 : (decide ((s.file folder).files.length > 0) && inp.value != 0) = true
      · rw [if_pos c1] at h
        by_cases c2 : ((s.call (.playSound "menuSelect")).file file).isFolder = true
        · rw [if_pos c2] at h
          simp only [Option.bind_eq_bind, Option.bind_eq_some, Option.pure_def,
            Option.some.injEq, Prod.mk.injEq] at h
          obtain ⟨s2, h2, _, rfl⟩ := h
          have g1 := updateList_pace _ _ h2
          have g2 := updateDetailData_pace env s2
          exact Or.inl ⟨g2.1.trans g1.1, g2.2.trans g1.2⟩
        · rw [if_neg c2] at h
          simp only [Option.some.injEq, Prod.mk.injEq] at h
          obtain ⟨_, rfl⟩ := h
          exact Or.inr rfl
      · rw [if_neg c1] at h
        exact Or.inl (inputBack_pace env s s1 config inp r h)
  · rw [if_neg c0] at h
    exact Or.inl (inputBack_pace env s s1 config inp r h)

theorem restamp_pace (env : Env) (s : State) (config : InputConfig) (inp : Input)
    (now : Nat) (r : Nat × State) (h : restamp env s config inp now = some r) :
    SamePace s r.2 :=
  SamePace.pace_of_session (restamp_session env s config inp now r h).1

theorem input_paced (env : Env) (s s1 : State) (config : InputConfig) (inp : Input)
    (now : Nat) (r : Bool) (hg : Paced s) (h : input env s config inp now = some (r, s1)) :
    Paced s1 := by
  unfold input at h
  by_cases hl : s.mLockInput = true
  · rw [if_pos hl] at h
    cases h; exact hg
  · rw [if_neg hl] at h
    simp only [Option.bind_eq_bind, Option.bind_eq_some] at h
    obtain ⟨st, hst, h2⟩ := h
    have g0 := restamp_pace env s config inp now st hst
    have hg3 : Paced st.2 := g0.paced hg
    by_cases c3 : inp.id = SDLK_F3
    · rw [if_pos c3] at h2
      split at h2 <;> (cases h2; exact hg3)
    · rw [if_neg c3] at h2
      by_cases c5 : inp.id = SDLK_F5
      · rw [if_pos c5] at h2
        cases h2; exact hg3
      · rw [if_neg c5] at h2
        rcases inputConfirm_pace env st.2 s1 config inp st.1 r h2 with g | g
        · exact g.paced hg3
        · unfold Paced
          rw [g]
          intro hc; cases hc

theorem update_paced (env : Env) (s s1 : State) (deltaTime : Int) (now : Nat)
    (hg : Paced s) (h : update env s deltaTime now = some s1) : Paced s1 := by
  unfold update at h
  simp only at h
  cases he : s.mEffectFunc with
  | null =>
    rw [he] at h
    simp only [Option.bind_eq_bind, Option.pure_def, Option.some_bind, Option.some.injEq] at h
    subst h
    intro hc
    cases hc
  | updateGameLaunchEffect =>
    rw [he] at h
    simp only [Option.bind_eq_bind, Option.bind_eq_some, Option.pure_def,
      Option.some.injEq] at h
    obtain ⟨s2, h2, rfl⟩ := h
    intro hc
    rcases updateGameLaunchEffect_gate env _ s2 _ now h2 with ⟨_, g, _⟩ | ⟨_, _, _, _, g4⟩
    · have e2 : s2.mEffectFunc = .updateGameLaunchEffect := g.2
      have hc2 : s2.mEffectFunc = .updateGameReturnEffect := hc
      rw [e2] at hc2
      cases hc2
    · exact g4
  | updateGameReturnEffect =>
    have hlen : s.mGameLaunchEffectLength = 700 := hg he
    rw [he] at h
    simp only [updateGameReturnEffect, Option.bind_eq_bind, Option.bind_eq_some,
      Option.pure_def, Option.some.injEq] at h
    obtain ⟨s2, ⟨s3, h3, h4⟩, rfl⟩ := h
    have key : s3.mGameLaunchEffectLength = 700 := by
      rcases updateGameLaunchEffect_gate env _ s3 _ now h3 with ⟨_, _, g⟩ | ⟨_, _, _, _, g4⟩
      · exact g.trans hlen
      · exact g4
    intro hc
    split at h4
    · cases h4
      cases hc
    · cases h4
      exact key

theorem step_paced (env : Env) (s s1 : State) (st : Step) (hg : Paced s)
    (h : step env s st = some s1) : Paced s1 := by
  cases st with
  | input config inp now =>
    simp only [step, Option.map_eq_some'] at h
    obtain ⟨⟨r, s2⟩, h2, rfl⟩ := h
    exact input_paced env s s2 config inp now r hg h2
  | update deltaTime now => exact update_paced env s s1 deltaTime now hg h

theorem run_paced (env : Env) (steps : List Step) (s s1 : State) (hg : Paced s)
    (h : run env s steps = some s1) : Paced s1 := by
  induction steps generalizing s with
  | nil => simp only [run, Option.some.injEq] at h; subst h; exact hg
  | cons st rest ih =>
    simp only [run, Option.bind_eq_bind, Option.bind_eq_some] at h
    obtain ⟨s2, h2, h3⟩ := h
    exact ih s2 (step_paced env s s2 st hg h2) h3

theorem construct_paced (env : Env) (files : List FileData) (systems : List SystemData)
    (fs : List FsEntry) (settingsSortIndex : Int) (s0 : State)
    (h : construct env files systems fs settingsSortIndex = some s0) : Paced s0 := by
  unfold construct reselectSystem at h
  have g := setSystemId_pace env _ s0 _ h
  intro _
  exact g.2

theorem updateGameReturnEffect_eq (env : Env) (s : State) (t : Int) (now : Nat) (ht : 0 ≤ t) :
    updateGameReturnEffect env s t now = some
      { s with centerPoint := some (centerPointAt env s s.mGameLaunchEffectLength
                 (s.mGameLaunchEffectLength - t)),
               zoomFactor := some (zoomFactorAt s.mGameLaunchEffectLength
                 (s.mGameLaunchEffectLength - t)),
               fadePercent := some (fadePercentAt s.mGameLaunchEffectLength
                 (s.mGameLaunchEffectLength - t)),
               mEffectFunc := if t ≥ s.mGameLaunchEffectLength then .null
                 else s.mEffectFunc } := by
  unfold updateGameReturnEffect
  rw [updateGameLaunchEffect_running env s _ now (by omega)]
  simp only [Option.bind_eq_bind, Option.some_bind, Option.pure_def]
  split <;> rfl

/-- C16: for every local time t from 0 on and every effect length,
`updateGameReturnEffect(t)` returns having only set the three window values
and, when t has reached the effect length, cleared the effect function: the
call record (no game launch), the file system and the library (no import of
screenshots), the effect time, the effect length and the lock flag are as before.
The same holds for an `update` step of a returning session whose effect time
after the step is not negative. -/
theorem return_effect_never_launches (env : Env) (s : State) (t : Int) (now : Nat)
    (ht : 0 ≤ t) :
    (∃ s1, updateGameReturnEffect env s t now = some s1 ∧
      s1.calls = s.calls ∧ s1.fs = s.fs ∧ s1.files = s.files ∧
      s1.mEffectTime = s.mEffectTime ∧
      s1.mGameLaunchEffectLength = s.mGameLaunchEffectLength ∧
      s1.mLockInput = s.mLockInput ∧
      s1.mEffectFunc = (if t ≥ s.mGameLaunchEffectLength then .null else s.mEffectFunc)) ∧
    (∀ deltaTime : Int, s.mEffectFunc = .updateGameReturnEffect →
      s.mEffectTime + deltaTime = t →
      ∃ s1, update env s deltaTime now = some s1 ∧
        s1.calls = s.calls ∧ s1.fs = s.fs ∧ s1.files = s.files ∧ s1.mEffectTime = t ∧
        s1.mEffectFunc ≠ .updateGameLaunchEffect) := by
  constructor
  · exact ⟨_, updateGameReturnEffect_eq env s t now ht, rfl, rfl, rfl, rfl, rfl, rfl, rfl⟩
  · intro deltaTime he e
    unfold update
    simp only [he]
    rw [e, updateGameReturnEffect_eq env _ t now ht]
    simp only [Option.bind_eq_bind, Option.some_bind, Option.pure_def]
    refine ⟨_, rfl, rfl, rfl, rfl, rfl, ?_⟩
    simp only
    split <;> simp

theorem return_effect_never_launches_witness :
    ((0 : Int) ≤ 300) ∧
    (∃ s1, updateGameReturnEffect demoEnv demoReturning 300 20 = some s1 ∧
      s1.calls = [] ∧ s1.fs = demoFs ∧ s1.mEffectTime = 100 ∧
      s1.mEffectFunc = .updateGameReturnEffect) ∧
    (∃ s1, update demoEnv demoReturning 200 20 = some s1 ∧ s1.calls = [] ∧ s1.fs = demoFs) := by
  obtain ⟨⟨s1, h1, h2, h3, _, h5, _, _, h8⟩, hu⟩ :=
    return_effect_never_launches demoEnv demoReturning 300 20 (by decide)
  obtain ⟨s2, g1, g2, g3, _⟩ := hu 200 rfl (by decide)
  exact ⟨by decide, ⟨s1, h1, h2, h3, h5, h8⟩, ⟨s2, g1, g2, g3⟩⟩

theorem smoothStep_zero : smoothStep 0 1 0 = 0 := by
  norm_num [smoothStep, clamp]

theorem tNormalized_of_nonpos (L u : Int) (hL : 0 < L) (hu : u ≤ 0) : tNormalized L u = 0 := by
  unfold tNormalized clamp
  have hLq : (0 : ℚ) < (L : ℚ) := by exact_mod_cast hL
  have huq : (u : ℚ) ≤ 0 := by exact_mod_cast hu
  have h : (u : ℚ) / (L : ℚ) ≤ 0 := div_nonpos_of_nonpos_of_nonneg huq (le_of_lt hLq)
  split
  · rfl
  · rw [if_neg (by linarith)]
    linarith

/-- C17: with the effect length at 700, which is its value in every state of
the return effect reached from the constructor by input and update steps, a
call `updateGameReturnEffect(t)` with t at or past 700 returns with the effect
function cleared and with the values it has just set on the window: zoom factor
1, fade percent 0 and the center point at `centerStart`, the point the launch
effect starts from, which is the screen center taken with integer halves of the
screen width and height (the exact center when both are even). -/
theorem return_effect_restores_view (env : Env) (s : State) (t : Int) (now : Nat)
    (hL : s.mGameLaunchEffectLength = 700) (ht : t ≥ 700) :
    (∃ s1, updateGameReturnEffect env s t now = some s1 ∧
      s1.mEffectFunc = .null ∧
      s1.zoomFactor = some 1 ∧ s1.fadePercent = some 0 ∧
      s1.centerPoint = some (centerStart env)) ∧
    centerStart env =
      (((Int.tdiv env.getScreenWidth 2 : Int) : ℚ),
       ((Int.tdiv env.getScreenHeight 2 : Int) : ℚ)) ∧
    (2 ∣ env.getScreenWidth → 2 ∣ env.getScreenHeight →
      centerStart env = ((env.getScreenWidth : ℚ) / 2, (env.getScreenHeight : ℚ) / 2)) ∧
    (∀ (files : List FileData) (systems : List SystemData) (fs : List FsEntry)
      (settingsSortIndex : Int) (steps : List Step) (s0 sr : State),
      construct env files systems fs settingsSortIndex = some s0 →
      run env s0 steps = some sr →
      sr.mEffectFunc = .updateGameReturnEffect → sr.mGameLaunchEffectLength = 700) := by
  have hn : tNormalized 700 (700 - t) = 0 := tNormalized_of_nonpos 700 _ (by decide) (by omega)
  refine ⟨⟨_, updateGameReturnEffect_eq env s t now (by omega), ?_, ?_, ?_, ?_⟩, rfl, ?_, ?_⟩
  · simp only [hL]
    rw [if_pos ht]
  · simp only [hL, zoomFactorAt, hn]
    norm_num [lerpFloat]
  · simp only [hL]
    rw [fadePercentAt_low 700 (700 - t) (by omega)]
  · simp only [hL, centerPointAt, hn, smoothStep_zero]
    simp [lerpVector2f]
  · intro hw hh
    unfold centerStart
    obtain ⟨a, ha⟩ := hw
    obtain ⟨b, hb⟩ := hh
    rw [ha, hb]
    simp only [Int.mul_tdiv_cancel_left _ (show (2 : Int) ≠ 0 by decide)]
    push_cast
    rw [Prod.mk.injEq]
    constructor <;> ring
  · intro files systems fs settingsSortIndex steps s0 sr h0 hrun
    exact run_paced env steps s0 sr
      (construct_paced env files systems fs settingsSortIndex s0 h0) hrun

theorem return_effect_restores_view_witness :
    demoReturning.mGameLaunchEffectLength = 700 ∧ ((712 : Int) ≥ 700) ∧
    (∃ s1, updateGameReturnEffect demoEnv demoReturning 712 20 = some s1 ∧
      s1.mEffectFunc = .null ∧ s1.zoomFactor = some 1 ∧ s1.fadePercent = some 0 ∧
      s1.centerPoint = some (320, 240)) := by
  obtain ⟨⟨s1, h1, h2, h3, h4, h5⟩, _, hc, _⟩ :=
    return_effect_restores_view demoEnv demoReturning 712 20 rfl (by decide)
  have e : centerStart demoEnv = (320, 240) := by
    rw [hc ⟨320, by decide⟩ ⟨240, by decide⟩]
    norm_num [demoEnv]
  exact ⟨rfl, by decide, s1, h1, h2, h3, h4, by rw [h5, e]⟩

end Gui
